import Mathlib

/-!
# flare: the per-frame pipeline of `Raycaster` and the OpenCL manager

A shallow embedding of `src/src/Raycaster.cpp` (`Render`, `LaunchTSPTraversal`,
`InitPipeline`, `InitCL`, `UpdateKernelConstants`, `Reload`, and the pure
functions `ZOrder` and `KeyPressedNoRepeat`).  The host code is
single threaded and talks to three collaborators: the OpenCL manager
(`clManager_`), the brick manager (`brickManager_`) and OpenGL.  The buffer
interface of the manager that `Raycaster` calls (`AddBuffer`, `ReleaseBuffer`,
`ReadBuffer`, `SetInt`) and the other two collaborators are not part of the
sources.  Every call the host code issues to one of them is recorded, in
program order, in a trace; what the collaborator answers is taken from a
`World`, indexed by the position of the call in the trace, so that every
sequence of answers is covered.

The second part embeds `src/src/CLManager.cpp`: the error-code table, the
platform, device, context and queue set-up and the registry of programs, as functions
on an explicit state with a log of the calls to the OpenCL driver and to the
program objects.
-/

namespace Flare

/-! ## Data model -/

/-- The two brick buffers, `BrickManager::BUFFER_INDEX`. -/
inductive BUFFER_INDEX where
  | EVEN
  | ODD
  deriving DecidableEq, Repr

/-- The access flags of a device buffer, `CLManager::Permissions`. -/
inductive Permissions where
  | READ_ONLY
  | WRITE_ONLY
  | READ_WRITE
  deriving DecidableEq, Repr

/-- The allocation mode handed to `AddBuffer`; the frame pipeline only uses
`CLManager::COPY_HOST_PTR`. -/
inductive AllocMode where
  | COPY_HOST_PTR
  deriving DecidableEq, Repr

/-- A call issued by the host code to a collaborator.  OpenGL functions are
recorded by name with their arguments as written in the source. -/
inductive Call where
  | sync
  | dropCaches
  | gl (fn : String) (args : List String)
  | ViewMatrix
  | FBOHandle
  | BindMatrix4f (shader : String) (uniform : String)
  | GetAttribLocation (shader : String) (attrib : String)
  | CheckGLError (location : String)
  | TextureBind (texture : String) (shader : String) (uniform : String) (unit : Nat)
  | SetInt (program : String) (argNr : Nat) (val : Nat)
  | AddBuffer (program : String) (argNr : Nat) (hostData : List Int) (byteSize : Nat)
      (mode : AllocMode) (permissions : Permissions)
  | PrepareProgram (program : String)
  | LaunchProgram (program : String) (gx gy lx ly : Nat)
  | FinishProgram (program : String)
  | ReadBuffer (program : String) (argNr : Nat) (byteSize : Nat) (blocking : Bool)
  | ReleaseBuffer (program : String) (argNr : Nat)
  | PBOToAtlas (bufIdx : BUFFER_INDEX)
  | BuildBrickList (bufIdx : BUFFER_INDEX) (brickRequest : List Int)
  | DiskToPBO (bufIdx : BUFFER_INDEX)
  | BrickList (bufIdx : BUFFER_INDEX)
  | InitPlatform
  | InitDevices
  | CreateContext
  | CreateCommandQueue
  | CreateProgram (program : String) (fileName : String)
  | BuildProgram (program : String)
  | CreateKernel (program : String)
  | AddTexture (program : String) (argNr : Nat) (args : List String)
  | ConfigRead
  | DeleteShaders (shader : String)
  | ShaderReload (shader : String)
  | ReadFile (transferFunction : String)
  | ConstructTexture (transferFunction : String)
  | UpdateConfig
  deriving DecidableEq, Repr

/-- One entry of the trace: the call and whether it reported success.  Calls
that return nothing are recorded with `ok = true`; `GetAttribLocation` is
recorded with `ok = false` when it yields `-1` and `CheckGLError` when it
yields something else than `GL_NO_ERROR`. -/
structure Event where
  call : Call
  ok : Bool
  deriving DecidableEq, Repr

/-- The answers of the collaborators.  The index is the number of calls
recorded before the call that is being answered. -/
structure World where
  /-- the boolean a `CLManager`, `BrickManager`, shader or texture call returns -/
  result : Nat → Bool
  /-- the device contents that `ReadBuffer` copies to the host -/
  deviceData : Nat → List Int
  /-- the list `BrickManager::BrickList` returns -/
  brickList : Nat → List Int
  /-- the contents in which `BuildBrickList` leaves the request list it is handed -/
  requestAfterBuild : Nat → List Int → List Int
  /-- the value of `GetAttribLocation` -/
  attribLocation : Nat → Int
  /-- the value of `CheckGLError` -/
  glError : Nat → Nat
  /-- whether, in the `AddBuffer` call of the brick list in `Render`, the size
  argument is evaluated before the data argument: both call `BrickList`, and
  C++ leaves the order in which the arguments of a call are evaluated open -/
  sizeArgFirst : Bool := false

/-- The two getters of the animator, as they answer during one frame. -/
structure Animator where
  CurrentTimestep : Nat
  NextTimestep : Nat
  deriving DecidableEq, Repr

/-- The part of the hierarchical index the pipeline reads. -/
structure TSP where
  NumTotalNodes : Nat
  deriving DecidableEq, Repr

/-- The values of `Config` that `Render` and `LaunchTSPTraversal` read. -/
structure Config where
  ClearCache : Bool
  LocalWorkSizeX : Nat
  LocalWorkSizeY : Nat
  deriving DecidableEq, Repr

/-- The members of `Raycaster` used by the frame pipeline.  A pointer member is
`none` when it is `NULL`; `brickManager_` and `clManager_` only record whether
they are attached.  The kernel argument numbers are constants of `Raycaster.h`,
which is not part of the sources, and are therefore kept as fields. -/
structure Raycaster where
  config_ : Config
  animator_ : Option Animator
  tsp_ : Option TSP
  brickManager_ : Bool
  matricesInitialized_ : Bool
  cubeInitialized_ : Bool
  quadInitialized_ : Bool
  framebuffersInitialized_ : Bool
  cubeFrontTex_ : Option Nat
  cubeBackTex_ : Option Nat
  quadTex_ : Option Nat
  cubeShaderProgram_ : Option Nat
  quadShaderProgram_ : Option Nat
  cubePositionAttrib_ : Int
  quadPositionAttrib_ : Int
  winWidth_ : Nat
  winHeight_ : Nat
  brickRequest_ : List Int
  tspTimestepArg_ : Nat
  tspBrickListArg_ : Nat
  timestepArg_ : Nat
  brickListArg_ : Nat
  clManager_ : Bool := true

/-- The state threaded through a member function: the object and the calls
issued so far. -/
structure Run where
  rc : Raycaster
  trace : List Event

/-- A member function: from the state before to its return value and the state
after. -/
def Proc (α : Type) : Type := Run → α × Run

instance : Monad Proc where
  pure a := fun s => (a, s)
  bind p f := fun s => f (p s).1 (p s).2

/-- The object as it is at this point of the function. -/
def self : Proc Raycaster := fun s => (s.rc, s)

/-- Assignment to members of the object. -/
def assign (f : Raycaster → Raycaster) : Proc Unit :=
  fun s => ((), { s with rc := f s.rc })

/-- A call that returns nothing. -/
def effect (c : Call) : Proc Unit :=
  fun s => ((), { s with trace := s.trace ++ [⟨c, true⟩] })

/-- A run of calls that return nothing, in order. -/
def effects : List Call → Proc Unit
  | [] => pure ()
  | c :: cs => do effect c; effects cs

/-- A call that returns a success flag. -/
def status (w : World) (c : Call) : Proc Bool :=
  fun s => (w.result s.trace.length,
    { s with trace := s.trace ++ [⟨c, w.result s.trace.length⟩] })

/-- The constant `GL_NO_ERROR`. -/
def GL_NO_ERROR : Nat := 0

/-- The value of `sizeof(int)`. -/
def sizeofInt : Nat := 4

/-- The range of `unsigned int`. -/
def UINT_RANGE : Nat := 4294967296

/-- What a copy of `dev` into the host array `host` leaves in `host`: the
array keeps its length, the leading entries are overwritten. -/
def copyInto (dev host : List Int) : List Int :=
  dev.take host.length ++ host.drop dev.length

/-- The effect of `std::vector::resize(n, v)`. -/
def resize (l : List Int) (n : Nat) (v : Int) : List Int :=
  l.take n ++ List.replicate (n - l.length) v

/-- The call `shader->GetAttribLocation(attrib)`. -/
def GetAttribLocation (w : World) (shader attrib : String) : Proc Int :=
  fun s => (w.attribLocation s.trace.length,
    { s with trace := s.trace ++
        [⟨Call.GetAttribLocation shader attrib, w.attribLocation s.trace.length != -1⟩] })

/-- The call `CheckGLError(location)`. -/
def CheckGLError (w : World) (location : String) : Proc Nat :=
  fun s => (w.glError s.trace.length,
    { s with trace := s.trace ++
        [⟨Call.CheckGLError location, w.glError s.trace.length == GL_NO_ERROR⟩] })

/-- The call `brickManager_->BrickList(bufIdx)`. -/
def BrickList (w : World) (bufIdx : BUFFER_INDEX) : Proc (List Int) :=
  fun s => (w.brickList s.trace.length,
    { s with trace := s.trace ++ [⟨Call.BrickList bufIdx, true⟩] })

/-- The call `clManager_->ReadBuffer(program, argNr, &brickRequest_[0], byteSize,
blocking)`: the device contents are copied over `brickRequest_`. -/
def ReadBuffer (w : World) (program : String) (argNr byteSize : Nat) (blocking : Bool) :
    Proc Bool :=
  fun s => (w.result s.trace.length,
    { rc := { s.rc with
        brickRequest_ := copyInto (w.deviceData s.trace.length) s.rc.brickRequest_ },
      trace := s.trace ++
        [⟨Call.ReadBuffer program argNr byteSize blocking, w.result s.trace.length⟩] })

/-- The call `brickManager_->BuildBrickList(bufIdx, brickRequest_)`: the request
list is handed over as an lvalue, so the collaborator decides what is in it
afterwards. -/
def BuildBrickList (w : World) (bufIdx : BUFFER_INDEX) : Proc Bool :=
  fun s => (w.result s.trace.length,
    { rc := { s.rc with
        brickRequest_ := w.requestAfterBuild s.trace.length s.rc.brickRequest_ },
      trace := s.trace ++
        [⟨Call.BuildBrickList bufIdx s.rc.brickRequest_, w.result s.trace.length⟩] })

/-! ## `Raycaster.cpp` -/

/-- The function `Raycaster::UpdateMatrices`: the matrices are floating point
data that no later step inspects; the function reads the view matrix of the
window manager and returns `true`. -/
def UpdateMatrices : Proc Bool := do
  effect Call.ViewMatrix
  return true

/-- The function `Raycaster::BindTransformationMatrices`. -/
def BindTransformationMatrices (w : World) (program : String) : Proc Bool := do
  if !(← status w (Call.BindMatrix4f program "modelMatrix")) then return false
  if !(← status w (Call.BindMatrix4f program "viewMatrix")) then return false
  if !(← status w (Call.BindMatrix4f program "projectionMatrix")) then return false
  return true

/-- The function `Raycaster::LaunchTSPTraversal`. -/
def LaunchTSPTraversal (w : World) (timestep : Nat) : Proc Bool := do
  let rc ← self
  if !(← status w (Call.SetInt "TSPTraversal" rc.tspTimestepArg_ timestep)) then
    return false
  if !(← status w (Call.AddBuffer "TSPTraversal" rc.tspBrickListArg_
        rc.brickRequest_ (rc.brickRequest_.length * sizeofInt)
        AllocMode.COPY_HOST_PTR Permissions.READ_WRITE)) then return false
  if !(← status w (Call.PrepareProgram "TSPTraversal")) then return false
  if !(← status w (Call.LaunchProgram "TSPTraversal" rc.winWidth_ rc.winHeight_
        rc.config_.LocalWorkSizeX rc.config_.LocalWorkSizeY)) then return false
  return true

/-- The data and the size argument of the `AddBuffer` call of the brick list in
`Render`, from what the two `BrickList` calls returned: the data (the address
of the first entry of the list) is taken from one call and the size from the
other, in the order the compiler chose. -/
def brickListArgs (w : World) (first second : List Int) : List Int × Nat :=
  if w.sizeArgFirst then (second, first.length * sizeofInt)
  else (first, second.length * sizeofInt)

/-- The block "Choose buffers" of `Render`: the pair `(currentBuf, nextBuf)`. -/
def chooseBuffers (currentTimestep : Nat) : BUFFER_INDEX × BUFFER_INDEX :=
  if currentTimestep % 2 = 0 then (BUFFER_INDEX.EVEN, BUFFER_INDEX.ODD)
  else (BUFFER_INDEX.ODD, BUFFER_INDEX.EVEN)

/-- The timesteps of the frame: the answers of the animator stored in
`unsigned int` locals, or the pair `0`, `1` without an animator. -/
def timesteps (animator : Option Animator) : Nat × Nat :=
  match animator with
  | some a => (a.CurrentTimestep % UINT_RANGE, a.NextTimestep % UINT_RANGE)
  | none => (0, 1)

/-- The function `Raycaster::Render`.  Its parameter `_timestep` is not used by
the body and is left out; log output is not recorded.  `clManager_` and
`brickManager_` are dereferenced without a check, the model is of the frames
in which both are attached.  The two `BrickList` calls in the argument list of
the `AddBuffer` of the brick list are recorded as they run, one after the
other; which of them feeds the data and which the size is `brickListArgs`. -/
def Render (w : World) : Proc Bool := do
  let rc ← self
  -- Clear cache for benchmarking
  if rc.config_.ClearCache then
    effect Call.sync
    effect Call.dropCaches
  -- Reset any errors
  effect (Call.gl "glGetError" [])
  if !rc.matricesInitialized_ then return false
  if !rc.cubeInitialized_ then return false
  if !rc.quadInitialized_ then return false
  if !rc.framebuffersInitialized_ then return false
  if rc.cubeFrontTex_.isNone || rc.cubeBackTex_.isNone || rc.quadTex_.isNone then
    return false
  if rc.cubeShaderProgram_.isNone || rc.quadShaderProgram_.isNone then return false
  if !(← UpdateMatrices) then return false
  if !(← BindTransformationMatrices w "cubeShaderProgram_") then return false
  effect (Call.gl "glClear" ["GL_COLOR_BUFFER_BIT | GL_DEPTH_BUFFER_BIT"])
  -- Render cube
  effect (Call.gl "glUseProgram" ["cubeShaderProgram_->Handle()"])
  let cubeLoc ← GetAttribLocation w "cubeShaderProgram_" "position"
  assign (fun r => { r with cubePositionAttrib_ := cubeLoc })
  if cubeLoc = -1 then return false
  effect (Call.gl "glFrontFace" ["GL_CW"])
  effect (Call.gl "glEnable" ["GL_CULL_FACE"])
  -- Front
  effects [
    Call.gl "glBindFramebuffer" ["GL_FRAMEBUFFER", "cubeFrontFBO_"],
    Call.gl "glCullFace" ["GL_BACK"],
    Call.gl "glBindVertexArray" ["cubeVAO_"],
    Call.gl "glBindBuffer" ["GL_ARRAY_BUFFER", "cubePosbufferObject_"],
    Call.gl "glEnableVertexAttribArray" ["cubePositionAttrib_"],
    Call.gl "glVertexAttribPointer" ["0", "4", "GL_FLOAT", "GL_FALSE", "0", "0"],
    Call.gl "glClear" ["GL_COLOR_BUFFER_BIT | GL_DEPTH_BUFFER_BIT"],
    Call.gl "glDrawArrays" ["GL_TRIANGLES", "0", "144"],
    Call.gl "glDisableVertexAttribArray" ["cubePositionAttrib_"],
    Call.gl "glBindBuffer" ["GL_ARRAY_BUFFER", "0"],
    Call.gl "glBindFramebuffer" ["GL_FRAMEBUFFER", "0"],
    Call.gl "glBindVertexArray" ["0"]]
  if (← CheckGLError w "Cube front rendering") ≠ GL_NO_ERROR then return false
  -- Back
  effects [
    Call.gl "glBindFramebuffer" ["GL_FRAMEBUFFER", "cubeBackFBO_"],
    Call.gl "glCullFace" ["GL_FRONT"],
    Call.gl "glBindVertexArray" ["cubeVAO_"],
    Call.gl "glBindBuffer" ["GL_ARRAY_BUFFER", "cubePosbufferObject_"],
    Call.gl "glEnableVertexAttribArray" ["cubePositionAttrib_"],
    Call.gl "glVertexAttribPointer" ["0", "4", "GL_FLOAT", "GL_FALSE", "0", "0"],
    Call.gl "glClear" ["GL_COLOR_BUFFER_BIT | GL_DEPTH_BUFFER_BIT"],
    Call.gl "glDrawArrays" ["GL_TRIANGLES", "0", "144"],
    Call.gl "glDisableVertexAttribArray" ["cubePositionAttrib_"],
    Call.gl "glBindBuffer" ["GL_ARRAY_BUFFER", "0"],
    Call.gl "glBindFramebuffer" ["GL_FRAMEBUFFER", "0"],
    Call.gl "glBindVertexArray" ["0"]]
  if (← CheckGLError w "Cube back rendering") ≠ GL_NO_ERROR then return false
  effect (Call.gl "glUseProgram" ["0"])
  let currentTimestep := (timesteps rc.animator_).1
  let nextTimestep := (timesteps rc.animator_).2
  -- Choose buffers
  let currentBuf := (chooseBuffers currentTimestep).1
  let nextBuf := (chooseBuffers currentTimestep).2
  -- Launch traversal of the next timestep
  if !(← LaunchTSPTraversal w nextTimestep) then return false
  -- While traversal of next step is working, upload current data to atlas
  if !(← status w (Call.PBOToAtlas currentBuf)) then return false
  -- Make sure the traversal kernel is done
  if !(← status w (Call.FinishProgram "TSPTraversal")) then return false
  -- Read buffer and release the memory
  let rc1 ← self
  if !(← ReadBuffer w "TSPTraversal" rc1.tspBrickListArg_
        (rc1.brickRequest_.length * sizeofInt) true) then return false
  if !(← status w (Call.ReleaseBuffer "TSPTraversal" rc1.tspBrickListArg_)) then
    return false
  -- When traversal of next timestep is done, launch raycasting kernel
  if !(← status w (Call.SetInt "RaycasterTSP" rc.timestepArg_ currentTimestep)) then
    return false
  -- Add brick list
  let brickListFirst ← BrickList w currentBuf
  let brickListSecond ← BrickList w currentBuf
  if !(← status w (Call.AddBuffer "RaycasterTSP" rc.brickListArg_
        (brickListArgs w brickListFirst brickListSecond).1
        (brickListArgs w brickListFirst brickListSecond).2
        AllocMode.COPY_HOST_PTR Permissions.READ_ONLY)) then return false
  if !(← status w (Call.PrepareProgram "RaycasterTSP")) then return false
  if !(← status w (Call.LaunchProgram "RaycasterTSP" rc.winWidth_ rc.winHeight_
        rc.config_.LocalWorkSizeX rc.config_.LocalWorkSizeY)) then return false
  -- While the raycaster kernel is working, build next brick list and start
  -- upload to the next PBO
  if !(← BuildBrickList w nextBuf) then return false
  if !(← status w (Call.DiskToPBO nextBuf)) then return false
  -- Finish raycaster and render current frame
  if !(← status w (Call.ReleaseBuffer "RaycasterTSP" rc.brickListArg_)) then
    return false
  if !(← status w (Call.FinishProgram "RaycasterTSP")) then return false
  -- Render to framebuffer using quad
  effect Call.FBOHandle
  effect (Call.gl "glBindFramebuffer" ["GL_FRAMEBUFFER", "FBOHandle()"])
  if !(← status w (Call.TextureBind "quadTex_" "quadShaderProgram_" "quadTex" 0)) then
    return false
  effect (Call.gl "glDisable" ["GL_CULL_FACE"])
  effect (Call.gl "glUseProgram" ["quadShaderProgram_->Handle()"])
  let quadLoc ← GetAttribLocation w "quadShaderProgram_" "position"
  assign (fun r => { r with quadPositionAttrib_ := quadLoc })
  if quadLoc = -1 then return false
  effects [
    Call.gl "glCullFace" ["GL_BACK"],
    Call.gl "glBindVertexArray" ["quadVAO_"],
    Call.gl "glBindBuffer" ["GL_ARRAY_BUFFER", "quadPosbufferObject_"],
    Call.gl "glEnableVertexAttribArray" ["quadPositionAttrib_"],
    Call.gl "glVertexAttribPointer" ["0", "4", "GL_FLOAT", "GL_FALSE", "0", "0"],
    Call.gl "glClear" ["GL_COLOR_BUFFER_BIT | GL_DEPTH_BUFFER_BIT"],
    Call.gl "glDrawArrays" ["GL_TRIANGLES", "0", "6"],
    Call.gl "glDisableVertexAttribArray" ["quadPositionAttrib_"],
    Call.gl "glBindVertexArray" ["0"],
    Call.gl "glBindFramebuffer" ["GL_FRAMEBUFFER", "0"]]
  if (← CheckGLError w "Quad rendering") ≠ GL_NO_ERROR then return false
  effect (Call.gl "glUseProgram" ["0"])
  -- Window manager takes care of swapping buffers
  return true

/-- The function `Raycaster::InitPipeline`; `clManager_` is dereferenced without
a check, the model is of the executions in which it is attached.  The guard
`!tsp_` tests for the null pointer, `rc.tsp_ = none`; what `tsp_` holds when
`SetTSP` was never called is decided by the constructor, see
`Raycaster.construct`. -/
def InitPipeline (w : World) : Proc Bool := do
  let rc ← self
  match rc.tsp_ with
  | none => return false
  | some tsp =>
    if !rc.brickManager_ then return false
    -- Allocate space for the brick request list
    -- Use 0 as default value
    assign (fun r => { r with brickRequest_ := resize r.brickRequest_ tsp.NumTotalNodes 0 })
    -- Run TSP traversal for timestep 0
    if !(← LaunchTSPTraversal w 0) then return false
    -- Finish TSP traversal and read results into brick request
    if !(← status w (Call.FinishProgram "TSPTraversal")) then return false
    let rc1 ← self
    if !(← ReadBuffer w "TSPTraversal" rc1.tspBrickListArg_
          (rc1.brickRequest_.length * sizeofInt) true) then return false
    -- Free device memory
    if !(← status w (Call.ReleaseBuffer "TSPTraversal" rc1.tspBrickListArg_)) then
      return false
    -- Upload data for timestep 0 to PBO
    if !(← BuildBrickList w BUFFER_INDEX.EVEN) then return false
    if !(← status w (Call.DiskToPBO BUFFER_INDEX.EVEN)) then return false
    return true

/-- The constructor `Raycaster::Raycaster(Config *_config)`: the members of its
initialiser list get the values written there.  The list names `animator_`,
`brickManager_` and `clManager_` but not `tsp_`: after construction `tsp_`
holds an indeterminate value, here `indeterminate` (`none` when the memory
happens to hold a null pointer, `some tsp` when it holds anything else, `tsp`
being what the code reads through it).  `brickRequest_` is a `std::vector` and
starts empty.  The members of the base class `Renderer` (the window size) and
the kernel argument numbers, which are not set here, are those of `base`. -/
def Raycaster.construct (config : Config) (indeterminate : Option TSP) (base : Raycaster) :
    Raycaster :=
  { base with
    config_ := config
    cubePositionAttrib_ := 0
    quadPositionAttrib_ := 0
    cubeShaderProgram_ := none
    quadShaderProgram_ := none
    cubeFrontTex_ := none
    cubeBackTex_ := none
    quadTex_ := none
    cubeInitialized_ := false
    quadInitialized_ := false
    matricesInitialized_ := false
    framebuffersInitialized_ := false
    animator_ := none
    brickManager_ := false
    clManager_ := false
    tsp_ := indeterminate
    brickRequest_ := [] }

/-- The function `Raycaster::SetTSP`; `none` is the null pointer. -/
def SetTSP (tsp : Option TSP) (rc : Raycaster) : Raycaster :=
  { rc with tsp_ := tsp }

/-- The outcome of a member function called on `rc` with no call issued yet. -/
def call (p : Proc Bool) (rc : Raycaster) : Bool × Run := p { rc := rc, trace := [] }

/-- The slot `Render` assigns to the current timestep `t`. -/
def slot (t : Nat) : BUFFER_INDEX := (chooseBuffers t).1

/-! ## Traces of a frame -/

/-- The initial segment of a list of events up to and including the first one
that reports failure. -/
def cut : List Event → List Event
  | [] => []
  | e :: es => if e.ok then e :: cut es else [e]

/-- What the world answers to the call recorded at position `k`, as a success
flag. -/
def answer (w : World) (k : Nat) : Call → Bool
  | Call.sync => true
  | Call.dropCaches => true
  | Call.gl _ _ => true
  | Call.ViewMatrix => true
  | Call.FBOHandle => true
  | Call.BrickList _ => true
  | Call.GetAttribLocation _ _ => w.attribLocation k != -1
  | Call.CheckGLError _ => w.glError k == GL_NO_ERROR
  | _ => w.result k

/-- The events of a run of calls issued from position `k` on. -/
def stamp (w : World) : Nat → List Call → List Event
  | _, [] => []
  | k, c :: cs => ⟨c, answer w k c⟩ :: stamp w (k + 1) cs

/-- The calls `Render` issues before it checks its preconditions. -/
def lead (rc : Raycaster) : List Call :=
  (if rc.config_.ClearCache then [Call.sync, Call.dropCaches] else []) ++
    [Call.gl "glGetError" []]

/-- The preconditions `Render` checks. -/
def ready (rc : Raycaster) : Bool :=
  rc.matricesInitialized_ && rc.cubeInitialized_ && rc.quadInitialized_ &&
  rc.framebuffersInitialized_ &&
  !(rc.cubeFrontTex_.isNone || rc.cubeBackTex_.isNone || rc.quadTex_.isNone) &&
  !(rc.cubeShaderProgram_.isNone || rc.quadShaderProgram_.isNone)

/-- The calls of the cube pass of `Render`, in order. -/
def cubePass : List Call := [
  Call.ViewMatrix,
  Call.BindMatrix4f "cubeShaderProgram_" "modelMatrix",
  Call.BindMatrix4f "cubeShaderProgram_" "viewMatrix",
  Call.BindMatrix4f "cubeShaderProgram_" "projectionMatrix",
  Call.gl "glClear" ["GL_COLOR_BUFFER_BIT | GL_DEPTH_BUFFER_BIT"],
  Call.gl "glUseProgram" ["cubeShaderProgram_->Handle()"],
  Call.GetAttribLocation "cubeShaderProgram_" "position",
  Call.gl "glFrontFace" ["GL_CW"],
  Call.gl "glEnable" ["GL_CULL_FACE"],
  Call.gl "glBindFramebuffer" ["GL_FRAMEBUFFER", "cubeFrontFBO_"],
  Call.gl "glCullFace" ["GL_BACK"],
  Call.gl "glBindVertexArray" ["cubeVAO_"],
  Call.gl "glBindBuffer" ["GL_ARRAY_BUFFER", "cubePosbufferObject_"],
  Call.gl "glEnableVertexAttribArray" ["cubePositionAttrib_"],
  Call.gl "glVertexAttribPointer" ["0", "4", "GL_FLOAT", "GL_FALSE", "0", "0"],
  Call.gl "glClear" ["GL_COLOR_BUFFER_BIT | GL_DEPTH_BUFFER_BIT"],
  Call.gl "glDrawArrays" ["GL_TRIANGLES", "0", "144"],
  Call.gl "glDisableVertexAttribArray" ["cubePositionAttrib_"],
  Call.gl "glBindBuffer" ["GL_ARRAY_BUFFER", "0"],
  Call.gl "glBindFramebuffer" ["GL_FRAMEBUFFER", "0"],
  Call.gl "glBindVertexArray" ["0"],
  Call.CheckGLError "Cube front rendering",
  Call.gl "glBindFramebuffer" ["GL_FRAMEBUFFER", "cubeBackFBO_"],
  Call.gl "glCullFace" ["GL_FRONT"],
  Call.gl "glBindVertexArray" ["cubeVAO_"],
  Call.gl "glBindBuffer" ["GL_ARRAY_BUFFER", "cubePosbufferObject_"],
  Call.gl "glEnableVertexAttribArray" ["cubePositionAttrib_"],
  Call.gl "glVertexAttribPointer" ["0", "4", "GL_FLOAT", "GL_FALSE", "0", "0"],
  Call.gl "glClear" ["GL_COLOR_BUFFER_BIT | GL_DEPTH_BUFFER_BIT"],
  Call.gl "glDrawArrays" ["GL_TRIANGLES", "0", "144"],
  Call.gl "glDisableVertexAttribArray" ["cubePositionAttrib_"],
  Call.gl "glBindBuffer" ["GL_ARRAY_BUFFER", "0"],
  Call.gl "glBindFramebuffer" ["GL_FRAMEBUFFER", "0"],
  Call.gl "glBindVertexArray" ["0"],
  Call.CheckGLError "Cube back rendering",
  Call.gl "glUseProgram" ["0"]]

/-- The compute and streaming calls of a frame for the timesteps `cur` and
`next`, the first of them issued at position `p`. -/
def pipelineCalls (w : World) (rc : Raycaster) (cur next p : Nat) : List Call := [
  Call.SetInt "TSPTraversal" rc.tspTimestepArg_ next,
  Call.AddBuffer "TSPTraversal" rc.tspBrickListArg_ rc.brickRequest_
    (rc.brickRequest_.length * sizeofInt) AllocMode.COPY_HOST_PTR Permissions.READ_WRITE,
  Call.PrepareProgram "TSPTraversal",
  Call.LaunchProgram "TSPTraversal" rc.winWidth_ rc.winHeight_
    rc.config_.LocalWorkSizeX rc.config_.LocalWorkSizeY,
  Call.PBOToAtlas (chooseBuffers cur).1,
  Call.FinishProgram "TSPTraversal",
  Call.ReadBuffer "TSPTraversal" rc.tspBrickListArg_ (rc.brickRequest_.length * sizeofInt) true,
  Call.ReleaseBuffer "TSPTraversal" rc.tspBrickListArg_,
  Call.SetInt "RaycasterTSP" rc.timestepArg_ cur,
  Call.BrickList (chooseBuffers cur).1,
  Call.BrickList (chooseBuffers cur).1,
  Call.AddBuffer "RaycasterTSP" rc.brickListArg_
    (brickListArgs w (w.brickList (p + 9)) (w.brickList (p + 10))).1
    (brickListArgs w (w.brickList (p + 9)) (w.brickList (p + 10))).2
    AllocMode.COPY_HOST_PTR Permissions.READ_ONLY,
  Call.PrepareProgram "RaycasterTSP",
  Call.LaunchProgram "RaycasterTSP" rc.winWidth_ rc.winHeight_
    rc.config_.LocalWorkSizeX rc.config_.LocalWorkSizeY,
  Call.BuildBrickList (chooseBuffers cur).2 (copyInto (w.deviceData (p + 6)) rc.brickRequest_),
  Call.DiskToPBO (chooseBuffers cur).2,
  Call.ReleaseBuffer "RaycasterTSP" rc.brickListArg_,
  Call.FinishProgram "RaycasterTSP"]

/-- The calls of the quad pass of `Render`, in order. -/
def quadPass : List Call := [
  Call.FBOHandle,
  Call.gl "glBindFramebuffer" ["GL_FRAMEBUFFER", "FBOHandle()"],
  Call.TextureBind "quadTex_" "quadShaderProgram_" "quadTex" 0,
  Call.gl "glDisable" ["GL_CULL_FACE"],
  Call.gl "glUseProgram" ["quadShaderProgram_->Handle()"],
  Call.GetAttribLocation "quadShaderProgram_" "position",
  Call.gl "glCullFace" ["GL_BACK"],
  Call.gl "glBindVertexArray" ["quadVAO_"],
  Call.gl "glBindBuffer" ["GL_ARRAY_BUFFER", "quadPosbufferObject_"],
  Call.gl "glEnableVertexAttribArray" ["quadPositionAttrib_"],
  Call.gl "glVertexAttribPointer" ["0", "4", "GL_FLOAT", "GL_FALSE", "0", "0"],
  Call.gl "glClear" ["GL_COLOR_BUFFER_BIT | GL_DEPTH_BUFFER_BIT"],
  Call.gl "glDrawArrays" ["GL_TRIANGLES", "0", "6"],
  Call.gl "glDisableVertexAttribArray" ["quadPositionAttrib_"],
  Call.gl "glBindVertexArray" ["0"],
  Call.gl "glBindFramebuffer" ["GL_FRAMEBUFFER", "0"],
  Call.CheckGLError "Quad rendering",
  Call.gl "glUseProgram" ["0"]]

/-- All calls of a frame that runs to its end, after the lead; the first of
them is issued at position `o`. -/
def frameCalls (w : World) (rc : Raycaster) (o : Nat) : List Call :=
  cubePass ++
  pipelineCalls w rc (timesteps rc.animator_).1 (timesteps rc.animator_).2 (o + 36) ++
  quadPass

/-- The judgement used to analyse a member function step by step: run from any
state with object `rc` and `n` recorded calls, `p` appends `cut body` to the
trace and returns whether every event of `body` reports success. -/
def Cuts (p : Proc Bool) (n : Nat) (rc : Raycaster) (body : List Event) : Prop :=
  ∀ t : List Event, t.length = n →
    (p ⟨rc, t⟩).2.trace = t ++ cut body ∧ (p ⟨rc, t⟩).1 = body.all Event.ok

/-- The calls recorded by a run, in order. -/
def callsOf (r : Bool × Run) : List Call := r.2.trace.map Event.call

/-- The slot a call reads: the argument of `PBOToAtlas` and of `BrickList`. -/
def readsSlot : Call → Option BUFFER_INDEX
  | Call.PBOToAtlas s => some s
  | Call.BrickList s => some s
  | _ => none

/-- The slot a call writes: the argument of `BuildBrickList` and of `DiskToPBO`. -/
def writesSlot : Call → Option BUFFER_INDEX
  | Call.BuildBrickList s _ => some s
  | Call.DiskToPBO s => some s
  | _ => none

/-- The calls to the compute manager `clManager_`. -/
def isCompute : Call → Bool
  | Call.SetInt _ _ _ => true
  | Call.AddBuffer _ _ _ _ _ _ => true
  | Call.PrepareProgram _ => true
  | Call.LaunchProgram _ _ _ _ _ => true
  | Call.FinishProgram _ => true
  | Call.ReadBuffer _ _ _ _ => true
  | Call.ReleaseBuffer _ _ => true
  | Call.InitPlatform => true
  | Call.InitDevices => true
  | Call.CreateContext => true
  | Call.CreateCommandQueue => true
  | Call.CreateProgram _ _ => true
  | Call.BuildProgram _ => true
  | Call.CreateKernel _ => true
  | Call.AddTexture _ _ _ => true
  | _ => false

/-- The calls to the brick streamer `brickManager_`. -/
def isStreaming : Call → Bool
  | Call.PBOToAtlas _ => true
  | Call.BuildBrickList _ _ => true
  | Call.DiskToPBO _ => true
  | Call.BrickList _ => true
  | _ => false

/-- The stages of the frame sequence: the compute and the streaming calls. -/
def isStage (c : Call) : Bool := isCompute c || isStreaming c

/-- The draw calls. -/
def isDraw : Call → Bool
  | Call.gl fn _ => fn == "glDrawArrays"
  | _ => false

/-- The draw call that puts the output texture on the display. -/
def quadDraw : Call := Call.gl "glDrawArrays" ["GL_TRIANGLES", "0", "6"]

/-- How far the traversal program is, as seen from the calls issued. -/
inductive Phase where
  | idle
  | launched
  | finished
  deriving DecidableEq, Repr

/-- Launches of the traversal program. -/
def isTraversalLaunch : Call → Bool
  | Call.LaunchProgram p _ _ _ _ => p == "TSPTraversal"
  | _ => false

/-- Barriers on the traversal program. -/
def isTraversalFinish : Call → Bool
  | Call.FinishProgram p => p == "TSPTraversal"
  | _ => false

/-- The `blocking` argument of a read-back of the traversal program; `none` for
every other call. -/
def traversalReadback : Call → Option Bool
  | Call.ReadBuffer p _ _ blocking => if p = "TSPTraversal" then some blocking else none
  | _ => none

/-- The phase of the traversal program after one more event: a launch makes it
`launched`, a `FinishProgram` that returns `true` after a launch makes it
`finished`. -/
def Phase.step (ph : Phase) (e : Event) : Phase :=
  if isTraversalLaunch e.call then Phase.launched
  else if isTraversalFinish e.call && e.ok && decide (ph = Phase.launched) then Phase.finished
  else ph

/-- Whether an event is admissible in a phase: a read-back of the traversal
program needs the phase `finished` and `blocking = true`. -/
def Phase.admits (ph : Phase) (e : Event) : Bool :=
  match traversalReadback e.call with
  | some blocking => decide (ph = Phase.finished) && blocking
  | none => true

/-- The monitor of the read-back discipline: every event of the trace is
admissible in the phase reached by the events before it. -/
def readbackGuarded : Phase → List Event → Bool
  | _, [] => true
  | ph, e :: es => ph.admits e && readbackGuarded (ph.step e) es

/-- The read-back discipline of a trace: every read-back of the traversal
program is blocking, and before it there is a `FinishProgram("TSPTraversal")`
that returned `true`, issued after a launch of the traversal program and with
no launch of the traversal program between it and the read-back. -/
def ReadbackDiscipline (t : List Event) : Prop :=
  ∀ (i : Nat) (e : Event) (blocking : Bool),
    t[i]? = some e → traversalReadback e.call = some blocking →
    blocking = true ∧
    ∃ j l : Nat, l < j ∧ j < i ∧
      (∃ f, t[j]? = some f ∧ isTraversalFinish f.call = true ∧ f.ok = true) ∧
      (∃ g, t[l]? = some g ∧ isTraversalLaunch g.call = true) ∧
      ∀ (m : Nat) (g : Event), j < m → m < i → t[m]? = some g →
        isTraversalLaunch g.call = false

/-- The collaborator `BuildBrickList` leaves the request list at its length. -/
def NoResize (w : World) : Prop :=
  ∀ (k : Nat) (l : List Int), (w.requestAfterBuild k l).length = l.length

/-- The object after a sequence of `Render` calls, one world per frame. -/
def frames : List World → Raycaster → Raycaster
  | [], rc => rc
  | w :: ws, rc => frames ws (call (Render w) rc).2.rc

/-- The calls of `InitPipeline` when it runs to its end on an index `tsp`. -/
def initCalls (w : World) (rc : Raycaster) (tsp : TSP) : List Call := [
  Call.SetInt "TSPTraversal" rc.tspTimestepArg_ 0,
  Call.AddBuffer "TSPTraversal" rc.tspBrickListArg_ (resize rc.brickRequest_ tsp.NumTotalNodes 0)
    ((resize rc.brickRequest_ tsp.NumTotalNodes 0).length * sizeofInt)
    AllocMode.COPY_HOST_PTR Permissions.READ_WRITE,
  Call.PrepareProgram "TSPTraversal",
  Call.LaunchProgram "TSPTraversal" rc.winWidth_ rc.winHeight_
    rc.config_.LocalWorkSizeX rc.config_.LocalWorkSizeY,
  Call.FinishProgram "TSPTraversal",
  Call.ReadBuffer "TSPTraversal" rc.tspBrickListArg_
    ((resize rc.brickRequest_ tsp.NumTotalNodes 0).length * sizeofInt) true,
  Call.ReleaseBuffer "TSPTraversal" rc.tspBrickListArg_,
  Call.BuildBrickList BUFFER_INDEX.EVEN
    (copyInto (w.deviceData 5) (resize rc.brickRequest_ tsp.NumTotalNodes 0)),
  Call.DiskToPBO BUFFER_INDEX.EVEN]

/-- The judgement that a member function keeps the length of `brickRequest_`. -/
def Keeps (n : Nat) {α : Type} (p : Proc α) : Prop :=
  ∀ s : Run, s.rc.brickRequest_.length = n → (p s).2.rc.brickRequest_.length = n

/-! ## Concrete inputs -/

/-- A world in which every call succeeds. -/
def okWorld : World where
  result := fun _ => true
  deviceData := fun _ => [1, 0, 1]
  brickList := fun _ => [7, 8]
  requestAfterBuild := fun _ l => l.map (fun _ => 0)
  attribLocation := fun _ => 0
  glError := fun _ => 0

/-- A world in which the call at position `k` fails and every other call
succeeds. -/
def stageFailWorld (k : Nat) : World where
  result := fun n => n != k
  deviceData := fun _ => []
  brickList := fun _ => []
  requestAfterBuild := fun _ l => l
  attribLocation := fun _ => 0
  glError := fun _ => 0

/-- A fully set up raycaster without animator on an index of eight nodes. -/
def rcReady : Raycaster where
  config_ := ⟨false, 16, 16⟩
  animator_ := none
  tsp_ := some ⟨8⟩
  brickManager_ := true
  matricesInitialized_ := true
  cubeInitialized_ := true
  quadInitialized_ := true
  framebuffersInitialized_ := true
  cubeFrontTex_ := some 1
  cubeBackTex_ := some 2
  quadTex_ := some 3
  cubeShaderProgram_ := some 4
  quadShaderProgram_ := some 5
  cubePositionAttrib_ := 0
  quadPositionAttrib_ := 0
  winWidth_ := 512
  winHeight_ := 512
  brickRequest_ := []
  tspTimestepArg_ := 3
  tspBrickListArg_ := 4
  timestepArg_ := 9
  brickListArg_ := 6

/-- The raycaster `rcReady` with an animator that answers `cur` and `next`. -/
def rcAnimated (cur next : Nat) : Raycaster :=
  { rcReady with animator_ := some ⟨cur, next⟩ }

/-- A world in which every call succeeds, except that the `CheckGLError` at
position `k` reports `GL_INVALID_OPERATION`. -/
def glErrorWorld (k : Nat) : World where
  result := fun _ => true
  deviceData := fun _ => [1, 0, 1]
  brickList := fun _ => [7, 8]
  requestAfterBuild := fun _ l => l
  attribLocation := fun _ => 0
  glError := fun n => if n = k then 1282 else 0

/-- A world in which every call succeeds, the brick list grows from one
`BrickList` call to the next and the size argument of `AddBuffer` is evaluated
before its data argument. -/
def sizeFirstWorld : World where
  result := fun _ => true
  deviceData := fun _ => [1, 0, 1]
  brickList := fun n => List.replicate n 7
  requestAfterBuild := fun _ l => l
  attribLocation := fun _ => 0
  glError := fun _ => 0
  sizeArgFirst := true

/-! ## `Raycaster.cpp`: set-up and reload -/

/-- The values that `InitCL` and `UpdateKernelConstants` take from outside the
sources: the kernel argument numbers and structure sizes (constants of
`Raycaster.h` and `KernelConstants.h`), the two kernel file names the
configuration holds and the data of the index (`tsp_->Data()`, of
`tsp_->Size()` entries). -/
structure Setup where
  cubeFrontArg_ : Nat
  cubeBackArg_ : Nat
  quadArg_ : Nat
  textureAtlasArg_ : Nat
  constantsArg_ : Nat
  transferFunctionArg_ : Nat
  tspArg_ : Nat
  tspCubeFrontArg_ : Nat
  tspCubeBackArg_ : Nat
  tspConstantsArg_ : Nat
  tspTSPArg_ : Nat
  sizeofKernelConstants : Nat
  sizeofTraversalConstants : Nat
  TSPTraversalKernelFilename : String
  RaycasterKernelFilename : String
  tspData : List Int

/-- The memory images of `kernelConstants_` and `traversalConstants_` after the
assignments of one `UpdateKernelConstants` call; the values come from getters of
the configuration, the index and the brick manager. -/
structure Constants where
  kernelConstants_ : List Int
  traversalConstants_ : List Int

/-- The function `Raycaster::UpdateKernelConstants`.  The configuration is a
value of the model, so the check of `config_` always passes; `brickManager_` is
dereferenced without a check. -/
def UpdateKernelConstants (a : Setup) (k : Constants) (w : World) : Proc Bool := do
  let rc ← self
  if rc.tsp_.isNone then return false
  if !(← status w (Call.AddBuffer "RaycasterTSP" a.constantsArg_ k.kernelConstants_
        a.sizeofKernelConstants AllocMode.COPY_HOST_PTR Permissions.READ_ONLY)) then
    return false
  if !(← status w (Call.AddBuffer "TSPTraversal" a.tspConstantsArg_ k.traversalConstants_
        a.sizeofTraversalConstants AllocMode.COPY_HOST_PTR Permissions.READ_ONLY)) then
    return false
  return true

/-- The function `Raycaster::InitCL`.  The textures, the index and the brick
manager are dereferenced without a check. -/
def InitCL (a : Setup) (k : Constants) (w : World) : Proc Bool := do
  let rc ← self
  if !rc.clManager_ then return false
  -- Init common OpenCL resources
  if !(← status w Call.InitPlatform) then return false
  if !(← status w Call.InitDevices) then return false
  if !(← status w Call.CreateContext) then return false
  if !(← status w Call.CreateCommandQueue) then return false
  -- TSP traversal part of raycaster
  if !(← status w (Call.CreateProgram "TSPTraversal" a.TSPTraversalKernelFilename)) then
    return false
  if !(← status w (Call.BuildProgram "TSPTraversal")) then return false
  if !(← status w (Call.CreateKernel "TSPTraversal")) then return false
  if !(← status w (Call.AddTexture "TSPTraversal" a.tspCubeFrontArg_
        ["cubeFrontTex_", "CLManager::TEXTURE_2D", "CLManager::READ_ONLY", "cubeFrontCLmem"]))
    then return false
  if !(← status w (Call.AddTexture "TSPTraversal" a.tspCubeBackArg_
        ["cubeBackTex_", "CLManager::TEXTURE_2D", "CLManager::READ_ONLY", "cubeBackCLmem"]))
    then return false
  if !(← status w (Call.AddBuffer "TSPTraversal" a.tspTSPArg_ a.tspData
        (a.tspData.length * sizeofInt) AllocMode.COPY_HOST_PTR Permissions.READ_ONLY)) then
    return false
  -- Raycaster part
  if !(← status w (Call.CreateProgram "RaycasterTSP" a.RaycasterKernelFilename)) then
    return false
  if !(← status w (Call.BuildProgram "RaycasterTSP")) then return false
  if !(← status w (Call.CreateKernel "RaycasterTSP")) then return false
  if !(← status w (Call.AddTexture "RaycasterTSP" a.cubeFrontArg_
        ["cubeFrontCLmem", "CLManager::READ_ONLY"])) then return false
  if !(← status w (Call.AddTexture "RaycasterTSP" a.cubeBackArg_
        ["cubeBackCLmem", "CLManager::READ_ONLY"])) then return false
  if !(← status w (Call.AddTexture "RaycasterTSP" a.quadArg_
        ["quadTex_", "CLManager::TEXTURE_2D", "CLManager::WRITE_ONLY"])) then return false
  if !(← status w (Call.AddTexture "RaycasterTSP" a.textureAtlasArg_
        ["brickManager_->TextureAtlas()", "CLManager::TEXTURE_3D", "CLManager::READ_ONLY"]))
    then return false
  if !(← status w (Call.AddTexture "RaycasterTSP" a.transferFunctionArg_
        ["transferFunctions_[0]->Texture()", "CLManager::TEXTURE_2D", "CLManager::READ_ONLY"]))
    then return false
  if !(← status w (Call.AddBuffer "RaycasterTSP" a.tspArg_ a.tspData
        (a.tspData.length * sizeofInt) AllocMode.COPY_HOST_PTR Permissions.READ_ONLY)) then
    return false
  -- Update and add kernel constants
  if !(← UpdateKernelConstants a k w) then return false
  return true

/-- The function `Raycaster::ReloadShaders`; the value of `CheckGLError` is not
inspected. -/
def ReloadShaders (w : World) : Proc Bool := do
  effect (Call.gl "glGetError" [])
  if !(← status w (Call.DeleteShaders "cubeShaderProgram_")) then return false
  if !(← status w (Call.DeleteShaders "quadShaderProgram_")) then return false
  if !(← status w (Call.ShaderReload "cubeShaderProgram_")) then return false
  if !(← status w (Call.ShaderReload "quadShaderProgram_")) then return false
  let _ ← CheckGLError w "ReloadShaders()"
  return true

/-- The function `Raycaster::ReloadTransferFunctions`. -/
def ReloadTransferFunctions (a : Setup) (w : World) : Proc Bool := do
  if !(← status w (Call.ReadFile "transferFunctions_[0]")) then return false
  if !(← status w (Call.ConstructTexture "transferFunctions_[0]")) then return false
  if !(← status w (Call.AddTexture "RaycasterTSP" a.transferFunctionArg_
        ["transferFunctions_[0]->Texture()", "CLManager::TEXTURE_2D", "CLManager::READ_ONLY"]))
    then return false
  return true

/-- The call `config_->Read()`: the configuration is read again from its file,
which holds `fileConfig`. -/
def ConfigRead (w : World) (fileConfig : Config) : Proc Bool :=
  fun s => (w.result s.trace.length,
    { rc := { s.rc with config_ := fileConfig },
      trace := s.trace ++ [⟨Call.ConfigRead, w.result s.trace.length⟩] })

/-- The function `Raycaster::Reload`; the shaders, the transfer function and
the animator are dereferenced without a check. -/
def Reload (a : Setup) (k : Constants) (w : World) (fileConfig : Config) : Proc Bool := do
  if !(← ConfigRead w fileConfig) then return false
  if !(← UpdateKernelConstants a k w) then return false
  if !(← ReloadShaders w) then return false
  if !(← ReloadTransferFunctions a w) then return false
  if !(← status w Call.UpdateConfig) then return false
  return true

/-! ## Sequences of calls -/

/-- The member functions a sequence is made of, with the data the call takes
from outside the object. -/
inductive Op where
  | InitCL (k : Constants)
  | InitPipeline
  | Render
  | UpdateKernelConstants (k : Constants)
  | Reload (k : Constants) (fileConfig : Config)

/-- The member function an `Op` stands for. -/
def Op.run (a : Setup) (w : World) : Op → Proc Bool
  | Op.InitCL k => Flare.InitCL a k w
  | Op.InitPipeline => Flare.InitPipeline w
  | Op.Render => Flare.Render w
  | Op.UpdateKernelConstants k => Flare.UpdateKernelConstants a k w
  | Op.Reload k fileConfig => Flare.Reload a k w fileConfig

/-- One call of a sequence: what the rest of the program did to the object
since the call before (setters, the animator moving on), the member function
and the answers of the collaborators during the call. -/
structure Step where
  before : Raycaster → Raycaster
  op : Op
  world : World

/-- What one call of a sequence did: the member function, its return value and
the calls it issued. -/
structure Outcome where
  op : Op
  result : Bool
  calls : List Call

/-- The calls of a sequence, each with its return value and the calls it
issued; the object a call leaves is the one the next step starts from. -/
def session (a : Setup) : List Step → Raycaster → List Outcome
  | [], _ => []
  | s :: rest, rc =>
    ⟨s.op, (call (s.op.run a s.world) (s.before rc)).1,
        callsOf (call (s.op.run a s.world) (s.before rc))⟩ ::
      session a rest (call (s.op.run a s.world) (s.before rc)).2.rc

/-- All calls of a sequence, in the order in which they are issued. -/
def sessionCalls (a : Setup) (steps : List Step) (rc : Raycaster) : List Call :=
  ((session a steps rc).map Outcome.calls).flatten

/-- The ops that run `UpdateKernelConstants`: the function itself, `InitCL` and
`Reload`. -/
def Op.isUpdate : Op → Bool
  | Op.InitCL _ => true
  | Op.UpdateKernelConstants _ => true
  | Op.Reload _ _ => true
  | _ => false

/-- The ops of the frame pipeline: `InitPipeline` and `Render`. -/
def Op.isFrame : Op → Bool
  | Op.InitPipeline => true
  | Op.Render => true
  | _ => false

/-- The number of calls of a sequence that run `UpdateKernelConstants`. -/
def updates (steps : List Step) : Nat := (steps.filter (fun s => s.op.isUpdate)).length

/-- The two argument numbers of the buffers of the frame pipeline. -/
def frameArgs (rc : Raycaster) : Nat × Nat := (rc.tspBrickListArg_, rc.brickListArg_)

/-- The code between two calls leaves the kernel argument numbers alone: they
are constants of the class. -/
def KeepsArgs (f : Raycaster → Raycaster) : Prop :=
  ∀ r : Raycaster, frameArgs (f r) = frameArgs r

/-- The judgement that a member function leaves the value `f` of the object as
it was. -/
def Maintains {α β : Type} (f : Raycaster → β) (p : Proc α) : Prop :=
  ∀ s : Run, f (p s).2.rc = f s.rc

/-- The judgement that a member function issues, whatever the collaborators
answer, a run of calls that is a prefix of `calls`. -/
def Issues {α : Type} (p : Proc α) (calls : List Call) : Prop :=
  ∀ s : Run, ∃ l : List Call, l <+: calls ∧
    (p s).2.trace.map Event.call = s.trace.map Event.call ++ l

/-! ## Buffers of a kernel argument slot -/

/-- The slot, program name and argument number, an `AddBuffer` call gives a
buffer to. -/
def added : Call → Option (String × Nat)
  | Call.AddBuffer p a _ _ _ _ => some (p, a)
  | _ => none

/-- The slot a `ReleaseBuffer` call frees. -/
def released : Call → Option (String × Nat)
  | Call.ReleaseBuffer p a => some (p, a)
  | _ => none

/-- The slots that hold a buffer after the call `c`, when `held` did before. -/
def hold (held : List (String × Nat)) : Call → List (String × Nat)
  | Call.AddBuffer p a _ _ _ _ => (p, a) :: held
  | Call.ReleaseBuffer p a => held.filter (fun s => decide (s ≠ (p, a)))
  | _ => held

/-- The slots that hold a buffer after a run of calls. -/
def heldAfter (held : List (String × Nat)) (cs : List Call) : List (String × Nat) :=
  cs.foldl hold held

/-- The slots to which a run of calls added a buffer that it did not release. -/
def unreleased (cs : List Call) : List (String × Nat) := heldAfter [] cs

/-- The monitor of the claim: no `AddBuffer` goes to a slot that holds a
buffer. -/
def noDoubleAdd : List (String × Nat) → List Call → Bool
  | _, [] => true
  | held, c :: cs =>
    (match added c with
      | some s => decide (s ∉ held)
      | none => true) && noDoubleAdd (hold held c) cs

/-- The property of a run of calls: between two `AddBuffer` calls for the same
slot there is a `ReleaseBuffer` call for that slot. -/
def AddDiscipline (cs : List Call) : Prop :=
  ∀ (pre mid post : List Call) (c1 c2 : Call) (s : String × Nat),
    cs = pre ++ c1 :: (mid ++ c2 :: post) → added c1 = some s → added c2 = some s →
    ∃ c ∈ mid, released c = some s

/-- The calls that add or release a buffer. -/
def isBufferCall : Call → Bool
  | Call.AddBuffer _ _ _ _ _ _ => true
  | Call.ReleaseBuffer _ _ => true
  | _ => false

/-- What happens to one slot. -/
inductive BufferOp where
  | add
  | release
  deriving DecidableEq, Repr

/-- What a run of calls does to the slot `argNr` of `program`, in order. -/
def slotOps (program : String) (argNr : Nat) : List Call → List BufferOp
  | [] => []
  | Call.AddBuffer p a _ _ _ _ :: cs =>
    if p = program ∧ a = argNr then BufferOp.add :: slotOps program argNr cs
    else slotOps program argNr cs
  | Call.ReleaseBuffer p a :: cs =>
    if p = program ∧ a = argNr then BufferOp.release :: slotOps program argNr cs
    else slotOps program argNr cs
  | _ :: cs => slotOps program argNr cs

/-- The slots to which `InitCL` and `UpdateKernelConstants` add a buffer. -/
def updateSlots (a : Setup) : List (String × Nat) :=
  [("TSPTraversal", a.tspTSPArg_), ("RaycasterTSP", a.tspArg_),
    ("RaycasterTSP", a.constantsArg_), ("TSPTraversal", a.tspConstantsArg_)]

/-- The slots that receive a buffer are pairwise distinct: within each program
the argument numbers of the index, of the constants and of the brick list
differ. -/
def DistinctArgs (a : Setup) (rc : Raycaster) : Prop :=
  a.tspTSPArg_ ≠ a.tspConstantsArg_ ∧ a.tspArg_ ≠ a.constantsArg_ ∧
  rc.tspBrickListArg_ ≠ a.tspTSPArg_ ∧ rc.tspBrickListArg_ ≠ a.tspConstantsArg_ ∧
  rc.brickListArg_ ≠ a.tspArg_ ∧ rc.brickListArg_ ≠ a.constantsArg_

/-- The calls of `UpdateKernelConstants` when it runs to its end. -/
def updateCalls (a : Setup) (k : Constants) : List Call := [
  Call.AddBuffer "RaycasterTSP" a.constantsArg_ k.kernelConstants_
    a.sizeofKernelConstants AllocMode.COPY_HOST_PTR Permissions.READ_ONLY,
  Call.AddBuffer "TSPTraversal" a.tspConstantsArg_ k.traversalConstants_
    a.sizeofTraversalConstants AllocMode.COPY_HOST_PTR Permissions.READ_ONLY]

/-- The calls of `InitCL` when it runs to its end. -/
def initCLCalls (a : Setup) (k : Constants) : List Call := [
  Call.InitPlatform,
  Call.InitDevices,
  Call.CreateContext,
  Call.CreateCommandQueue,
  Call.CreateProgram "TSPTraversal" a.TSPTraversalKernelFilename,
  Call.BuildProgram "TSPTraversal",
  Call.CreateKernel "TSPTraversal",
  Call.AddTexture "TSPTraversal" a.tspCubeFrontArg_
    ["cubeFrontTex_", "CLManager::TEXTURE_2D", "CLManager::READ_ONLY", "cubeFrontCLmem"],
  Call.AddTexture "TSPTraversal" a.tspCubeBackArg_
    ["cubeBackTex_", "CLManager::TEXTURE_2D", "CLManager::READ_ONLY", "cubeBackCLmem"],
  Call.AddBuffer "TSPTraversal" a.tspTSPArg_ a.tspData
    (a.tspData.length * sizeofInt) AllocMode.COPY_HOST_PTR Permissions.READ_ONLY,
  Call.CreateProgram "RaycasterTSP" a.RaycasterKernelFilename,
  Call.BuildProgram "RaycasterTSP",
  Call.CreateKernel "RaycasterTSP",
  Call.AddTexture "RaycasterTSP" a.cubeFrontArg_ ["cubeFrontCLmem", "CLManager::READ_ONLY"],
  Call.AddTexture "RaycasterTSP" a.cubeBackArg_ ["cubeBackCLmem", "CLManager::READ_ONLY"],
  Call.AddTexture "RaycasterTSP" a.quadArg_
    ["quadTex_", "CLManager::TEXTURE_2D", "CLManager::WRITE_ONLY"],
  Call.AddTexture "RaycasterTSP" a.textureAtlasArg_
    ["brickManager_->TextureAtlas()", "CLManager::TEXTURE_3D", "CLManager::READ_ONLY"],
  Call.AddTexture "RaycasterTSP" a.transferFunctionArg_
    ["transferFunctions_[0]->Texture()", "CLManager::TEXTURE_2D", "CLManager::READ_ONLY"],
  Call.AddBuffer "RaycasterTSP" a.tspArg_ a.tspData
    (a.tspData.length * sizeofInt) AllocMode.COPY_HOST_PTR Permissions.READ_ONLY] ++
  updateCalls a k

/-- The calls of `Reload` when it runs to its end. -/
def reloadCalls (a : Setup) (k : Constants) : List Call :=
  [Call.ConfigRead] ++ updateCalls a k ++ [
  Call.gl "glGetError" [],
  Call.DeleteShaders "cubeShaderProgram_",
  Call.DeleteShaders "quadShaderProgram_",
  Call.ShaderReload "cubeShaderProgram_",
  Call.ShaderReload "quadShaderProgram_",
  Call.CheckGLError "ReloadShaders()",
  Call.ReadFile "transferFunctions_[0]",
  Call.ConstructTexture "transferFunctions_[0]",
  Call.AddTexture "RaycasterTSP" a.transferFunctionArg_
    ["transferFunctions_[0]->Texture()", "CLManager::TEXTURE_2D", "CLManager::READ_ONLY"],
  Call.UpdateConfig]

/-- Argument numbers and data for the concrete inputs. -/
def okSetup : Setup where
  cubeFrontArg_ := 0
  cubeBackArg_ := 1
  quadArg_ := 2
  textureAtlasArg_ := 3
  constantsArg_ := 4
  transferFunctionArg_ := 5
  tspArg_ := 7
  tspCubeFrontArg_ := 0
  tspCubeBackArg_ := 1
  tspConstantsArg_ := 2
  tspTSPArg_ := 5
  sizeofKernelConstants := 44
  sizeofTraversalConstants := 28
  TSPTraversalKernelFilename := "TSPTraversal.cl"
  RaycasterKernelFilename := "RaycasterTSP.cl"
  tspData := [0, 1, 2, 3]

/-- Constants images for the concrete inputs. -/
def okConstants : Constants where
  kernelConstants_ := [0, 1, 1, 2, 8, 8, 2, 0, 0, 1, 10]
  traversalConstants_ := [0, 1, 2, 8, 8, 0, 0]

/-- A step on which the rest of the program left the object alone and every
call of the collaborators succeeds. -/
def okStep (op : Op) : Step := ⟨id, op, okWorld⟩

/-! ## `Raycaster.cpp`: the Morton code -/

/-- The range of `uint16_t`. -/
def UINT16_RANGE : Nat := 65536

/-- The range of `uint32_t`. -/
def UINT32_RANGE : Nat := 4294967296

/-- The left shift of a `uint32_t`: the bits shifted past bit 31 are lost. -/
def shl32 (v k : Nat) : Nat := (v <<< k) % UINT32_RANGE

/-- The function `ZOrder`; the arguments are the values of the `uint16_t`
parameters, which the casts to `uint32_t` keep. -/
def ZOrder (xPos yPos zPos : Nat) : Nat :=
  let x := xPos
  let y := yPos
  let z := zPos
  let x := (x ||| shl32 x 16) &&& 0x030000FF
  let x := (x ||| shl32 x 8) &&& 0x0300F00F
  let x := (x ||| shl32 x 4) &&& 0x030C30C3
  let x := (x ||| shl32 x 2) &&& 0x09249249
  let y := (y ||| shl32 y 16) &&& 0x030000FF
  let y := (y ||| shl32 y 8) &&& 0x0300F00F
  let y := (y ||| shl32 y 4) &&& 0x030C30C3
  let y := (y ||| shl32 y 2) &&& 0x09249249
  let z := (z ||| shl32 z 16) &&& 0x030000FF
  let z := (z ||| shl32 z 8) &&& 0x0300F00F
  let z := (z ||| shl32 z 4) &&& 0x030C30C3
  let z := (z ||| shl32 z 2) &&& 0x09249249
  let result := x ||| shl32 y 1 ||| shl32 z 2
  result

/-- The four steps `ZOrder` applies to each of its three coordinates. -/
def spread (v : Nat) : Nat :=
  let x := v
  let x := (x ||| shl32 x 16) &&& 0x030000FF
  let x := (x ||| shl32 x 8) &&& 0x0300F00F
  let x := (x ||| shl32 x 4) &&& 0x030C30C3
  let x := (x ||| shl32 x 2) &&& 0x09249249
  x

/-! ## `Raycaster.cpp`: key presses -/

/-- The member `std::map<int, bool>::find` on `keysLastState_`, kept as a list
of entries: the value stored under `key`, if any. -/
def keyFind : List (Int × Bool) → Int → Option Bool
  | [], _ => none
  | (k, v) :: rest, key => if k = key then some v else keyFind rest key

/-- The assignment `it->second = _pressed` to the entry `find` returned. -/
def keyAssign : List (Int × Bool) → Int → Bool → List (Int × Bool)
  | [], _, _ => []
  | (k, v) :: rest, key, pressed =>
    if k = key then (k, pressed) :: rest else (k, v) :: keyAssign rest key pressed

/-- The function `Raycaster::SetKeyLastState` on the member `keysLastState_`. -/
def SetKeyLastState (keysLastState_ : List (Int × Bool)) (key : Int) (pressed : Bool) :
    List (Int × Bool) :=
  match keyFind keysLastState_ key with
  | none => keysLastState_ ++ [(key, pressed)]
  | some _ => keyAssign keysLastState_ key pressed

/-- The function `Raycaster::KeyLastState`. -/
def KeyLastState (keysLastState_ : List (Int × Bool)) (key : Int) : Bool :=
  match keyFind keysLastState_ key with
  | none => false
  | some v => v

/-- The function `Raycaster::KeyPressedNoRepeat`: the return value and the
member `keysLastState_` after the call.  `KeyPressed` is not part of the
sources; `keyPressed` is what it answers for `key` during the call. -/
def KeyPressedNoRepeat (keyPressed : Bool) (keysLastState_ : List (Int × Bool)) (key : Int) :
    Bool × List (Int × Bool) :=
  if keyPressed = true then
    if KeyLastState keysLastState_ key = false then
      (true, SetKeyLastState keysLastState_ key true)
    else (false, keysLastState_)
  else
    (false, SetKeyLastState keysLastState_ key false)

/-- The return values of the calls for `key` in a run of `KeyPressedNoRepeat`
calls, each given with its key and the answer of `KeyPressed`. -/
def keyResults (key : Int) : List (Int × Bool) → List (Int × Bool) → List Bool
  | _, [] => []
  | keysLastState_, (k, keyPressed) :: rest =>
    if k = key then
      (KeyPressedNoRepeat keyPressed keysLastState_ k).1 ::
        keyResults key (KeyPressedNoRepeat keyPressed keysLastState_ k).2 rest
    else keyResults key (KeyPressedNoRepeat keyPressed keysLastState_ k).2 rest

/-! ## `CLManager.cpp`: error codes -/

/-! The error codes of the OpenCL header `CL/cl.h` that `ErrorString` names, with
the values the header gives them. -/

/-- The constant `CL_SUCCESS` of the OpenCL header. -/
def CL_SUCCESS : Int := 0

/-- The constant `CL_DEVICE_NOT_FOUND` of the OpenCL header. -/
def CL_DEVICE_NOT_FOUND : Int := -1

/-- The constant `CL_DEVICE_NOT_AVAILABLE` of the OpenCL header. -/
def CL_DEVICE_NOT_AVAILABLE : Int := -2

/-- The constant `CL_COMPILER_NOT_AVAILABLE` of the OpenCL header. -/
def CL_COMPILER_NOT_AVAILABLE : Int := -3

/-- The constant `CL_MEM_OBJECT_ALLOCATION_FAILURE` of the OpenCL header. -/
def CL_MEM_OBJECT_ALLOCATION_FAILURE : Int := -4

/-- The constant `CL_OUT_OF_RESOURCES` of the OpenCL header. -/
def CL_OUT_OF_RESOURCES : Int := -5

/-- The constant `CL_OUT_OF_HOST_MEMORY` of the OpenCL header. -/
def CL_OUT_OF_HOST_MEMORY : Int := -6

/-- The constant `CL_PROFILING_INFO_NOT_AVAILABLE` of the OpenCL header. -/
def CL_PROFILING_INFO_NOT_AVAILABLE : Int := -7

/-- The constant `CL_MEM_COPY_OVERLAP` of the OpenCL header. -/
def CL_MEM_COPY_OVERLAP : Int := -8

/-- The constant `CL_IMAGE_FORMAT_MISMATCH` of the OpenCL header. -/
def CL_IMAGE_FORMAT_MISMATCH : Int := -9

/-- The constant `CL_IMAGE_FORMAT_NOT_SUPPORTED` of the OpenCL header. -/
def CL_IMAGE_FORMAT_NOT_SUPPORTED : Int := -10

/-- The constant `CL_BUILD_PROGRAM_FAILURE` of the OpenCL header. -/
def CL_BUILD_PROGRAM_FAILURE : Int := -11

/-- The constant `CL_MAP_FAILURE` of the OpenCL header. -/
def CL_MAP_FAILURE : Int := -12

/-- The constant `CL_INVALID_VALUE` of the OpenCL header. -/
def CL_INVALID_VALUE : Int := -30

/-- The constant `CL_INVALID_DEVICE_TYPE` of the OpenCL header. -/
def CL_INVALID_DEVICE_TYPE : Int := -31

/-- The constant `CL_INVALID_PLATFORM` of the OpenCL header. -/
def CL_INVALID_PLATFORM : Int := -32

/-- The constant `CL_INVALID_DEVICE` of the OpenCL header. -/
def CL_INVALID_DEVICE : Int := -33

/-- The constant `CL_INVALID_CONTEXT` of the OpenCL header. -/
def CL_INVALID_CONTEXT : Int := -34

/-- The constant `CL_INVALID_QUEUE_PROPERTIES` of the OpenCL header. -/
def CL_INVALID_QUEUE_PROPERTIES : Int := -35

/-- The constant `CL_INVALID_COMMAND_QUEUE` of the OpenCL header. -/
def CL_INVALID_COMMAND_QUEUE : Int := -36

/-- The constant `CL_INVALID_HOST_PTR` of the OpenCL header. -/
def CL_INVALID_HOST_PTR : Int := -37

/-- The constant `CL_INVALID_MEM_OBJECT` of the OpenCL header. -/
def CL_INVALID_MEM_OBJECT : Int := -38

/-- The constant `CL_INVALID_IMAGE_FORMAT_DESCRIPTOR` of the OpenCL header. -/
def CL_INVALID_IMAGE_FORMAT_DESCRIPTOR : Int := -39

/-- The constant `CL_INVALID_IMAGE_SIZE` of the OpenCL header. -/
def CL_INVALID_IMAGE_SIZE : Int := -40

/-- The constant `CL_INVALID_SAMPLER` of the OpenCL header. -/
def CL_INVALID_SAMPLER : Int := -41

/-- The constant `CL_INVALID_BINARY` of the OpenCL header. -/
def CL_INVALID_BINARY : Int := -42

/-- The constant `CL_INVALID_BUILD_OPTIONS` of the OpenCL header. -/
def CL_INVALID_BUILD_OPTIONS : Int := -43

/-- The constant `CL_INVALID_PROGRAM` of the OpenCL header. -/
def CL_INVALID_PROGRAM : Int := -44

/-- The constant `CL_INVALID_PROGRAM_EXECUTABLE` of the OpenCL header. -/
def CL_INVALID_PROGRAM_EXECUTABLE : Int := -45

/-- The constant `CL_INVALID_KERNEL_NAME` of the OpenCL header. -/
def CL_INVALID_KERNEL_NAME : Int := -46

/-- The constant `CL_INVALID_KERNEL_DEFINITION` of the OpenCL header. -/
def CL_INVALID_KERNEL_DEFINITION : Int := -47

/-- The constant `CL_INVALID_KERNEL` of the OpenCL header. -/
def CL_INVALID_KERNEL : Int := -48

/-- The constant `CL_INVALID_ARG_INDEX` of the OpenCL header. -/
def CL_INVALID_ARG_INDEX : Int := -49

/-- The constant `CL_INVALID_ARG_VALUE` of the OpenCL header. -/
def CL_INVALID_ARG_VALUE : Int := -50

/-- The constant `CL_INVALID_ARG_SIZE` of the OpenCL header. -/
def CL_INVALID_ARG_SIZE : Int := -51

/-- The constant `CL_INVALID_KERNEL_ARGS` of the OpenCL header. -/
def CL_INVALID_KERNEL_ARGS : Int := -52

/-- The constant `CL_INVALID_WORK_DIMENSION` of the OpenCL header. -/
def CL_INVALID_WORK_DIMENSION : Int := -53

/-- The constant `CL_INVALID_WORK_GROUP_SIZE` of the OpenCL header. -/
def CL_INVALID_WORK_GROUP_SIZE : Int := -54

/-- The constant `CL_INVALID_WORK_ITEM_SIZE` of the OpenCL header. -/
def CL_INVALID_WORK_ITEM_SIZE : Int := -55

/-- The constant `CL_INVALID_GLOBAL_OFFSET` of the OpenCL header. -/
def CL_INVALID_GLOBAL_OFFSET : Int := -56

/-- The constant `CL_INVALID_EVENT_WAIT_LIST` of the OpenCL header. -/
def CL_INVALID_EVENT_WAIT_LIST : Int := -57

/-- The constant `CL_INVALID_EVENT` of the OpenCL header. -/
def CL_INVALID_EVENT : Int := -58

/-- The constant `CL_INVALID_OPERATION` of the OpenCL header. -/
def CL_INVALID_OPERATION : Int := -59

/-- The constant `CL_INVALID_GL_OBJECT` of the OpenCL header. -/
def CL_INVALID_GL_OBJECT : Int := -60

/-- The constant `CL_INVALID_BUFFER_SIZE` of the OpenCL header. -/
def CL_INVALID_BUFFER_SIZE : Int := -61

/-- The constant `CL_INVALID_MIP_LEVEL` of the OpenCL header. -/
def CL_INVALID_MIP_LEVEL : Int := -62

/-- The constant `CL_INVALID_GLOBAL_WORK_SIZE` of the OpenCL header. -/
def CL_INVALID_GLOBAL_WORK_SIZE : Int := -63

/-- The function `CLManager::ErrorString`: the `switch` over the error codes,
with the text the `default` branch builds by streaming the code in decimal. -/
def ErrorString (error : Int) : String :=
  if error = CL_SUCCESS then "CL_SUCCESS" else
  if error = CL_DEVICE_NOT_FOUND then "CL_DEVICE_NOT_FOUND" else
  if error = CL_DEVICE_NOT_AVAILABLE then "CL_DEVICE_NOT_AVAILABLE" else
  if error = CL_COMPILER_NOT_AVAILABLE then "CL_COMPILER_NOT_AVAILABLE" else
  if error = CL_MEM_OBJECT_ALLOCATION_FAILURE then "CL_MEM_OBJECT_ALLOCATION_FAILURE" else
  if error = CL_OUT_OF_RESOURCES then "CL_OUT_OF_RESOURCES" else
  if error = CL_OUT_OF_HOST_MEMORY then "CL_OUT_OF_HOST_MEMORY" else
  if error = CL_PROFILING_INFO_NOT_AVAILABLE then "CL_PROFILING_INFO_NOT_AVAILABLE" else
  if error = CL_MEM_COPY_OVERLAP then "CL_MEM_COPY_OVERLAP" else
  if error = CL_IMAGE_FORMAT_MISMATCH then "CL_IMAGE_FORMAT_MISMATCH" else
  if error = CL_IMAGE_FORMAT_NOT_SUPPORTED then "CL_IMAGE_FORMAT_NOT_SUPPORTED" else
  if error = CL_BUILD_PROGRAM_FAILURE then "CL_BUILD_PROGRAM_FAILURE" else
  if error = CL_MAP_FAILURE then "CL_MAP_FAILURE" else
  if error = CL_INVALID_VALUE then "CL_INVALID_VALUE" else
  if error = CL_INVALID_DEVICE_TYPE then "CL_INVALID_DEVICE_TYPE" else
  if error = CL_INVALID_PLATFORM then "CL_INVALID_PLATFORM" else
  if error = CL_INVALID_DEVICE then "CL_INVALID_DEVICE" else
  if error = CL_INVALID_CONTEXT then "CL_INVALID_CONTEXT" else
  if error = CL_INVALID_QUEUE_PROPERTIES then "CL_INVALID_QUEUE_PROPERTIES" else
  if error = CL_INVALID_COMMAND_QUEUE then "CL_INVALID_COMMAND_QUEUE" else
  if error = CL_INVALID_HOST_PTR then "CL_INVALID_HOST_PTR" else
  if error = CL_INVALID_MEM_OBJECT then "CL_INVALID_MEM_OBJECT" else
  if error = CL_INVALID_IMAGE_FORMAT_DESCRIPTOR then "CL_INVALID_IMAGE_FORMAT_DESCRIPTOR" else
  if error = CL_INVALID_IMAGE_SIZE then "CL_INVALID_IMAGE_SIZE" else
  if error = CL_INVALID_SAMPLER then "CL_INVALID_SAMPLER" else
  if error = CL_INVALID_BINARY then "CL_INVALID_BINARY" else
  if error = CL_INVALID_BUILD_OPTIONS then "CL_INVALID_BUILD_OPTIONS" else
  if error = CL_INVALID_PROGRAM then "CL_INVALID_PROGRAM" else
  if error = CL_INVALID_PROGRAM_EXECUTABLE then "CL_INVALID_PROGRAM_EXECUTABLE" else
  if error = CL_INVALID_KERNEL_NAME then "CL_INVALID_KERNEL_NAME" else
  if error = CL_INVALID_KERNEL_DEFINITION then "CL_INVALID_KERNEL_DEFINITION" else
  if error = CL_INVALID_KERNEL then "CL_INVALID_KERNEL" else
  if error = CL_INVALID_ARG_INDEX then "CL_INVALID_ARG_INDEX" else
  if error = CL_INVALID_ARG_VALUE then "CL_INVALID_ARG_VALUE" else
  if error = CL_INVALID_ARG_SIZE then "CL_INVALID_ARG_SIZE" else
  if error = CL_INVALID_KERNEL_ARGS then "CL_INVALID_KERNEL_ARGS" else
  if error = CL_INVALID_WORK_DIMENSION then "CL_INVALID_WORK_DIMENSION" else
  if error = CL_INVALID_WORK_GROUP_SIZE then "CL_INVALID_WORK_GROUP_SIZE" else
  if error = CL_INVALID_WORK_ITEM_SIZE then "CL_INVALID_WORK_ITEM_SIZE" else
  if error = CL_INVALID_GLOBAL_OFFSET then "CL_INVALID_GLOBAL_OFFSET" else
  if error = CL_INVALID_EVENT_WAIT_LIST then "CL_INVALID_EVENT_WAIT_LIST" else
  if error = CL_INVALID_EVENT then "CL_INVALID_EVENT" else
  if error = CL_INVALID_OPERATION then "CL_INVALID_OPERATION" else
  if error = CL_INVALID_GL_OBJECT then "CL_INVALID_GL_OBJECT" else
  if error = CL_INVALID_BUFFER_SIZE then "CL_INVALID_BUFFER_SIZE" else
  if error = CL_INVALID_MIP_LEVEL then "CL_INVALID_MIP_LEVEL" else
  if error = CL_INVALID_GLOBAL_WORK_SIZE then "CL_INVALID_GLOBAL_WORK_SIZE" else
  "Unknown OpenCL error code - " ++ toString error

/-- The function `CLManager::CheckSuccess`; its log output is not recorded. -/
def CheckSuccess (error : Int) (_location : String) : Bool :=
  if error = CL_SUCCESS then true else false

/-- The codes of the table: `0`, `-1` to `-12` and `-30` to `-63`. -/
def tableCodes : List Int :=
  [0] ++ (List.range 12).map (fun n => -1 - (n : Int)) ++
    (List.range 34).map (fun n => -30 - (n : Int))

/-- The error codes of the OpenCL header with their symbolic names. -/
def headerNames : List (Int × String) := [
  (0, "CL_SUCCESS"),
  (-1, "CL_DEVICE_NOT_FOUND"),
  (-2, "CL_DEVICE_NOT_AVAILABLE"),
  (-3, "CL_COMPILER_NOT_AVAILABLE"),
  (-4, "CL_MEM_OBJECT_ALLOCATION_FAILURE"),
  (-5, "CL_OUT_OF_RESOURCES"),
  (-6, "CL_OUT_OF_HOST_MEMORY"),
  (-7, "CL_PROFILING_INFO_NOT_AVAILABLE"),
  (-8, "CL_MEM_COPY_OVERLAP"),
  (-9, "CL_IMAGE_FORMAT_MISMATCH"),
  (-10, "CL_IMAGE_FORMAT_NOT_SUPPORTED"),
  (-11, "CL_BUILD_PROGRAM_FAILURE"),
  (-12, "CL_MAP_FAILURE"),
  (-30, "CL_INVALID_VALUE"),
  (-31, "CL_INVALID_DEVICE_TYPE"),
  (-32, "CL_INVALID_PLATFORM"),
  (-33, "CL_INVALID_DEVICE"),
  (-34, "CL_INVALID_CONTEXT"),
  (-35, "CL_INVALID_QUEUE_PROPERTIES"),
  (-36, "CL_INVALID_COMMAND_QUEUE"),
  (-37, "CL_INVALID_HOST_PTR"),
  (-38, "CL_INVALID_MEM_OBJECT"),
  (-39, "CL_INVALID_IMAGE_FORMAT_DESCRIPTOR"),
  (-40, "CL_INVALID_IMAGE_SIZE"),
  (-41, "CL_INVALID_SAMPLER"),
  (-42, "CL_INVALID_BINARY"),
  (-43, "CL_INVALID_BUILD_OPTIONS"),
  (-44, "CL_INVALID_PROGRAM"),
  (-45, "CL_INVALID_PROGRAM_EXECUTABLE"),
  (-46, "CL_INVALID_KERNEL_NAME"),
  (-47, "CL_INVALID_KERNEL_DEFINITION"),
  (-48, "CL_INVALID_KERNEL"),
  (-49, "CL_INVALID_ARG_INDEX"),
  (-50, "CL_INVALID_ARG_VALUE"),
  (-51, "CL_INVALID_ARG_SIZE"),
  (-52, "CL_INVALID_KERNEL_ARGS"),
  (-53, "CL_INVALID_WORK_DIMENSION"),
  (-54, "CL_INVALID_WORK_GROUP_SIZE"),
  (-55, "CL_INVALID_WORK_ITEM_SIZE"),
  (-56, "CL_INVALID_GLOBAL_OFFSET"),
  (-57, "CL_INVALID_EVENT_WAIT_LIST"),
  (-58, "CL_INVALID_EVENT"),
  (-59, "CL_INVALID_OPERATION"),
  (-60, "CL_INVALID_GL_OBJECT"),
  (-61, "CL_INVALID_BUFFER_SIZE"),
  (-62, "CL_INVALID_MIP_LEVEL"),
  (-63, "CL_INVALID_GLOBAL_WORK_SIZE")]

/-! ## `CLManager.cpp`: the manager -/

/-- The texture kinds of `CLManager::TextureType`. -/
inductive TextureType where
  | TEXTURE_1D
  | TEXTURE_2D
  | TEXTURE_3D
  deriving DecidableEq, Repr

/-- The OpenGL texture targets `AddTexture` hands to the program. -/
inductive GLTextureType where
  | GL_TEXTURE_2D
  | GL_TEXTURE_3D
  deriving DecidableEq, Repr

/-- The OpenCL memory flags `AddTexture` hands to the program. -/
inductive MemFlags where
  | CL_MEM_READ_ONLY
  | CL_MEM_WRITE_ONLY
  | CL_MEM_READ_WRITE
  deriving DecidableEq, Repr

/-- A member function of `CLProgram` called by the manager, with its arguments;
pointer arguments are recorded as object numbers. -/
inductive ProgramCall where
  | CreateProgram (fileName : String)
  | BuildProgram
  | CreateKernel
  | AddTexture (argNr : Nat) (texture : Nat) (glType : GLTextureType) (flag : MemFlags)
  | AddTransferFunction (argNr : Nat) (transferFunction : Nat)
  | AddKernelConstants (argNr : Nat) (kernelConstants : Nat)
  | AddIntArray (argNr : Nat) (intArray : Nat) (size : Nat) (permissions : Option Permissions)
  | PrepareProgram
  | LaunchProgram
  | FinishProgram
  deriving DecidableEq, Repr

/-- What the manager does to the outside: calls of the OpenCL API, construction
and destruction of `CLProgram` objects, and member functions called on them.
A program object is named by its number in the order of construction. -/
inductive ClCall where
  | clGetPlatformIDs
  | clGetDeviceIDs
  | clGetDeviceInfo (device : Nat) (param : String)
  | clCreateContext
  | construct (program : Nat) (programName : String)
  | destroy (program : Nat)
  | program (program : Nat) (c : ProgramCall)
  | clCreateCommandQueue (queue : Nat)
  deriving DecidableEq, Repr

/-- The answers of the OpenCL API and of the program objects, by the position
of the call in the log of the manager. -/
structure Driver where
  /-- the error code an OpenCL call reports -/
  code : Nat → Int
  /-- the count `clGetPlatformIDs` or `clGetDeviceIDs` stores -/
  count : Nat → Nat
  /-- the result of a member function of `CLProgram` -/
  program : Nat → Bool

/-- The members of `CLManager` the functions below use.  `clPrograms_` is the
`std::map` from program name to program object, kept as a list of entries;
`created` counts the `CLProgram` objects constructed so far; `log` holds what
the manager did, in order; `commandQueues_` is the array of queues, an element
naming the call that returned it. -/
structure CLManager where
  error_ : Int
  numPlatforms_ : Nat
  numDevices_ : Nat
  clPrograms_ : List (String × Nat)
  created : Nat
  log : List ClCall
  commandQueues_ : List (Option Nat) := []
  deriving DecidableEq, Repr

/-- The member `std::map::find`: the object stored under `name`, if any. -/
def mapFind : List (String × Nat) → String → Option Nat
  | [], _ => none
  | (k, v) :: rest, name => if k = name then some v else mapFind rest name

/-- The member `std::map::erase`. -/
def mapErase : List (String × Nat) → String → List (String × Nat)
  | [], _ => []
  | (k, v) :: rest, name => if k = name then mapErase rest name else (k, v) :: mapErase rest name

/-- The assignment `map[name] = v`. -/
def mapSet : List (String × Nat) → String → Nat → List (String × Nat)
  | [], name, v => [(name, v)]
  | (k, x) :: rest, name, v =>
    if k = name then (k, v) :: rest else (k, x) :: mapSet rest name v

/-- How many entries the map has under `name`. -/
def mapCount (reg : List (String × Nat)) (name : String) : Nat :=
  (reg.filter (fun e => e.1 = name)).length

/-- The function `CLManager::InitPlatform`. -/
def CLManager.InitPlatform (d : Driver) (m : CLManager) : Bool × CLManager :=
  let m1 := { m with
    error_ := d.code m.log.length
    numPlatforms_ := d.count m.log.length
    log := m.log ++ [ClCall.clGetPlatformIDs] }
  if m1.error_ = CL_SUCCESS then
    -- TODO support more platforms?
    (true, m1)
  else
    -- CheckSuccess(error_, "InitPlatform()") only logs here
    (false, m1)

/-- The two loops of `InitDevices` over the found devices: one `clGetDeviceInfo`
per device, stopping at the first that fails. -/
def CLManager.deviceInfo (d : Driver) (param location : String) :
    List Nat → CLManager → Bool × CLManager
  | [], m => (true, m)
  | i :: rest, m =>
    let m1 := { m with
      error_ := d.code m.log.length
      log := m.log ++ [ClCall.clGetDeviceInfo i param] }
    if CheckSuccess m1.error_ location then CLManager.deviceInfo d param location rest m1
    else (false, m1)

/-- The function `CLManager::InitDevices`. -/
def CLManager.InitDevices (d : Driver) (m : CLManager) : Bool × CLManager :=
  if m.numPlatforms_ < 1 then (false, m) else
  -- Find devices
  let m1 := { m with
    error_ := d.code m.log.length
    numDevices_ := d.count m.log.length
    log := m.log ++ [ClCall.clGetDeviceIDs] }
  if !CheckSuccess m1.error_ "InitDevices() getting IDs" then (false, m1) else
  -- Loop over found devices and print info
  let r2 := CLManager.deviceInfo d "CL_DEVICE_NAME" "InitDevices() printing info"
    (List.range m1.numDevices_) m1
  if !r2.1 then (false, r2.2) else
  -- Get maximum allocatable size for each device
  let r3 := CLManager.deviceInfo d "CL_DEVICE_MAX_MEM_ALLOC_SIZE"
    "InitDevices() finding maxMemAllocSize" (List.range r2.2.numDevices_) r2.2
  if !r3.1 then (false, r3.2) else
  (true, r3.2)

/-- The function `CLManager::CreateContext`. -/
def CLManager.CreateContext (d : Driver) (m : CLManager) : Bool × CLManager :=
  if m.numPlatforms_ < 1 then (false, m) else
  if m.numDevices_ < 1 then (false, m) else
  -- Create an OpenCL context with a reference to an OpenGL context
  let m1 := { m with
    error_ := d.code m.log.length
    log := m.log ++ [ClCall.clCreateContext] }
  (CheckSuccess m1.error_ "CreateContext()", m1)

/-- The function `CLManager::CreateProgram`. -/
def CLManager.CreateProgram (d : Driver) (programName fileName : String) (m : CLManager) :
    Bool × CLManager :=
  -- Make sure program doesn't already exist. If it does, delete it.
  let m1 :=
    match mapFind m.clPrograms_ programName with
    | some old => { m with
        log := m.log ++ [ClCall.destroy old]
        clPrograms_ := mapErase m.clPrograms_ programName }
    | none => m
  -- Create new program and save pointer in map
  let program := m1.created
  let m2 := { m1 with
    created := m1.created + 1
    log := m1.log ++ [ClCall.construct program programName]
    clPrograms_ := mapSet m1.clPrograms_ programName program }
  -- Create program
  (d.program m2.log.length,
    { m2 with log := m2.log ++ [ClCall.program program (ProgramCall.CreateProgram fileName)] })

/-- The common shape of the name-keyed functions: look the name up, fail when
it is not registered, otherwise call the member function `c` on the program. -/
def CLManager.onProgram (d : Driver) (programName : String) (c : ProgramCall)
    (m : CLManager) : Bool × CLManager :=
  match mapFind m.clPrograms_ programName with
  | none => (false, m)
  | some p => (d.program m.log.length, { m with log := m.log ++ [ClCall.program p c] })

/-- The function `CLManager::BuildProgram`. -/
def CLManager.BuildProgram (d : Driver) (programName : String) (m : CLManager) :
    Bool × CLManager :=
  CLManager.onProgram d programName ProgramCall.BuildProgram m

/-- The function `CLManager::CreateKernel`. -/
def CLManager.CreateKernel (d : Driver) (programName : String) (m : CLManager) :
    Bool × CLManager :=
  CLManager.onProgram d programName ProgramCall.CreateKernel m

/-- The function `CLManager::AddTexture`; a permission or texture kind outside
its enumeration is `none`. -/
def CLManager.AddTexture (d : Driver) (programName : String) (argNr texture : Nat)
    (textureType : Option TextureType) (permissions : Option Permissions) (m : CLManager) :
    Bool × CLManager :=
  match permissions with
  | none => (false, m)
  | some perm =>
    let flag :=
      match perm with
      | Permissions.READ_ONLY => MemFlags.CL_MEM_READ_ONLY
      | Permissions.WRITE_ONLY => MemFlags.CL_MEM_WRITE_ONLY
      | Permissions.READ_WRITE => MemFlags.CL_MEM_READ_WRITE
    match textureType with
    | some TextureType.TEXTURE_1D => (false, m)
    | some TextureType.TEXTURE_2D =>
      CLManager.onProgram d programName
        (ProgramCall.AddTexture argNr texture GLTextureType.GL_TEXTURE_2D flag) m
    | some TextureType.TEXTURE_3D =>
      CLManager.onProgram d programName
        (ProgramCall.AddTexture argNr texture GLTextureType.GL_TEXTURE_3D flag) m
    | none => (false, m)

/-- The function `CLManager::AddTransferFunction`. -/
def CLManager.AddTransferFunction (d : Driver) (programName : String)
    (argNr transferFunction : Nat) (m : CLManager) : Bool × CLManager :=
  CLManager.onProgram d programName (ProgramCall.AddTransferFunction argNr transferFunction) m

/-- The function `CLManager::AddKernelConstants`. -/
def CLManager.AddKernelConstants (d : Driver) (programName : String)
    (argNr kernelConstants : Nat) (m : CLManager) : Bool × CLManager :=
  CLManager.onProgram d programName (ProgramCall.AddKernelConstants argNr kernelConstants) m

/-- The function `CLManager::AddIntArray`. -/
def CLManager.AddIntArray (d : Driver) (programName : String) (argNr intArray size : Nat)
    (permissions : Option Permissions) (m : CLManager) : Bool × CLManager :=
  CLManager.onProgram d programName
    (ProgramCall.AddIntArray argNr intArray size permissions) m

/-- The function `CLManager::PrepareProgram`. -/
def CLManager.PrepareProgram (d : Driver) (programName : String) (m : CLManager) :
    Bool × CLManager :=
  CLManager.onProgram d programName ProgramCall.PrepareProgram m

/-- The function `CLManager::LaunchProgram`. -/
def CLManager.LaunchProgram (d : Driver) (programName : String) (m : CLManager) :
    Bool × CLManager :=
  CLManager.onProgram d programName ProgramCall.LaunchProgram m

/-- The function `CLManager::FinishProgram`. -/
def CLManager.FinishProgram (d : Driver) (programName : String) (m : CLManager) :
    Bool × CLManager :=
  CLManager.onProgram d programName ProgramCall.FinishProgram m

/-- The manager after a run of `CreateProgram` calls under one name, each with
its own file name and its own answers. -/
def CLManager.createAll (programName : String) :
    List (Driver × String) → CLManager → CLManager
  | [], m => m
  | (d, fileName) :: rest, m =>
    CLManager.createAll programName rest (CLManager.CreateProgram d programName fileName m).2

/-- The programs destroyed by a run of calls, in order. -/
def destroyed : List ClCall → List Nat
  | [] => []
  | ClCall.destroy p :: cs => p :: destroyed cs
  | _ :: cs => destroyed cs

/-- The invariant of the registry: every registered program is an object that
was constructed, and no object is registered under two names. -/
def CLManager.WellFormed (m : CLManager) : Prop :=
  (∀ e ∈ m.clPrograms_, e.2 < m.created) ∧
  ∀ e1 ∈ m.clPrograms_, ∀ e2 ∈ m.clPrograms_, e1.2 = e2.2 → e1.1 = e2.1

/-- What the manager `m1` logged after the state `m`. -/
def CLManager.since (m m1 : CLManager) : List ClCall := m1.log.drop m.log.length

/-- A driver whose calls all succeed and which finds one platform and one
device. -/
def okDriver : Driver where
  code := fun _ => 0
  count := fun _ => 1
  program := fun _ => true

/-- A driver whose queries report success with a count of zero. -/
def emptyDriver : Driver where
  code := fun _ => 0
  count := fun _ => 0
  program := fun _ => true

/-- A manager right after construction, with nothing found and nothing
registered. -/
def freshManager : CLManager where
  error_ := 0
  numPlatforms_ := 0
  numDevices_ := 0
  clPrograms_ := []
  created := 0
  log := []

/-- The log a run of `CreateProgram` calls under `programName` writes, when
`prev` is the program registered under the name before the run and `next` the
number of the next object to be constructed. -/
def createLog (programName : String) : Option Nat → Nat → List (Driver × String) → List ClCall
  | _, _, [] => []
  | prev, next, (_, fileName) :: rest =>
    prev.toList.map ClCall.destroy ++
      [ClCall.construct next programName,
       ClCall.program next (ProgramCall.CreateProgram fileName)] ++
      createLog programName (some next) (next + 1) rest

/-- The programs a run of calls mentions other than by constructing them: the
destroyed ones and the ones a member function was called on. -/
def touched : List ClCall → List Nat
  | [] => []
  | ClCall.destroy p :: cs => p :: touched cs
  | ClCall.program p _ :: cs => p :: touched cs
  | _ :: cs => touched cs

/-! ## `CLManager.cpp`: the command queues -/

/-- The array element `commandQueues_[i]`; an element no call has written is
`none`. -/
def queueAt (queues : List (Option Nat)) (i : Nat) : Option Nat := (queues.getD i none)

/-- The assignment `commandQueues_[i] = v`. -/
def queueStore : List (Option Nat) → Nat → Nat → List (Option Nat)
  | [], 0, v => [some v]
  | [], i + 1, v => none :: queueStore [] i v
  | _ :: rest, 0, v => some v :: rest
  | q :: rest, i + 1, v => q :: queueStore rest i v

/-- The loop of `CLManager::CreateCommandQueue` from index `i` on, with
`remaining` rounds to go.  What `clCreateCommandQueue` returns is named by the
position of the call in the log; the error code is the driver's. -/
def CLManager.createQueues (d : Driver) : Nat → Nat → CLManager → Bool × CLManager
  | 0, _, m => (true, m)
  | remaining + 1, i, m =>
    let m1 := { m with
      commandQueues_ := queueStore m.commandQueues_ i m.log.length
      error_ := d.code m.log.length
      log := m.log ++ [ClCall.clCreateCommandQueue i] }
    if !CheckSuccess m1.error_ "CreateCommandQueue()" then (false, m1)
    else CLManager.createQueues d remaining (i + 1) m1

/-- The function `CLManager::CreateCommandQueue`.  The constant
`NUM_QUEUE_INDICES` is declared in `CLManager.h`, which is not part of the
sources, and is a parameter. -/
def CLManager.CreateCommandQueue (d : Driver) (NUM_QUEUE_INDICES : Nat) (m : CLManager) :
    Bool × CLManager :=
  CLManager.createQueues d NUM_QUEUE_INDICES 0 m

/-- The queues a call that started with `start` calls in the log created: the
results of the `clCreateCommandQueue` calls since then that reported
`CL_SUCCESS`. -/
def createdQueue (d : Driver) (start : Nat) (q : Nat) : Prop :=
  start ≤ q ∧ d.code q = CL_SUCCESS

/-- A driver that fails the call at position `k` of the log with
`CL_OUT_OF_HOST_MEMORY` and lets every other call succeed. -/
def failingDriver (k : Nat) : Driver where
  code := fun n => if n = k then CL_OUT_OF_HOST_MEMORY else CL_SUCCESS
  count := fun _ => 1
  program := fun _ => true

/-! ## Lists of events -/

theorem cut_append_ok (A B : List Event) (h : A.all Event.ok = true) :
    cut (A ++ B) = A ++ cut B := by
  induction A with
  | nil => rfl
  | cons a A ih =>
    simp only [List.all_cons, Bool.and_eq_true] at h
    simp [cut, h.1, ih h.2]

theorem cut_append_fail (A B : List Event) (h : A.all Event.ok = false) :
    cut (A ++ B) = cut A := by
  induction A with
  | nil => simp at h
  | cons a A ih =>
    cases ha : a.ok
    · simp [cut, ha]
    · simp only [List.all_cons, ha, Bool.true_and] at h
      simp [cut, ha, ih h]

theorem cut_eq_self (l : List Event) (h : l.all Event.ok = true) : cut l = l := by
  have := cut_append_ok l [] h
  simpa [cut] using this

theorem mem_cut {e : Event} {l : List Event} (h : e ∈ cut l) : e ∈ l := by
  induction l with
  | nil => simp [cut] at h
  | cons a l ih =>
    cases ha : a.ok
    · simp [cut, ha] at h; simp [h]
    · simp [cut, ha] at h
      rcases h with h | h
      · simp [h]
      · simp [ih h]

theorem all_ok_of_cut (l : List Event) (h : ∀ e ∈ cut l, e.ok = true) :
    l.all Event.ok = true := by
  induction l with
  | nil => rfl
  | cons a l ih =>
    cases ha : a.ok
    · have := h a (by simp [cut, ha])
      simp [ha] at this
    · simp only [List.all_cons, ha, Bool.true_and]
      apply ih
      intro e he
      exact h e (by simp [cut, ha, he])

theorem cut_failed_last (l : List Event) (i : Nat) (e : Event)
    (h : (cut l)[i]? = some e) (he : e.ok = false) : (cut l).length = i + 1 := by
  induction l generalizing i with
  | nil => simp [cut] at h
  | cons a l ih =>
    cases ha : a.ok
    · simp only [cut, ha, Bool.false_eq_true, if_false] at h ⊢
      cases i with
      | zero => rfl
      | succ i => simp at h
    · simp only [cut, ha, if_true] at h ⊢
      cases i with
      | zero =>
        simp at h
        rw [h] at ha
        simp [he] at ha
      | succ i =>
        simp only [List.getElem?_cons_succ] at h
        simp [ih i h]

theorem stamp_append (w : World) (k : Nat) (a b : List Call) :
    stamp w k (a ++ b) = stamp w k a ++ stamp w (k + a.length) b := by
  induction a generalizing k with
  | nil => rfl
  | cons c a ih =>
    have hk : k + (a.length + 1) = k + 1 + a.length := by omega
    show stamp w k (c :: (a ++ b)) = _
    simp only [List.cons_append, stamp, ih, List.length_cons, hk]

theorem map_call_stamp (w : World) (k : Nat) (cs : List Call) :
    (stamp w k cs).map Event.call = cs := by
  induction cs generalizing k with
  | nil => rfl
  | cons c cs ih => simp [stamp, ih]

theorem call_mem_of_mem_stamp {w : World} {k : Nat} {cs : List Call} {e : Event}
    (h : e ∈ stamp w k cs) : e.call ∈ cs := by
  have : e.call ∈ (stamp w k cs).map Event.call := List.mem_map_of_mem _ h
  rwa [map_call_stamp] at this

/-! ## Step rules -/

theorem proc_bind_assoc {α β γ : Type} (p : Proc α) (f : α → Proc β) (g : β → Proc γ) :
    (p >>= f) >>= g = p >>= fun x => f x >>= g := rfl
theorem proc_pure_bind {α β : Type} (a : α) (f : α → Proc β) : pure a >>= f = f a := rfl
theorem proc_ite_bind {α β : Type} (c : Prop) [Decidable c] (p q : Proc α) (f : α → Proc β) :
    (if c then p else q) >>= f = if c then p >>= f else q >>= f := by split <;> rfl

theorem cuts_done (n : Nat) (rc : Raycaster) : Cuts (pure true) n rc [] := by
  intro t _; exact ⟨by simp [cut]; rfl, rfl⟩

theorem cuts_self {k : Raycaster → Proc Bool} {n : Nat} {rc : Raycaster} {body : List Event}
    (h : Cuts (k rc) n rc body) : Cuts (self >>= k) n rc body := h

theorem cuts_effect {c : Call} {k : Proc Bool} {n : Nat} {rc : Raycaster} {body : List Event}
    (h : Cuts k (n + 1) rc body) :
    Cuts (effect c >>= fun _ => k) n rc (⟨c, true⟩ :: body) := by
  intro t ht
  have := h (t ++ [⟨c, true⟩]) (by simp [ht])
  simpa [cut] using this

theorem cuts_guarded {k : Proc Bool} {n : Nat} {body : List Event}
    (c : Call) (r : Bool) (rc1 : Raycaster) (h : Cuts k (n + 1) rc1 body) (t : List Event)
    (ht : t.length = n) :
    ((if (!r) = true then pure false else k) ⟨rc1, t ++ [⟨c, r⟩]⟩).2.trace
        = t ++ cut (⟨c, r⟩ :: body) ∧
    ((if (!r) = true then pure false else k) ⟨rc1, t ++ [⟨c, r⟩]⟩).1
        = (⟨c, r⟩ :: body).all Event.ok := by
  have := h (t ++ [⟨c, r⟩]) (by simp [ht])
  cases r
  · simp [cut]; exact ⟨rfl, rfl⟩
  · simpa [cut] using this

theorem cuts_status {w : World} {c : Call} {k : Proc Bool} {n : Nat} {rc : Raycaster}
    {body : List Event} (h : Cuts k (n + 1) rc body) :
    Cuts (status w c >>= fun b => if (!b) = true then pure false else k) n rc
      (⟨c, w.result n⟩ :: body) := by
  intro t ht
  subst ht
  exact cuts_guarded c (w.result t.length) rc h t rfl

theorem cuts_read {w : World} {p : String} {a sz : Nat} {bl : Bool} {k : Proc Bool} {n : Nat}
    {rc : Raycaster} {body : List Event}
    (h : Cuts k (n + 1)
      { rc with brickRequest_ := copyInto (w.deviceData n) rc.brickRequest_ } body) :
    Cuts (ReadBuffer w p a sz bl >>= fun b => if (!b) = true then pure false else k) n rc
      (⟨Call.ReadBuffer p a sz bl, w.result n⟩ :: body) := by
  intro t ht
  subst ht
  exact cuts_guarded (Call.ReadBuffer p a sz bl) (w.result t.length) _ h t rfl

theorem cuts_build {w : World} {b : BUFFER_INDEX} {k : Proc Bool} {n : Nat}
    {rc : Raycaster} {body : List Event}
    (h : Cuts k (n + 1)
      { rc with brickRequest_ := w.requestAfterBuild n rc.brickRequest_ } body) :
    Cuts (BuildBrickList w b >>= fun r => if (!r) = true then pure false else k) n rc
      (⟨Call.BuildBrickList b rc.brickRequest_, w.result n⟩ :: body) := by
  intro t ht
  subst ht
  exact cuts_guarded (Call.BuildBrickList b rc.brickRequest_) (w.result t.length) _ h t rfl

theorem cuts_brickList {w : World} {b : BUFFER_INDEX} {k : List Int → Proc Bool} {n : Nat}
    {rc : Raycaster} {body : List Event} (h : Cuts (k (w.brickList n)) (n + 1) rc body) :
    Cuts (BrickList w b >>= k) n rc (⟨Call.BrickList b, true⟩ :: body) := by
  intro t ht
  subst ht
  have := h (t ++ [⟨Call.BrickList b, true⟩]) (by simp)
  simpa [cut] using this

theorem cuts_attrib {w : World} {sh attr : String} {g : Int → Raycaster → Raycaster}
    {k : Proc Bool} {n : Nat} {rc : Raycaster} {body : List Event}
    (h : Cuts k (n + 1) (g (w.attribLocation n) rc) body) :
    Cuts (GetAttribLocation w sh attr >>= fun loc =>
        assign (g loc) >>= fun _ => if loc = -1 then pure false else k) n rc
      (⟨Call.GetAttribLocation sh attr, w.attribLocation n != -1⟩ :: body) := by
  intro t ht
  subst ht
  have hc : (if w.attribLocation t.length = -1 then (pure false : Proc Bool) else k)
      = (if (!(w.attribLocation t.length != -1)) = true then pure false else k) := by
    by_cases hl : w.attribLocation t.length = -1 <;> simp [hl]
  have := cuts_guarded (Call.GetAttribLocation sh attr) (w.attribLocation t.length != -1) _ h t rfl
  rw [← hc] at this
  exact this

theorem cuts_glError {w : World} {l : String} {k : Proc Bool} {n : Nat} {rc : Raycaster}
    {body : List Event} (h : Cuts k (n + 1) rc body) :
    Cuts (CheckGLError w l >>= fun e => if e ≠ GL_NO_ERROR then pure false else k) n rc
      (⟨Call.CheckGLError l, w.glError n == GL_NO_ERROR⟩ :: body) := by
  intro t ht
  subst ht
  have hc : (if w.glError t.length ≠ GL_NO_ERROR then (pure false : Proc Bool) else k)
      = (if (!(w.glError t.length == GL_NO_ERROR)) = true then pure false else k) := by
    by_cases hl : w.glError t.length = GL_NO_ERROR <;> simp [hl]
  have := cuts_guarded (Call.CheckGLError l) (w.glError t.length == GL_NO_ERROR) _ h t rfl
  rw [← hc] at this
  exact this

/-! ## The shape of a `Render` frame -/

theorem proc_bind_run {α β : Type} (p : Proc α) (f : α → Proc β) (s : Run) :
    (p >>= f) s = f (p s).1 (p s).2 := rfl

set_option maxHeartbeats 2000000 in
theorem Render_cuts (w : World) (rc : Raycaster) (hr : ready rc = true) :
    Cuts (Render w) 0 rc (stamp w 0 (lead rc ++ frameCalls w rc (lead rc).length)) := by
  simp only [ready, Bool.and_eq_true, Bool.not_eq_true', Bool.or_eq_false_iff] at hr
  obtain ⟨⟨⟨⟨⟨h1, h2⟩, h3⟩, h4⟩, ⟨h5, h6⟩, h7⟩, h8, h9⟩ := hr
  unfold Render
  refine cuts_self ?_
  cases hcc : rc.config_.ClearCache <;>
  · simp only [LaunchTSPTraversal, UpdateMatrices, BindTransformationMatrices, effects,
      proc_bind_assoc, proc_pure_bind, proc_ite_bind, hcc, h1, h2, h3, h4, h5, h6, h7, h8, h9,
      Bool.not_true, Bool.not_false, Bool.false_eq_true, if_false, if_true, Bool.or_self, lead,
      frameCalls, cubePass, pipelineCalls, quadPass, stamp, answer, List.cons_append,
      List.nil_append, List.length_cons, List.length_nil, Nat.reduceAdd]
    repeat (first
      | exact cuts_done _ _
      | refine cuts_effect ?_
      | refine cuts_status ?_
      | refine cuts_self ?_
      | refine cuts_attrib ?_
      | refine cuts_glError ?_
      | refine cuts_brickList ?_
      | refine cuts_read ?_
      | refine cuts_build ?_)

theorem Render_ready (w : World) (rc : Raycaster) (hr : ready rc = true) :
    (call (Render w) rc).2.trace
      = cut (stamp w 0 (lead rc ++ frameCalls w rc (lead rc).length)) ∧
    (call (Render w) rc).1
      = (stamp w 0 (lead rc ++ frameCalls w rc (lead rc).length)).all Event.ok := by
  have h := Render_cuts w rc hr [] rfl
  simpa [call] using h

set_option maxHeartbeats 2000000 in
theorem Render_unready (w : World) (rc : Raycaster) (hr : ready rc = false) :
    call (Render w) rc = (false, ⟨rc, stamp w 0 (lead rc)⟩) := by
  unfold call Render
  rw [proc_bind_run]
  simp only [self]
  by_cases c1 : (!rc.matricesInitialized_) = true
  · cases hcc : rc.config_.ClearCache <;>
      simp only [proc_pure_bind, lead, stamp, answer, List.nil_append, List.cons_append, hcc, if_pos c1, Bool.false_eq_true, if_false, if_true] <;> rfl
  by_cases c2 : (!rc.cubeInitialized_) = true
  · cases hcc : rc.config_.ClearCache <;>
      simp only [proc_pure_bind, lead, stamp, answer, List.nil_append, List.cons_append, hcc, if_neg c1, if_pos c2, Bool.false_eq_true, if_false,
        if_true] <;> rfl
  by_cases c3 : (!rc.quadInitialized_) = true
  · cases hcc : rc.config_.ClearCache <;>
      simp only [proc_pure_bind, lead, stamp, answer, List.nil_append, List.cons_append, hcc, if_neg c1, if_neg c2, if_pos c3, Bool.false_eq_true,
        if_false, if_true] <;> rfl
  by_cases c4 : (!rc.framebuffersInitialized_) = true
  · cases hcc : rc.config_.ClearCache <;>
      simp only [proc_pure_bind, lead, stamp, answer, List.nil_append, List.cons_append, hcc, if_neg c1, if_neg c2, if_neg c3, if_pos c4,
        Bool.false_eq_true, if_false, if_true] <;> rfl
  by_cases c5 :
      (rc.cubeFrontTex_.isNone || rc.cubeBackTex_.isNone || rc.quadTex_.isNone) = true
  · cases hcc : rc.config_.ClearCache <;>
      simp only [proc_pure_bind, lead, stamp, answer, List.nil_append, List.cons_append, hcc, if_neg c1, if_neg c2, if_neg c3, if_neg c4, if_pos c5,
        Bool.false_eq_true, if_false, if_true] <;> rfl
  by_cases c6 : (rc.cubeShaderProgram_.isNone || rc.quadShaderProgram_.isNone) = true
  · cases hcc : rc.config_.ClearCache <;>
      simp only [proc_pure_bind, lead, stamp, answer, List.nil_append, List.cons_append, hcc, if_neg c1, if_neg c2, if_neg c3, if_neg c4, if_neg c5,
        if_pos c6, Bool.false_eq_true, if_false, if_true] <;> rfl
  exfalso
  simp only [Bool.not_eq_true, Bool.not_eq_true', Bool.not_eq_false] at c1 c2 c3 c4 c5 c6
  simp [ready, c1, c2, c3, c4, c5, c6] at hr

/-! ## Buffer slots -/

theorem Render_call_mem (w : World) (rc : Raycaster) (c : Call)
    (h : c ∈ callsOf (call (Render w) rc)) :
    c ∈ lead rc ++ frameCalls w rc (lead rc).length := by
  obtain ⟨e, he, rfl⟩ := List.mem_map.1 h
  cases hr : ready rc
  · rw [Render_unready w rc hr] at he
    exact List.mem_append_left _ (call_mem_of_mem_stamp he)
  · rw [(Render_ready w rc hr).1] at he
    exact call_mem_of_mem_stamp (mem_cut he)

theorem lead_filterMap {α : Type} (f : Call → Option α) (rc : Raycaster)
    (h1 : f Call.sync = none) (h2 : f Call.dropCaches = none)
    (h3 : f (Call.gl "glGetError" []) = none) : (lead rc).filterMap f = [] := by
  unfold lead
  cases rc.config_.ClearCache <;> simp [List.filterMap_cons, h1, h2, h3]

theorem frame_writes (w : World) (rc : Raycaster) (o : Nat) (c : Call) (b : BUFFER_INDEX)
    (hc : c ∈ lead rc ++ frameCalls w rc o) (hb : writesSlot c = some b) :
    b = (chooseBuffers (timesteps rc.animator_).1).2 := by
  have hm : b ∈ (lead rc ++ frameCalls w rc o).filterMap writesSlot :=
    List.mem_filterMap.2 ⟨c, hc, hb⟩
  have hf : (frameCalls w rc o).filterMap writesSlot
      = [(chooseBuffers (timesteps rc.animator_).1).2,
         (chooseBuffers (timesteps rc.animator_).1).2] := rfl
  rw [List.filterMap_append, lead_filterMap writesSlot rc rfl rfl rfl, hf] at hm
  simpa using hm

theorem frame_reads (w : World) (rc : Raycaster) (o : Nat) (c : Call) (b : BUFFER_INDEX)
    (hc : c ∈ lead rc ++ frameCalls w rc o) (hb : readsSlot c = some b) :
    b = (chooseBuffers (timesteps rc.animator_).1).1 := by
  have hm : b ∈ (lead rc ++ frameCalls w rc o).filterMap readsSlot :=
    List.mem_filterMap.2 ⟨c, hc, hb⟩
  have hf : (frameCalls w rc o).filterMap readsSlot
      = [(chooseBuffers (timesteps rc.animator_).1).1,
         (chooseBuffers (timesteps rc.animator_).1).1,
         (chooseBuffers (timesteps rc.animator_).1).1] := rfl
  rw [List.filterMap_append, lead_filterMap readsSlot rc rfl rfl rfl, hf] at hm
  simpa using hm

theorem chooseBuffers_fst_ne_snd (t : Nat) : (chooseBuffers t).1 ≠ (chooseBuffers t).2 := by
  unfold chooseBuffers
  split <;> simp

theorem chooseBuffers_snd (t n : Nat) (h : n % 2 ≠ t % 2) : (chooseBuffers t).2 = slot n := by
  unfold slot chooseBuffers
  have h1 := Nat.mod_two_eq_zero_or_one t
  have h2 := Nat.mod_two_eq_zero_or_one n
  rcases h1 with h1 | h1 <;> rcases h2 with h2 | h2 <;> simp_all

/-- C1: with `slot t` the buffer slot `Render` assigns to the current timestep
`t`, every timestep has `slot t ≠ slot (t + 1)` and `slot t = slot (t + 2)`,
the sums taken in `unsigned int` arithmetic, so that the wrap-around at `2^32`
is included. -/
theorem C1_slot_parity (t : Nat) :
    slot t ≠ slot ((t + 1) % UINT_RANGE) ∧ slot t = slot ((t + 2) % UINT_RANGE) := by
  have h1 : (t + 1) % UINT_RANGE % 2 = (t + 1) % 2 := by unfold UINT_RANGE; omega
  have h2 : (t + 2) % UINT_RANGE % 2 = t % 2 := by unfold UINT_RANGE; omega
  have h3 := Nat.mod_two_eq_zero_or_one t
  unfold slot chooseBuffers
  rw [h1, h2]
  rcases h3 with h3 | h3
  · have : (t + 1) % 2 = 1 := by omega
    simp [h3, this]
  · have : (t + 1) % 2 = 0 := by omega
    simp [h3, this]

/-- C2 fails as stated: when the animator answers current timestep `2` and next
timestep `0`, the frame builds and streams the bricks of timestep `0` into the
slot `ODD`, while `slot 0 = EVEN` is the slot a later frame with current
timestep `0` uploads in `PBOToAtlas`. -/
theorem C2_counterexample :
    timesteps (rcAnimated 2 0).animator_ = (2, 0) ∧
    Call.BuildBrickList BUFFER_INDEX.ODD [] ∈ callsOf (call (Render okWorld) (rcAnimated 2 0)) ∧
    Call.DiskToPBO BUFFER_INDEX.ODD ∈ callsOf (call (Render okWorld) (rcAnimated 2 0)) ∧
    BUFFER_INDEX.ODD ≠ slot 0 ∧
    timesteps (rcAnimated 0 1).animator_ = (0, 1) ∧
    Call.PBOToAtlas (slot 0) ∈ callsOf (call (Render okWorld) (rcAnimated 0 1)) := by
  decide

/-- C2, amended: when the two timesteps the animator answers differ in parity,
the slot into which `Render` builds and streams the bricks of the next timestep
(the argument of `BuildBrickList` and of `DiskToPBO`) is the slot assigned to
the next timestep by parity, and it is the slot that a later frame whose
current timestep is this next timestep uploads in `PBOToAtlas`. -/
theorem C2_next_slot (w w1 : World) (rc rc1 : Raycaster) (a a1 : Animator)
    (c : Call) (b b1 : BUFFER_INDEX)
    (ha : rc.animator_ = some a) (ha1 : rc1.animator_ = some a1)
    (hpar : a.NextTimestep % UINT_RANGE % 2 ≠ a.CurrentTimestep % UINT_RANGE % 2)
    (hlater : a1.CurrentTimestep % UINT_RANGE = a.NextTimestep % UINT_RANGE)
    (hc : c ∈ callsOf (call (Render w) rc)) (hb : writesSlot c = some b)
    (hb1 : Call.PBOToAtlas b1 ∈ callsOf (call (Render w1) rc1)) :
    b = slot (a.NextTimestep % UINT_RANGE) ∧ b1 = b := by
  have h1 := frame_writes w rc _ c b (Render_call_mem w rc c hc) hb
  have h2 := frame_reads w1 rc1 _ _ b1 (Render_call_mem w1 rc1 _ hb1) rfl
  rw [ha] at h1
  rw [ha1] at h2
  simp only [timesteps] at h1 h2
  rw [chooseBuffers_snd _ _ hpar] at h1
  rw [hlater] at h2
  exact ⟨h1, by rw [h1, h2]; rfl⟩

/-- C2, amended, on the wrap of `unsigned int`: current timestep `2^32 - 1`, next
timestep `0`, and a later frame with current timestep `0`. -/
theorem C2_next_slot_witness :
    BUFFER_INDEX.EVEN = slot (0 % UINT_RANGE) ∧ BUFFER_INDEX.EVEN = BUFFER_INDEX.EVEN :=
  C2_next_slot okWorld okWorld (rcAnimated 4294967295 0) (rcAnimated 0 1)
    ⟨4294967295, 0⟩ ⟨0, 1⟩ (Call.DiskToPBO BUFFER_INDEX.EVEN) BUFFER_INDEX.EVEN
    BUFFER_INDEX.EVEN rfl rfl (by decide) (by decide) (by decide) rfl (by decide)

/-- C3: in every frame of `Render`, whatever the timesteps and whatever the
collaborators answer, a slot that is read (the argument of `PBOToAtlas` or of
`BrickList`) differs from every slot that is written (the argument of
`BuildBrickList` or of `DiskToPBO`). -/
theorem C3_read_write_disjoint (w : World) (rc : Raycaster) (c1 c2 : Call)
    (a b : BUFFER_INDEX)
    (h1 : c1 ∈ callsOf (call (Render w) rc)) (h2 : c2 ∈ callsOf (call (Render w) rc))
    (hr : readsSlot c1 = some a) (hw : writesSlot c2 = some b) : a ≠ b := by
  rw [frame_reads w rc _ c1 a (Render_call_mem w rc c1 h1) hr,
    frame_writes w rc _ c2 b (Render_call_mem w rc c2 h2) hw]
  exact chooseBuffers_fst_ne_snd _

/-- C3, on a frame without animator in which every call succeeds. -/
theorem C3_read_write_disjoint_witness : BUFFER_INDEX.EVEN ≠ BUFFER_INDEX.ODD :=
  C3_read_write_disjoint okWorld rcReady (Call.PBOToAtlas BUFFER_INDEX.EVEN)
    (Call.DiskToPBO BUFFER_INDEX.ODD) BUFFER_INDEX.EVEN BUFFER_INDEX.ODD
    (by decide) (by decide) rfl rfl

/-! ## The read-back discipline -/

theorem step_eq_finished (ph : Phase) (e : Event) (h : ph.step e = Phase.finished) :
    (isTraversalLaunch e.call = false ∧ ph = Phase.finished) ∨
    (isTraversalLaunch e.call = false ∧ isTraversalFinish e.call = true ∧ e.ok = true ∧
      ph = Phase.launched) := by
  unfold Phase.step at h
  cases hl : isTraversalLaunch e.call
  · simp only [hl, Bool.false_eq_true, if_false] at h
    by_cases hc : (isTraversalFinish e.call && e.ok && decide (ph = Phase.launched)) = true
    · simp only [Bool.and_eq_true, decide_eq_true_eq] at hc
      exact Or.inr ⟨rfl, hc.1.1, hc.1.2, hc.2⟩
    · rw [if_neg hc] at h
      exact Or.inl ⟨rfl, h⟩
  · simp [hl] at h

theorem step_ne_idle (ph : Phase) (e : Event) (h : ph.step e ≠ Phase.idle) :
    isTraversalLaunch e.call = true ∨ ph ≠ Phase.idle := by
  unfold Phase.step at h
  cases hl : isTraversalLaunch e.call
  · right
    simp only [hl, Bool.false_eq_true, if_false] at h
    by_cases hc : (isTraversalFinish e.call && e.ok && decide (ph = Phase.launched)) = true
    · simp only [Bool.and_eq_true, decide_eq_true_eq] at hc
      rw [hc.2]; simp
    · rwa [if_neg hc] at h
  · exact Or.inl rfl

theorem guarded_sound (t : List Event) :
    ∀ (ph : Phase), readbackGuarded ph t = true →
    ∀ (i : Nat) (e : Event) (blocking : Bool),
      t[i]? = some e → traversalReadback e.call = some blocking →
      blocking = true ∧
      ((ph = Phase.finished ∧
          ∀ (m : Nat) (g : Event), m < i → t[m]? = some g → isTraversalLaunch g.call = false) ∨
       ∃ j : Nat, j < i ∧
        (∃ f, t[j]? = some f ∧ isTraversalFinish f.call = true ∧ f.ok = true) ∧
        (∀ (m : Nat) (g : Event), j < m → m < i → t[m]? = some g →
          isTraversalLaunch g.call = false) ∧
        (ph ≠ Phase.idle ∨ ∃ l g, l < j ∧ t[l]? = some g ∧ isTraversalLaunch g.call = true)) := by
  induction t with
  | nil => intro ph _ i e b hi; simp at hi
  | cons e0 t ih =>
    intro ph hg i e b hi hb
    simp only [readbackGuarded, Bool.and_eq_true] at hg
    cases i with
    | zero =>
      simp only [List.getElem?_cons_zero, Option.some.injEq] at hi
      subst hi
      have h0 := hg.1
      simp only [Phase.admits, hb, Bool.and_eq_true, decide_eq_true_eq] at h0
      refine ⟨h0.2, Or.inl ⟨h0.1, ?_⟩⟩
      intro m g hm
      omega
    | succ i =>
      simp only [List.getElem?_cons_succ] at hi
      obtain ⟨hbl, hcase⟩ := ih (ph.step e0) hg.2 i e b hi hb
      refine ⟨hbl, ?_⟩
      rcases hcase with ⟨hfin, hno⟩ | ⟨j, hj, hf, hno, hl⟩
      · rcases step_eq_finished ph e0 hfin with ⟨hl0, hph⟩ | ⟨hl0, hf0, hok0, hph⟩
        · left
          refine ⟨hph, ?_⟩
          intro m g hm hmg
          cases m with
          | zero =>
            simp only [List.getElem?_cons_zero, Option.some.injEq] at hmg
            rw [← hmg]; exact hl0
          | succ m =>
            simp only [List.getElem?_cons_succ] at hmg
            exact hno m g (by omega) hmg
        · right
          refine ⟨0, by omega, ⟨e0, by simp, hf0, hok0⟩, ?_, Or.inl (by rw [hph]; simp)⟩
          intro m g hm1 hm2 hmg
          cases m with
          | zero => omega
          | succ m =>
            simp only [List.getElem?_cons_succ] at hmg
            exact hno m g (by omega) hmg
      · right
        obtain ⟨f, hf1, hf2, hf3⟩ := hf
        refine ⟨j + 1, by omega, ⟨f, by simpa using hf1, hf2, hf3⟩, ?_, ?_⟩
        · intro m g hm1 hm2 hmg
          cases m with
          | zero => omega
          | succ m =>
            simp only [List.getElem?_cons_succ] at hmg
            exact hno m g (by omega) (by omega) hmg
        · rcases hl with hl | ⟨l, g, hlj, hlg, hlaunch⟩
          · rcases step_ne_idle ph e0 hl with h0 | h0
            · exact Or.inr ⟨0, e0, by omega, by simp, h0⟩
            · exact Or.inl h0
          · exact Or.inr ⟨l + 1, g, by omega, by simpa using hlg, hlaunch⟩

theorem discipline_of_guarded (t : List Event)
    (h : readbackGuarded Phase.idle t = true) : ReadbackDiscipline t := by
  intro i e b hi hb
  obtain ⟨hbl, hcase⟩ := guarded_sound t Phase.idle h i e b hi hb
  refine ⟨hbl, ?_⟩
  rcases hcase with ⟨hfin, _⟩ | ⟨j, hj, hf, hno, hl⟩
  · cases hfin
  · rcases hl with hl | ⟨l, g, hlj, hlg, hlaunch⟩
    · exact absurd rfl hl
    · exact ⟨j, l, hlj, hj, hf, ⟨g, hlg, hlaunch⟩, hno⟩

theorem guarded_cut_cons (ph : Phase) (e : Event) (es : List Event) :
    readbackGuarded ph (cut (e :: es))
      = (ph.admits e && (!e.ok || readbackGuarded (ph.step e) (cut es))) := by
  cases h : e.ok <;> simp [cut, readbackGuarded, h]

theorem guarded_cut_nil (ph : Phase) : readbackGuarded ph (cut []) = true := rfl

set_option maxHeartbeats 2000000 in
theorem Render_guarded (w : World) (rc : Raycaster) :
    readbackGuarded Phase.idle (call (Render w) rc).2.trace = true := by
  cases hr : ready rc
  · rw [Render_unready w rc hr]
    cases hcc : rc.config_.ClearCache <;>
      simp [lead, hcc, stamp, answer, readbackGuarded, Phase.admits, Phase.step,
        isTraversalLaunch, isTraversalFinish, traversalReadback]
  · rw [(Render_ready w rc hr).1]
    cases hcc : rc.config_.ClearCache
    · cases hf : w.result 42 <;>
      simp [lead, hcc, frameCalls, cubePass, pipelineCalls, quadPass, stamp, answer,
        guarded_cut_cons, guarded_cut_nil, Phase.admits, Phase.step, hf,
        isTraversalLaunch, isTraversalFinish, traversalReadback]
    · cases hf : w.result 44 <;>
      simp [lead, hcc, frameCalls, cubePass, pipelineCalls, quadPass, stamp, answer,
        guarded_cut_cons, guarded_cut_nil, Phase.admits, Phase.step, hf,
        isTraversalLaunch, isTraversalFinish, traversalReadback]
/-! ## The shape of `InitPipeline` -/

theorem cuts_assign {g : Raycaster → Raycaster} {k : Proc Bool} {n : Nat} {rc : Raycaster}
    {body : List Event} (h : Cuts k n (g rc) body) :
    Cuts (assign g >>= fun _ => k) n rc body := h

theorem InitPipeline_cuts (w : World) (rc : Raycaster) (tsp : TSP)
    (htsp : rc.tsp_ = some tsp) (hbm : rc.brickManager_ = true) :
    Cuts (InitPipeline w) 0 rc (stamp w 0 (initCalls w rc tsp)) := by
  unfold InitPipeline
  refine cuts_self ?_
  simp only [htsp, hbm, LaunchTSPTraversal, proc_bind_assoc, proc_pure_bind, proc_ite_bind,
    Bool.not_true, Bool.not_false, Bool.false_eq_true, if_false, if_true, initCalls, stamp,
    answer, Nat.reduceAdd]
  repeat (first
    | exact cuts_done _ _
    | refine cuts_status ?_
    | refine cuts_self ?_
    | refine cuts_assign ?_
    | refine cuts_read ?_
    | refine cuts_build ?_)

theorem InitPipeline_set (w : World) (rc : Raycaster) (tsp : TSP)
    (htsp : rc.tsp_ = some tsp) (hbm : rc.brickManager_ = true) :
    (call (InitPipeline w) rc).2.trace = cut (stamp w 0 (initCalls w rc tsp)) ∧
    (call (InitPipeline w) rc).1 = (stamp w 0 (initCalls w rc tsp)).all Event.ok := by
  have h := InitPipeline_cuts w rc tsp htsp hbm [] rfl
  simpa [call] using h

theorem InitPipeline_unset (w : World) (rc : Raycaster)
    (h : rc.tsp_ = none ∨ rc.brickManager_ = false) :
    call (InitPipeline w) rc = (false, ⟨rc, []⟩) := by
  unfold call InitPipeline
  rw [proc_bind_run]
  simp only [self]
  cases htsp : rc.tsp_ with
  | none => rfl
  | some tsp =>
    rcases h with h | h
    · rw [htsp] at h; cases h
    · simp only [h, Bool.not_false, if_true]
      rfl

theorem InitPipeline_guarded (w : World) (rc : Raycaster) :
    readbackGuarded Phase.idle (call (InitPipeline w) rc).2.trace = true := by
  cases htsp : rc.tsp_ with
  | none => rw [InitPipeline_unset w rc (Or.inl htsp)]; rfl
  | some tsp =>
    cases hbm : rc.brickManager_
    · rw [InitPipeline_unset w rc (Or.inr hbm)]; rfl
    · rw [(InitPipeline_set w rc tsp htsp hbm).1]
      cases hf : w.result 4 <;>
      simp [initCalls, stamp, answer, guarded_cut_cons, guarded_cut_nil, Phase.admits,
        Phase.step, hf, isTraversalLaunch, isTraversalFinish, traversalReadback]

/-- C5: in every execution of `Render` and of `InitPipeline`, a read-back of
the brick-request list (`ReadBuffer` on `TSPTraversal`) is issued with
`blocking = true`, and only after a `FinishProgram("TSPTraversal")` that
returned `true`, which itself follows a launch of `TSPTraversal` and is not
followed by another launch before the read-back. -/
theorem C5_readback_after_finish (w : World) (rc : Raycaster) :
    ReadbackDiscipline (call (Render w) rc).2.trace ∧
    ReadbackDiscipline (call (InitPipeline w) rc).2.trace :=
  ⟨discipline_of_guarded _ (Render_guarded w rc),
   discipline_of_guarded _ (InitPipeline_guarded w rc)⟩

/-- A frame in which every call succeeds does read the request list back, so
the read-back discipline is not vacuous. -/
theorem Render_reads_back :
    (call (Render okWorld) rcReady).2.trace[43]?
      = some ⟨Call.ReadBuffer "TSPTraversal" 4 0 true, true⟩ := by
  decide
/-! ## The order of the calls of a frame -/

theorem Render_all_ok (w : World) (rc : Raycaster) (hr : ready rc = true)
    (hok : ∀ e ∈ (call (Render w) rc).2.trace, e.ok = true) :
    (call (Render w) rc).1 = true ∧
    callsOf (call (Render w) rc) = lead rc ++ frameCalls w rc (lead rc).length := by
  obtain ⟨ht, hret⟩ := Render_ready w rc hr
  rw [ht] at hok
  have hall := all_ok_of_cut _ hok
  refine ⟨by rw [hret, hall], ?_⟩
  unfold callsOf
  rw [ht, cut_eq_self _ hall, map_call_stamp]

/-! ## Aborted frames -/

theorem lead_not_stage (rc : Raycaster) (c : Call) (h : c ∈ lead rc) :
    isStage c = false ∧ isDraw c = false := by
  unfold lead at h
  cases hcc : rc.config_.ClearCache <;> simp [hcc] at h
  · subst h; exact ⟨rfl, rfl⟩
  · rcases h with h | h | h <;> subst h <;> exact ⟨rfl, rfl⟩

theorem quadPass_not_stage : ∀ c ∈ quadPass, isStage c = false := by decide

theorem quadDraw_not_before (w : World) (rc : Raycaster) (cur next p : Nat) :
    quadDraw ∉ lead rc ++ cubePass ++ pipelineCalls w rc cur next p := by
  intro h
  rcases List.mem_append.1 h with h | h
  · rcases List.mem_append.1 h with h | h
    · exact absurd (lead_not_stage rc _ h).2 (by decide)
    · revert h; decide
  · simp [pipelineCalls, quadDraw] at h

/-- C6: when a compute or streaming call of the frame sequence returns `false`,
`Render` returns `false`, that call is the last call of the frame, and the
draw of the output texture is not among the calls of the frame. -/
theorem C6_failed_stage_aborts (w : World) (rc : Raycaster) (i : Nat) (e : Event)
    (hi : (call (Render w) rc).2.trace[i]? = some e)
    (hs : isStage e.call = true) (hf : e.ok = false) :
    (call (Render w) rc).1 = false ∧
    (call (Render w) rc).2.trace.length = i + 1 ∧
    quadDraw ∉ callsOf (call (Render w) rc) := by
  have hmem : e ∈ (call (Render w) rc).2.trace := List.getElem?_mem hi
  cases hr : ready rc
  · rw [Render_unready w rc hr] at hmem
    have := (lead_not_stage rc _ (call_mem_of_mem_stamp hmem)).1
    rw [hs] at this
    cases this
  · obtain ⟨ht, hret⟩ := Render_ready w rc hr
    rw [ht] at hmem hi
    refine ⟨?_, by rw [ht]; exact cut_failed_last _ i e hi hf, ?_⟩
    · rw [hret]
      apply Bool.eq_false_iff.2
      intro hall
      have := List.all_eq_true.1 hall e (mem_cut hmem)
      rw [hf] at this
      cases this
    · intro hq
      unfold callsOf at hq
      have hsplit : lead rc ++ frameCalls w rc (lead rc).length
          = (lead rc ++ cubePass ++ pipelineCalls w rc (timesteps rc.animator_).1
              (timesteps rc.animator_).2 ((lead rc).length + 36)) ++ quadPass := by
        simp only [frameCalls, List.append_assoc]
      rw [ht, hsplit, stamp_append] at hq
      rw [hsplit, stamp_append] at hmem
      cases hA : (stamp w 0 (lead rc ++ cubePass ++ pipelineCalls w rc
          (timesteps rc.animator_).1 (timesteps rc.animator_).2
          ((lead rc).length + 36))).all Event.ok
      · rw [cut_append_fail _ _ hA] at hq
        obtain ⟨d, hd, hdc⟩ := List.mem_map.1 hq
        have := call_mem_of_mem_stamp (mem_cut hd)
        rw [hdc] at this
        exact quadDraw_not_before w rc _ _ _ this
      · rw [cut_append_ok _ _ hA] at hmem
        rcases List.mem_append.1 hmem with h | h
        · have := List.all_eq_true.1 hA e h
          rw [hf] at this
          cases this
        · have := quadPass_not_stage _ (call_mem_of_mem_stamp (mem_cut h))
          rw [hs] at this
          cases this

/-- C6, on a frame whose first compute call, `SetInt` on `TSPTraversal`, fails. -/
theorem C6_failed_stage_aborts_witness :
    (call (Render (stageFailWorld 37)) rcReady).1 = false ∧
    (call (Render (stageFailWorld 37)) rcReady).2.trace.length = 37 + 1 ∧
    quadDraw ∉ callsOf (call (Render (stageFailWorld 37)) rcReady) :=
  C6_failed_stage_aborts (stageFailWorld 37) rcReady 37
    ⟨Call.SetInt "TSPTraversal" 3 1, false⟩ (by decide) (by decide) rfl

/-- C7: when a precondition of the frame is missing, `Render` returns `false`
and issues nothing but the calls that precede the checks: no draw call, no
compute call and no streaming call. -/
theorem C7_missing_precondition (w : World) (rc : Raycaster)
    (h : rc.matricesInitialized_ = false ∨ rc.cubeInitialized_ = false ∨
      rc.quadInitialized_ = false ∨ rc.framebuffersInitialized_ = false ∨
      rc.cubeFrontTex_ = none ∨ rc.cubeBackTex_ = none ∨ rc.quadTex_ = none ∨
      rc.cubeShaderProgram_ = none ∨ rc.quadShaderProgram_ = none) :
    (call (Render w) rc).1 = false ∧
    callsOf (call (Render w) rc) = lead rc ∧
    ∀ c ∈ callsOf (call (Render w) rc),
      isDraw c = false ∧ isCompute c = false ∧ isStreaming c = false := by
  have hr : ready rc = false := by
    unfold ready
    rcases h with h | h | h | h | h | h | h | h | h <;> simp [h]
  have hrun := Render_unready w rc hr
  have hcalls : callsOf (call (Render w) rc) = lead rc := by
    unfold callsOf
    rw [hrun]
    exact map_call_stamp w 0 (lead rc)
  refine ⟨by rw [hrun], hcalls, ?_⟩
  intro c hc
  rw [hcalls] at hc
  have := lead_not_stage rc c hc
  simp only [isStage, Bool.or_eq_false_iff] at this
  exact ⟨this.2, this.1.1, this.1.2⟩

/-- C7, on a raycaster whose quad texture is not set. -/
theorem C7_missing_precondition_witness :
    (call (Render okWorld) { rcReady with quadTex_ := none }).1 = false ∧
    callsOf (call (Render okWorld) { rcReady with quadTex_ := none })
      = [Call.gl "glGetError" []] :=
by
  have h := C7_missing_precondition okWorld { rcReady with quadTex_ := none }
    (Or.inr (Or.inr (Or.inr (Or.inr (Or.inr (Or.inr (Or.inl rfl)))))))
  exact ⟨h.1, h.2.1⟩

/-! ## `InitPipeline` -/

theorem InitPipeline_call_mem (w : World) (rc : Raycaster) (c : Call)
    (h : c ∈ callsOf (call (InitPipeline w) rc)) :
    ∃ tsp, c ∈ initCalls w rc tsp := by
  obtain ⟨e, he, rfl⟩ := List.mem_map.1 h
  cases htsp : rc.tsp_ with
  | none => rw [InitPipeline_unset w rc (Or.inl htsp)] at he; cases he
  | some tsp =>
    cases hbm : rc.brickManager_
    · rw [InitPipeline_unset w rc (Or.inr hbm)] at he; cases he
    · rw [(InitPipeline_set w rc tsp htsp hbm).1] at he
      exact ⟨tsp, call_mem_of_mem_stamp (mem_cut he)⟩

/-- The shape of `InitPipeline`: with `tsp_` not null, a brick manager attached
and every call reporting success, it returns `true` after exactly the calls
below, in this order; in no execution does it pass the slot `ODD` to the brick
manager; and with `tsp_` the null pointer or no brick manager attached it
returns `false` and issues no call. -/
theorem InitPipeline_shape (w : World) (rc : Raycaster) :
    (∀ tsp : TSP, rc.tsp_ = some tsp → rc.brickManager_ = true →
      (∀ e ∈ (call (InitPipeline w) rc).2.trace, e.ok = true) →
      (call (InitPipeline w) rc).1 = true ∧
      callsOf (call (InitPipeline w) rc) = [
        Call.SetInt "TSPTraversal" rc.tspTimestepArg_ 0,
        Call.AddBuffer "TSPTraversal" rc.tspBrickListArg_
          (resize rc.brickRequest_ tsp.NumTotalNodes 0)
          ((resize rc.brickRequest_ tsp.NumTotalNodes 0).length * sizeofInt)
          AllocMode.COPY_HOST_PTR Permissions.READ_WRITE,
        Call.PrepareProgram "TSPTraversal",
        Call.LaunchProgram "TSPTraversal" rc.winWidth_ rc.winHeight_
          rc.config_.LocalWorkSizeX rc.config_.LocalWorkSizeY,
        Call.FinishProgram "TSPTraversal",
        Call.ReadBuffer "TSPTraversal" rc.tspBrickListArg_
          ((resize rc.brickRequest_ tsp.NumTotalNodes 0).length * sizeofInt) true,
        Call.ReleaseBuffer "TSPTraversal" rc.tspBrickListArg_,
        Call.BuildBrickList BUFFER_INDEX.EVEN
          (copyInto (w.deviceData 5) (resize rc.brickRequest_ tsp.NumTotalNodes 0)),
        Call.DiskToPBO BUFFER_INDEX.EVEN]) ∧
    (∀ c ∈ callsOf (call (InitPipeline w) rc),
      readsSlot c ≠ some BUFFER_INDEX.ODD ∧ writesSlot c ≠ some BUFFER_INDEX.ODD) ∧
    (rc.tsp_ = none ∨ rc.brickManager_ = false →
      (call (InitPipeline w) rc).1 = false ∧ callsOf (call (InitPipeline w) rc) = []) := by
  refine ⟨?_, ?_, ?_⟩
  · intro tsp htsp hbm hok
    obtain ⟨ht, hret⟩ := InitPipeline_set w rc tsp htsp hbm
    rw [ht] at hok
    have hall := all_ok_of_cut _ hok
    refine ⟨by rw [hret, hall], ?_⟩
    unfold callsOf
    rw [ht, cut_eq_self _ hall, map_call_stamp]
    rfl
  · intro c hc
    obtain ⟨tsp, hmem⟩ := InitPipeline_call_mem w rc c hc
    simp only [initCalls, List.mem_cons, List.mem_singleton, List.not_mem_nil, or_false] at hmem
    rcases hmem with h | h | h | h | h | h | h | h | h <;> subst h <;>
      simp [readsSlot, writesSlot]
  · intro h
    rw [InitPipeline_unset w rc h]
    exact ⟨rfl, rfl⟩

/-! ## The length of the brick-request list -/

theorem copyInto_length (dev host : List Int) : (copyInto dev host).length = host.length := by
  unfold copyInto
  simp only [List.length_append, List.length_take, List.length_drop]
  omega

theorem resize_length (l : List Int) (n : Nat) (v : Int) : (resize l n v).length = n := by
  unfold resize
  simp only [List.length_append, List.length_take, List.length_replicate]
  omega

theorem keeps_pure {α : Type} (n : Nat) (a : α) : Keeps n (pure a : Proc α) :=
  fun _ hs => hs

theorem keeps_bind {α β : Type} {n : Nat} {p : Proc α} {f : α → Proc β}
    (hp : Keeps n p) (hf : ∀ a, Keeps n (f a)) : Keeps n (p >>= f) :=
  fun s hs => hf (p s).1 (p s).2 (hp s hs)

theorem keeps_ite {α : Type} {n : Nat} {c : Prop} [Decidable c] {p q : Proc α}
    (hp : Keeps n p) (hq : Keeps n q) : Keeps n (if c then p else q) := by
  split
  · exact hp
  · exact hq

theorem keeps_self (n : Nat) : Keeps n self := fun _ hs => hs

theorem keeps_effect (n : Nat) (c : Call) : Keeps n (effect c) := fun _ hs => hs

theorem keeps_status (n : Nat) (w : World) (c : Call) : Keeps n (status w c) :=
  fun _ hs => hs

theorem keeps_attrib (n : Nat) (w : World) (a b : String) :
    Keeps n (GetAttribLocation w a b) := fun _ hs => hs

theorem keeps_glError (n : Nat) (w : World) (l : String) : Keeps n (CheckGLError w l) :=
  fun _ hs => hs

theorem keeps_brickList (n : Nat) (w : World) (b : BUFFER_INDEX) : Keeps n (BrickList w b) :=
  fun _ hs => hs

theorem keeps_assign (n : Nat) (g : Raycaster → Raycaster)
    (hg : ∀ r, (g r).brickRequest_ = r.brickRequest_) : Keeps n (assign g) := by
  intro s hs
  show (g s.rc).brickRequest_.length = n
  rw [hg]; exact hs

theorem keeps_read (n : Nat) (w : World) (p : String) (a sz : Nat) (bl : Bool) :
    Keeps n (ReadBuffer w p a sz bl) := by
  intro s hs
  show (copyInto (w.deviceData s.trace.length) s.rc.brickRequest_).length = n
  rw [copyInto_length]; exact hs

theorem keeps_build (n : Nat) (w : World) (hw : NoResize w) (b : BUFFER_INDEX) :
    Keeps n (BuildBrickList w b) := by
  intro s hs
  show (w.requestAfterBuild s.trace.length s.rc.brickRequest_).length = n
  rw [hw]; exact hs

set_option maxRecDepth 100000 in
set_option maxHeartbeats 2000000 in
theorem Render_keeps (n : Nat) (w : World) (hw : NoResize w) : Keeps n (Render w) := by
  unfold Render
  simp only [LaunchTSPTraversal, UpdateMatrices, BindTransformationMatrices, effects,
    proc_bind_assoc, proc_pure_bind, proc_ite_bind, Bool.not_true, Bool.not_false,
    Bool.false_eq_true, if_false, if_true]
  repeat (first
    | refine keeps_bind (keeps_effect _ _) (fun _ => ?_)
    | refine keeps_bind (keeps_status _ _ _) (fun _ => ?_)
    | refine keeps_ite (keeps_pure _ _) ?_
    | exact keeps_pure _ _
    | refine keeps_bind (keeps_self _) (fun _ => ?_)
    | refine keeps_bind (keeps_attrib _ _ _ _) (fun _ => ?_)
    | refine keeps_bind (keeps_glError _ _ _) (fun _ => ?_)
    | refine keeps_bind (keeps_brickList _ _ _) (fun _ => ?_)
    | refine keeps_bind (keeps_read _ _ _ _ _ _) (fun _ => ?_)
    | refine keeps_bind (keeps_build _ _ hw _) (fun _ => ?_)
    | refine keeps_bind (keeps_assign _ _ (fun _ => rfl)) (fun _ => ?_)
    | refine keeps_ite ?_ ?_)

theorem keeps_after_assign {n : Nat} {g : Raycaster → Raycaster} {k : Proc Bool}
    (hk : Keeps n k) (s : Run) (hg : (g s.rc).brickRequest_.length = n) :
    ((assign g >>= fun _ => k) s).2.rc.brickRequest_.length = n := hk _ hg

theorem InitPipeline_length (w : World) (rc : Raycaster) (tsp : TSP)
    (htsp : rc.tsp_ = some tsp) (hbm : rc.brickManager_ = true) (hw : NoResize w) :
    (call (InitPipeline w) rc).2.rc.brickRequest_.length = tsp.NumTotalNodes := by
  unfold call InitPipeline
  rw [proc_bind_run]
  simp only [self, htsp, hbm, LaunchTSPTraversal, proc_bind_assoc, proc_pure_bind,
    proc_ite_bind, Bool.not_true, Bool.not_false, Bool.false_eq_true, if_false, if_true]
  refine keeps_after_assign ?_ _ (resize_length _ _ _)
  repeat (first
    | refine keeps_bind (keeps_status _ _ _) (fun _ => ?_)
    | refine keeps_ite (keeps_pure _ _) ?_
    | exact keeps_pure _ _
    | refine keeps_bind (keeps_self _) (fun _ => ?_)
    | refine keeps_bind (keeps_read _ _ _ _ _ _) (fun _ => ?_)
    | refine keeps_bind (keeps_build _ _ hw _) (fun _ => ?_))

theorem frames_length (n : Nat) (ws : List World) (hws : ∀ w ∈ ws, NoResize w) :
    ∀ rc : Raycaster, rc.brickRequest_.length = n → (frames ws rc).brickRequest_.length = n := by
  induction ws with
  | nil => intro rc h; exact h
  | cons w ws ih =>
    intro rc h
    exact ih (fun v hv => hws v (List.mem_cons_of_mem _ hv)) _
      (Render_keeps n w (hws w (List.mem_cons_self _ _)) ⟨rc, []⟩ h)

/-- C10: after a successful `InitPipeline` the brick-request list has as many
entries as the index has nodes, and every later `Render` call, whether it
returns `true` or `false`, leaves that length as it is; the brick manager,
whose code is not part of the sources, is taken not to resize the list it is
handed in `BuildBrickList`. -/
theorem C10_request_length (w : World) (rc : Raycaster) (tsp : TSP) (ws : List World)
    (htsp : rc.tsp_ = some tsp) (hinit : (call (InitPipeline w) rc).1 = true)
    (hw : NoResize w) (hws : ∀ v ∈ ws, NoResize v) :
    (call (InitPipeline w) rc).2.rc.brickRequest_.length = tsp.NumTotalNodes ∧
    (frames ws (call (InitPipeline w) rc).2.rc).brickRequest_.length = tsp.NumTotalNodes := by
  have hbm : rc.brickManager_ = true := by
    cases h : rc.brickManager_
    · rw [InitPipeline_unset w rc (Or.inr h)] at hinit
      cases hinit
    · rfl
  have hlen := InitPipeline_length w rc tsp htsp hbm hw
  exact ⟨hlen, frames_length _ ws hws _ hlen⟩

theorem okWorld_noResize : NoResize okWorld := by
  intro k l
  simp [okWorld]

theorem stageFailWorld_noResize (k : Nat) : NoResize (stageFailWorld k) := by
  intro _ l
  rfl

/-- C10, on a fresh raycaster with an index of eight nodes, followed by a frame
that succeeds and a frame that fails. -/
theorem C10_request_length_witness :
    (call (InitPipeline okWorld) rcReady).2.rc.brickRequest_.length = 8 ∧
    (frames [okWorld, stageFailWorld 37]
      (call (InitPipeline okWorld) rcReady).2.rc).brickRequest_.length = 8 :=
  C10_request_length okWorld rcReady ⟨8⟩ [okWorld, stageFailWorld 37] rfl (by decide)
    okWorld_noResize (by
      intro v hv
      simp only [List.mem_cons, List.mem_singleton, List.not_mem_nil, or_false] at hv
      rcases hv with rfl | rfl
      · exact okWorld_noResize
      · exact stageFailWorld_noResize 37)

/-! ## Error codes -/

theorem ErrorString_header : ∀ p ∈ headerNames, ErrorString p.1 = p.2 := by decide

theorem headerNames_codes : headerNames.map Prod.fst = tableCodes := by decide

theorem headerNames_nodup : (headerNames.map Prod.snd).Nodup := by decide

theorem CheckSuccess_iff (e : Int) (location : String) :
    CheckSuccess e location = true ↔ e = 0 := by
  unfold CheckSuccess CL_SUCCESS
  by_cases h : e = 0 <;> simp [h]

theorem ErrorString_unknown (e : Int) (h : e ∉ tableCodes) :
    ErrorString e = "Unknown OpenCL error code - " ++ toString e := by
  rw [← headerNames_codes] at h
  simp only [headerNames, List.map_cons, List.map_nil, List.mem_cons, List.not_mem_nil,
    or_false, not_or] at h
  unfold ErrorString
  simp only [CL_SUCCESS, CL_DEVICE_NOT_FOUND, CL_DEVICE_NOT_AVAILABLE, CL_COMPILER_NOT_AVAILABLE, CL_MEM_OBJECT_ALLOCATION_FAILURE, CL_OUT_OF_RESOURCES, CL_OUT_OF_HOST_MEMORY, CL_PROFILING_INFO_NOT_AVAILABLE, CL_MEM_COPY_OVERLAP, CL_IMAGE_FORMAT_MISMATCH, CL_IMAGE_FORMAT_NOT_SUPPORTED, CL_BUILD_PROGRAM_FAILURE, CL_MAP_FAILURE, CL_INVALID_VALUE, CL_INVALID_DEVICE_TYPE, CL_INVALID_PLATFORM, CL_INVALID_DEVICE, CL_INVALID_CONTEXT, CL_INVALID_QUEUE_PROPERTIES, CL_INVALID_COMMAND_QUEUE, CL_INVALID_HOST_PTR, CL_INVALID_MEM_OBJECT, CL_INVALID_IMAGE_FORMAT_DESCRIPTOR, CL_INVALID_IMAGE_SIZE, CL_INVALID_SAMPLER, CL_INVALID_BINARY, CL_INVALID_BUILD_OPTIONS, CL_INVALID_PROGRAM, CL_INVALID_PROGRAM_EXECUTABLE, CL_INVALID_KERNEL_NAME, CL_INVALID_KERNEL_DEFINITION, CL_INVALID_KERNEL, CL_INVALID_ARG_INDEX, CL_INVALID_ARG_VALUE, CL_INVALID_ARG_SIZE, CL_INVALID_KERNEL_ARGS, CL_INVALID_WORK_DIMENSION, CL_INVALID_WORK_GROUP_SIZE, CL_INVALID_WORK_ITEM_SIZE, CL_INVALID_GLOBAL_OFFSET, CL_INVALID_EVENT_WAIT_LIST, CL_INVALID_EVENT, CL_INVALID_OPERATION, CL_INVALID_GL_OBJECT, CL_INVALID_BUFFER_SIZE, CL_INVALID_MIP_LEVEL, CL_INVALID_GLOBAL_WORK_SIZE]
  simp only [h, if_false]

/-- C17: for every error code outside the table, `ErrorString` returns the text
"Unknown OpenCL error code - " followed by the code in signed decimal, and
`CheckSuccess` returns `false`. -/
theorem C17_unknown_code (e : Int) (location : String) (h : e ∉ tableCodes) :
    ErrorString e = "Unknown OpenCL error code - " ++ toString e ∧
    CheckSuccess e location = false := by
  refine ⟨ErrorString_unknown e h, ?_⟩
  apply Bool.eq_false_iff.2
  intro hc
  rw [CheckSuccess_iff] at hc
  subst hc
  exact h (by decide)

/-- C17, at the code `0xFFFFFFF` and at the negative code `-1001`. -/
theorem C17_unknown_code_witness :
    (ErrorString 268435455 = "Unknown OpenCL error code - 268435455" ∧
      CheckSuccess 268435455 "CreateContext()" = false) ∧
    (ErrorString (-1001) = "Unknown OpenCL error code - -1001" ∧
      CheckSuccess (-1001) "InitPlatform()" = false) :=
  ⟨C17_unknown_code 268435455 "CreateContext()" (by decide),
   C17_unknown_code (-1001) "InitPlatform()" (by decide)⟩

/-- C18: the codes of the table are `0`, `-1` to `-12` and `-30` to `-63`; on
each of them `ErrorString` returns the name the OpenCL header gives the code
and not the text for unknown codes; different codes of the table get
different strings; and `CheckSuccess` returns `true` for `CL_SUCCESS` only. -/
theorem C18_table_exhaustive :
    headerNames.map Prod.fst = tableCodes ∧
    (∀ p ∈ headerNames, ErrorString p.1 = p.2 ∧
      ErrorString p.1 ≠ "Unknown OpenCL error code - " ++ toString p.1) ∧
    (∀ c1 ∈ tableCodes, ∀ c2 ∈ tableCodes, ErrorString c1 = ErrorString c2 → c1 = c2) ∧
    ∀ (e : Int) (location : String), CheckSuccess e location = true ↔ e = CL_SUCCESS := by
  refine ⟨headerNames_codes, by decide, by decide, ?_⟩
  intro e location
  exact CheckSuccess_iff e location

/-! ## The program registry -/

theorem onProgram_unregistered (d : Driver) (name : String) (c : ProgramCall) (m : CLManager)
    (h : mapFind m.clPrograms_ name = none) : CLManager.onProgram d name c m = (false, m) := by
  unfold CLManager.onProgram
  rw [h]

theorem onProgram_registered (d : Driver) (name : String) (c : ProgramCall) (m : CLManager)
    (p : Nat) (h : mapFind m.clPrograms_ name = some p) :
    CLManager.onProgram d name c m
      = (d.program m.log.length, { m with log := m.log ++ [ClCall.program p c] }) := by
  unfold CLManager.onProgram
  rw [h]

/-- C13: for a program name that is not registered, each name-keyed function
of the manager returns `false` and leaves the manager as it was: nothing is
called on any program and the registry is unchanged. -/
theorem C13_unregistered_name (d : Driver) (m : CLManager) (name : String)
    (h : mapFind m.clPrograms_ name = none)
    (argNr obj size : Nat) (kind : Option TextureType) (perm : Option Permissions) :
    m.BuildProgram d name = (false, m) ∧
    m.CreateKernel d name = (false, m) ∧
    m.AddTexture d name argNr obj kind perm = (false, m) ∧
    m.AddTransferFunction d name argNr obj = (false, m) ∧
    m.AddKernelConstants d name argNr obj = (false, m) ∧
    m.AddIntArray d name argNr obj size perm = (false, m) ∧
    m.PrepareProgram d name = (false, m) ∧
    m.LaunchProgram d name = (false, m) ∧
    m.FinishProgram d name = (false, m) := by
  refine ⟨onProgram_unregistered d name _ m h, onProgram_unregistered d name _ m h, ?_,
    onProgram_unregistered d name _ m h, onProgram_unregistered d name _ m h,
    onProgram_unregistered d name _ m h, onProgram_unregistered d name _ m h,
    onProgram_unregistered d name _ m h, onProgram_unregistered d name _ m h⟩
  unfold CLManager.AddTexture
  cases perm with
  | none => rfl
  | some pm =>
    cases kind with
    | none => rfl
    | some k => cases k <;> simp only [onProgram_unregistered d name _ m h]

/-- C13, on the name "Missing" in a manager that has "TSPTraversal" registered. -/
theorem C13_unregistered_name_witness :
    (CLManager.CreateProgram okDriver "TSPTraversal" "t.cl" freshManager).2.BuildProgram
        okDriver "Missing"
      = (false, (CLManager.CreateProgram okDriver "TSPTraversal" "t.cl" freshManager).2) ∧
    (CLManager.CreateProgram okDriver "TSPTraversal" "t.cl" freshManager).2.FinishProgram
        okDriver "Missing"
      = (false, (CLManager.CreateProgram okDriver "TSPTraversal" "t.cl" freshManager).2) := by
  have h := C13_unregistered_name okDriver
    (CLManager.CreateProgram okDriver "TSPTraversal" "t.cl" freshManager).2 "Missing"
    (by decide) 0 0 0 none none
  exact ⟨h.1, h.2.2.2.2.2.2.2.2⟩

/-- C14: for a registered name, `BuildProgram` and `CreateKernel` call the
member function of the registered program and return exactly what it
returns; the registry stays as it is. -/
theorem C14_build_delegates (d : Driver) (m : CLManager) (name : String) (p : Nat)
    (h : mapFind m.clPrograms_ name = some p) :
    m.BuildProgram d name
      = (d.program m.log.length,
          { m with log := m.log ++ [ClCall.program p ProgramCall.BuildProgram] }) ∧
    m.CreateKernel d name
      = (d.program m.log.length,
          { m with log := m.log ++ [ClCall.program p ProgramCall.CreateKernel] }) :=
  ⟨onProgram_registered d name _ m p h, onProgram_registered d name _ m p h⟩

/-- C16: `AddTexture` with the texture kind 1D, or with any kind other than 2D
and 3D, returns `false` and leaves the manager as it was, whatever the program
name, the argument index, the texture and the permission. -/
theorem C16_texture_kind (d : Driver) (m : CLManager) (name : String) (argNr texture : Nat)
    (kind : Option TextureType) (perm : Option Permissions)
    (h2 : kind ≠ some TextureType.TEXTURE_2D) (h3 : kind ≠ some TextureType.TEXTURE_3D) :
    m.AddTexture d name argNr texture kind perm = (false, m) := by
  unfold CLManager.AddTexture
  cases perm with
  | none => rfl
  | some pm =>
    cases kind with
    | none => rfl
    | some k =>
      cases k
      · rfl
      · exact absurd rfl h2
      · exact absurd rfl h3

/-- C16, with the kind 1D on a registered name. -/
theorem C16_texture_kind_witness :
    (CLManager.CreateProgram okDriver "RaycasterTSP" "r.cl" freshManager).2.AddTexture
        okDriver "RaycasterTSP" 5 7 (some TextureType.TEXTURE_1D) (some Permissions.READ_ONLY)
      = (false, (CLManager.CreateProgram okDriver "RaycasterTSP" "r.cl" freshManager).2) :=
  C16_texture_kind okDriver _ "RaycasterTSP" 5 7 (some TextureType.TEXTURE_1D)
    (some Permissions.READ_ONLY) (by decide) (by decide)

/-! ## Platforms, devices and the context -/

/-- C19 fails as stated: when the platform query reports `CL_SUCCESS` and zero
platforms, `InitPlatform` returns `true`; when the device query reports
`CL_SUCCESS` and zero devices, `InitDevices` returns `true`. -/
theorem C19_counterexample :
    (freshManager.InitPlatform emptyDriver).1 = true ∧
    (freshManager.InitPlatform emptyDriver).2.numPlatforms_ = 0 ∧
    (CLManager.InitDevices emptyDriver { freshManager with numPlatforms_ := 1 }).1 = true ∧
    (CLManager.InitDevices emptyDriver { freshManager with numPlatforms_ := 1 }).2.numDevices_
      = 0 := by
  decide

/-- C19, amended: `InitPlatform` returns `false` exactly when the platform query
reports an error code; `InitDevices` returns `false`, without a query, when no
platform is recorded, and returns `false` when the device query reports an
error code; a zero count left behind by a query makes the next stage fail,
`InitDevices` after `InitPlatform` and `CreateContext` after `InitDevices`. -/
theorem C19_zero_counts (d d1 : Driver) (m : CLManager) :
    ((m.InitPlatform d).1 = false ↔ d.code m.log.length ≠ CL_SUCCESS) ∧
    (m.numPlatforms_ = 0 → m.InitDevices d = (false, m)) ∧
    (d.code m.log.length ≠ CL_SUCCESS → (m.InitDevices d).1 = false) ∧
    ((m.InitPlatform d).2.numPlatforms_ = 0 →
      (m.InitPlatform d).2.InitDevices d1 = (false, (m.InitPlatform d).2)) ∧
    ((m.InitDevices d).2.numDevices_ = 0 →
      (m.InitDevices d).2.CreateContext d1 = (false, (m.InitDevices d).2)) := by
  have hdev : ∀ (x : CLManager) (y : Driver), x.numPlatforms_ = 0 →
      x.InitDevices y = (false, x) := by
    intro x y hx
    unfold CLManager.InitDevices
    simp [hx]
  refine ⟨?_, hdev m d, ?_, hdev _ d1, ?_⟩
  · unfold CLManager.InitPlatform
    by_cases hc : d.code m.log.length = CL_SUCCESS <;> simp [hc]
  · intro hc
    unfold CLManager.InitDevices
    by_cases hp : m.numPlatforms_ < 1
    · simp [hp]
    · simp [hp, CheckSuccess, hc]
  · intro hz
    unfold CLManager.CreateContext
    by_cases hp : (m.InitDevices d).2.numPlatforms_ < 1
    · simp [hp]
    · simp [hp, hz]

/-- C19, amended, on a driver that reports the error `CL_DEVICE_NOT_FOUND`, and
on the zero counts of the counterexample. -/
theorem C19_zero_counts_witness :
    (freshManager.InitPlatform ⟨fun _ => -1, fun _ => 0, fun _ => true⟩).1 = false ∧
    (freshManager.InitPlatform emptyDriver).2.InitDevices okDriver
      = (false, (freshManager.InitPlatform emptyDriver).2) := by
  have h := C19_zero_counts ⟨fun _ => -1, fun _ => 0, fun _ => true⟩ okDriver freshManager
  have h1 := C19_zero_counts emptyDriver okDriver freshManager
  exact ⟨h.1.2 (by decide), h1.2.2.2.1 (by decide)⟩

/-- C20: `CreateContext` returns `false` without creating a context when the
recorded platform count or the recorded device count is below one; with both
at least one it creates the context and returns `true` exactly when the
creation reports `CL_SUCCESS`. -/
theorem C20_create_context (d : Driver) (m : CLManager) :
    (m.numPlatforms_ < 1 ∨ m.numDevices_ < 1 → m.CreateContext d = (false, m)) ∧
    (1 ≤ m.numPlatforms_ → 1 ≤ m.numDevices_ →
      ((m.CreateContext d).1 = true ↔ d.code m.log.length = CL_SUCCESS) ∧
      (m.CreateContext d).2.log = m.log ++ [ClCall.clCreateContext]) := by
  constructor
  · intro h
    unfold CLManager.CreateContext
    by_cases hp : m.numPlatforms_ < 1
    · simp [hp]
    · have hd : m.numDevices_ < 1 := h.resolve_left hp
      simp [hp, hd]
  · intro hp hd
    have hp1 : ¬ m.numPlatforms_ < 1 := by omega
    have hd1 : ¬ m.numDevices_ < 1 := by omega
    refine ⟨?_, ?_⟩
    · unfold CLManager.CreateContext CheckSuccess
      by_cases hc : d.code m.log.length = CL_SUCCESS <;> simp [hp1, hd1, hc]
    · unfold CLManager.CreateContext
      simp [hp1, hd1]

/-- C20, on a manager without devices and on a manager with one platform and
one device. -/
theorem C20_create_context_witness :
    CLManager.CreateContext okDriver { freshManager with numPlatforms_ := 1 }
      = (false, { freshManager with numPlatforms_ := 1 }) ∧
    ((CLManager.CreateContext okDriver
        { freshManager with numPlatforms_ := 1, numDevices_ := 1 }).1 = true ↔
      okDriver.code 0 = CL_SUCCESS) :=
  ⟨(C20_create_context okDriver { freshManager with numPlatforms_ := 1 }).1
      (Or.inr (by decide)),
   ((C20_create_context okDriver
      { freshManager with numPlatforms_ := 1, numDevices_ := 1 }).2
      (by decide) (by decide)).1⟩

/-! ## Re-registration -/

theorem mapFind_erase_self (reg : List (String × Nat)) (name : String) :
    mapFind (mapErase reg name) name = none := by
  induction reg with
  | nil => rfl
  | cons e reg ih =>
    obtain ⟨k, v⟩ := e
    by_cases h : k = name <;> simp [mapErase, mapFind, h, ih]

theorem mapFind_erase_other (reg : List (String × Nat)) (name other : String)
    (h : other ≠ name) : mapFind (mapErase reg name) other = mapFind reg other := by
  induction reg with
  | nil => rfl
  | cons e reg ih =>
    obtain ⟨k, v⟩ := e
    simp only [mapErase, mapFind]
    by_cases hk : k = name
    · have hko : ¬ k = other := fun h1 => h (h1.symm.trans hk)
      rw [if_pos hk, if_neg hko]
      exact ih
    · rw [if_neg hk]
      simp only [mapFind, ih]

theorem mapFind_set_self (reg : List (String × Nat)) (name : String) (v : Nat) :
    mapFind (mapSet reg name v) name = some v := by
  induction reg with
  | nil => simp [mapSet, mapFind]
  | cons e reg ih =>
    obtain ⟨k, x⟩ := e
    by_cases h : k = name <;> simp [mapSet, mapFind, h, ih]

theorem mapFind_set_other (reg : List (String × Nat)) (name other : String) (v : Nat)
    (h : other ≠ name) : mapFind (mapSet reg name v) other = mapFind reg other := by
  induction reg with
  | nil =>
    simp only [mapSet, mapFind]
    rw [if_neg (fun h1 => h h1.symm)]
  | cons e reg ih =>
    obtain ⟨k, x⟩ := e
    simp only [mapSet, mapFind]
    by_cases hk : k = name
    · have hko : ¬ k = other := fun h1 => h (h1.symm.trans hk)
      rw [if_pos hk]
      simp only [mapFind, if_neg hko]
    · rw [if_neg hk]
      simp only [mapFind, ih]

theorem mapCount_set_of_unregistered (reg : List (String × Nat)) (name : String) (v : Nat)
    (h : mapFind reg name = none) : mapCount (mapSet reg name v) name = 1 := by
  induction reg with
  | nil => simp [mapSet, mapCount]
  | cons e reg ih =>
    obtain ⟨k, x⟩ := e
    by_cases hk : k = name
    · simp [mapFind, hk] at h
    · simp only [mapFind, hk, if_false] at h
      have := ih h
      simp only [mapCount] at this ⊢
      simp [mapSet, hk, this]

theorem CreateProgram_spec (d : Driver) (name file : String) (m : CLManager) :
    (m.CreateProgram d name file).2.created = m.created + 1 ∧
    mapFind (m.CreateProgram d name file).2.clPrograms_ name = some m.created ∧
    mapCount (m.CreateProgram d name file).2.clPrograms_ name = 1 ∧
    (∀ other, other ≠ name →
      mapFind (m.CreateProgram d name file).2.clPrograms_ other = mapFind m.clPrograms_ other) ∧
    (m.CreateProgram d name file).2.log
      = m.log ++ createLog name (mapFind m.clPrograms_ name) m.created [(d, file)] := by
  unfold CLManager.CreateProgram
  cases h : mapFind m.clPrograms_ name with
  | none =>
    refine ⟨rfl, mapFind_set_self _ _ _, mapCount_set_of_unregistered _ _ _ h, ?_, ?_⟩
    · intro other ho
      exact mapFind_set_other _ _ _ _ ho
    · simp [createLog]
  | some old =>
    refine ⟨rfl, mapFind_set_self _ _ _,
      mapCount_set_of_unregistered _ _ _ (mapFind_erase_self _ _), ?_, ?_⟩
    · intro other ho
      simp only []
      rw [mapFind_set_other _ _ _ _ ho, mapFind_erase_other _ _ _ ho]
    · simp [createLog]

theorem createAll_spec (name : String) (calls : List (Driver × String)) :
    ∀ m : CLManager, calls ≠ [] →
    (CLManager.createAll name calls m).created = m.created + calls.length ∧
    mapFind (CLManager.createAll name calls m).clPrograms_ name
      = some (m.created + calls.length - 1) ∧
    mapCount (CLManager.createAll name calls m).clPrograms_ name = 1 ∧
    (∀ other, other ≠ name →
      mapFind (CLManager.createAll name calls m).clPrograms_ other
        = mapFind m.clPrograms_ other) ∧
    (CLManager.createAll name calls m).log
      = m.log ++ createLog name (mapFind m.clPrograms_ name) m.created calls := by
  induction calls with
  | nil => intro m h; exact absurd rfl h
  | cons c rest ih =>
    intro m _
    obtain ⟨d, file⟩ := c
    obtain ⟨h1, h2, h3, h4, h5⟩ := CreateProgram_spec d name file m
    cases rest with
    | nil =>
      refine ⟨h1, ?_, h3, h4, h5⟩
      simpa using h2
    | cons c2 rest2 =>
      obtain ⟨i1, i2, i3, i4, i5⟩ := ih (m.CreateProgram d name file).2 (by simp)
      simp only [CLManager.createAll] at i1 i2 i3 i4 i5 ⊢
      refine ⟨?_, ?_, i3, ?_, ?_⟩
      · rw [i1, h1]; simp only [List.length_cons]; omega
      · rw [i2, h1]; simp only [List.length_cons]; congr 1; omega
      · intro other ho
        rw [i4 other ho, h4 other ho]
      · rw [i5, h5, h2, h1]
        simp [createLog]

theorem destroyed_append (a b : List ClCall) : destroyed (a ++ b) = destroyed a ++ destroyed b := by
  induction a with
  | nil => rfl
  | cons c a ih => cases c <;> simp [destroyed, ih]

theorem touched_append (a b : List ClCall) : touched (a ++ b) = touched a ++ touched b := by
  induction a with
  | nil => rfl
  | cons c a ih => cases c <;> simp [touched, ih]

theorem destroyed_createLog (name : String) (calls : List (Driver × String)) :
    ∀ (prev : Option Nat) (next : Nat), calls ≠ [] →
    destroyed (createLog name prev next calls)
      = prev.toList ++ List.range' next (calls.length - 1) := by
  induction calls with
  | nil => intro _ _ h; exact absurd rfl h
  | cons c rest ih =>
    intro prev next _
    obtain ⟨d, file⟩ := c
    have hd : destroyed (prev.toList.map ClCall.destroy) = prev.toList := by
      cases prev <;> rfl
    cases rest with
    | nil => simp [createLog, destroyed_append, hd, destroyed]
    | cons c2 rest2 =>
      have := ih (some next) (next + 1) (by simp)
      simp only [createLog, destroyed_append, hd, destroyed, List.nil_append] at this ⊢
      rw [this]
      simp [List.range'_succ]

theorem touched_createLog (name : String) (calls : List (Driver × String)) :
    ∀ (prev : Option Nat) (next : Nat),
    ∀ q ∈ touched (createLog name prev next calls), prev = some q ∨ next ≤ q := by
  induction calls with
  | nil => intro _ _ q h; simp [createLog, touched] at h
  | cons c rest ih =>
    intro prev next q hq
    obtain ⟨d, file⟩ := c
    have ht : touched (prev.toList.map ClCall.destroy) = prev.toList := by
      cases prev <;> rfl
    simp only [createLog, touched_append, ht, touched, List.mem_append, List.mem_cons,
      List.mem_singleton, List.not_mem_nil, or_false] at hq
    rcases hq with (hq | hq) | hq
    · left
      cases prev with
      | none => simp at hq
      | some p => simp at hq; rw [hq]
    · right; omega
    · rcases ih (some next) (next + 1) q hq with h | h
      · right
        have : next = q := Option.some.inj h
        omega
      · right; omega

theorem mem_of_mapFind (reg : List (String × Nat)) (name : String) (p : Nat)
    (h : mapFind reg name = some p) : (name, p) ∈ reg := by
  induction reg with
  | nil => simp [mapFind] at h
  | cons e reg ih =>
    obtain ⟨k, v⟩ := e
    simp only [mapFind] at h
    by_cases hk : k = name
    · rw [if_pos hk] at h
      have hv : v = p := Option.some.inj h
      rw [hk, hv]
      exact List.mem_cons_self _ _
    · rw [if_neg hk] at h
      exact List.mem_cons_of_mem _ (ih h)

theorem since_createAll (name : String) (calls : List (Driver × String)) (m : CLManager)
    (hne : calls ≠ []) :
    m.since (CLManager.createAll name calls m)
      = createLog name (mapFind m.clPrograms_ name) m.created calls := by
  unfold CLManager.since
  rw [(createAll_spec name calls m hne).2.2.2.2, List.drop_left]

/-- C15: after one or more `CreateProgram` calls under one name, whatever each
call returns, the registry has exactly one entry under that name, the program
constructed by the last call; every program constructed by an earlier call of
the run has been destroyed exactly once and the last one not at all; and under
every other name the registry holds what it held, a program on which nothing
was called and which was not destroyed. -/
theorem C15_recreate (name : String) (calls : List (Driver × String)) (m : CLManager)
    (hwf : m.WellFormed) (hne : calls ≠ []) :
    mapCount (CLManager.createAll name calls m).clPrograms_ name = 1 ∧
    mapFind (CLManager.createAll name calls m).clPrograms_ name
      = some (m.created + calls.length - 1) ∧
    (∀ p, m.created ≤ p → p + 1 < m.created + calls.length →
      (destroyed (m.since (CLManager.createAll name calls m))).count p = 1) ∧
    (destroyed (m.since (CLManager.createAll name calls m))).count
      (m.created + calls.length - 1) = 0 ∧
    (∀ other, other ≠ name →
      mapFind (CLManager.createAll name calls m).clPrograms_ other
        = mapFind m.clPrograms_ other ∧
      ∀ q, mapFind m.clPrograms_ other = some q →
        q ∉ touched (m.since (CLManager.createAll name calls m))) := by
  obtain ⟨_, h2, h3, h4, _⟩ := createAll_spec name calls m hne
  obtain ⟨hlt, hinj⟩ := hwf
  have hs := since_createAll name calls m hne
  have hd := destroyed_createLog name calls (mapFind m.clPrograms_ name) m.created hne
  have hprev : ∀ old, mapFind m.clPrograms_ name = some old → old < m.created := by
    intro old ho
    exact hlt _ (mem_of_mapFind _ _ _ ho)
  have hlen : 0 < calls.length := List.length_pos.2 hne
  refine ⟨h3, h2, ?_, ?_, ?_⟩
  · intro p hp1 hp2
    rw [hs, hd, List.count_append]
    have h1 : List.count p (mapFind m.clPrograms_ name).toList = 0 := by
      apply List.count_eq_zero_of_not_mem
      intro hmem
      cases ho : mapFind m.clPrograms_ name with
      | none => rw [ho] at hmem; simp at hmem
      | some old =>
        rw [ho] at hmem
        simp at hmem
        have := hprev old ho
        omega
    have h2 : List.count p (List.range' m.created (calls.length - 1)) = 1 :=
      List.count_eq_one_of_mem (List.nodup_range' _ _) (List.mem_range'_1.2 ⟨hp1, by omega⟩)
    rw [h1, h2]
  · rw [hs, hd]
    apply List.count_eq_zero_of_not_mem
    intro hmem
    rcases List.mem_append.1 hmem with hmem | hmem
    · cases ho : mapFind m.clPrograms_ name with
      | none => rw [ho] at hmem; simp at hmem
      | some old =>
        rw [ho] at hmem
        simp at hmem
        have := hprev old ho
        omega
    · have := (List.mem_range'_1.1 hmem).2
      omega
  · intro other hother
    refine ⟨h4 other hother, ?_⟩
    intro q hq hmem
    rw [hs] at hmem
    have hqm := mem_of_mapFind _ _ _ hq
    rcases touched_createLog name calls _ _ q hmem with h | h
    · have := hinj _ (mem_of_mapFind _ _ _ h) _ hqm rfl
      exact hother this.symm
    · have := hlt _ hqm
      simp only at this
      omega

/-- C15, on three `CreateProgram` calls under "TSPTraversal", the second of which
fails, in a manager that has "RaycasterTSP" registered. -/
theorem C15_recreate_witness :
    mapCount (CLManager.createAll "TSPTraversal"
        [(okDriver, "a.cl"), (⟨fun _ => 0, fun _ => 1, fun _ => false⟩, "b.cl"),
          (okDriver, "c.cl")]
        (CLManager.CreateProgram okDriver "RaycasterTSP" "r.cl" freshManager).2).clPrograms_
      "TSPTraversal" = 1 ∧
    mapFind (CLManager.createAll "TSPTraversal"
        [(okDriver, "a.cl"), (⟨fun _ => 0, fun _ => 1, fun _ => false⟩, "b.cl"),
          (okDriver, "c.cl")]
        (CLManager.CreateProgram okDriver "RaycasterTSP" "r.cl" freshManager).2).clPrograms_
      "TSPTraversal" = some 3 := by
  have h := C15_recreate "TSPTraversal"
    [(okDriver, "a.cl"), (⟨fun _ => 0, fun _ => 1, fun _ => false⟩, "b.cl"), (okDriver, "c.cl")]
    (CLManager.CreateProgram okDriver "RaycasterTSP" "r.cl" freshManager).2
    ⟨by decide, by decide⟩ (by simp)
  exact ⟨h.1, h.2.1⟩

/-- C14, on a name registered by `CreateProgram`. -/
theorem C14_build_delegates_witness :
    (CLManager.CreateProgram okDriver "TSPTraversal" "t.cl" freshManager).2.BuildProgram
        okDriver "TSPTraversal"
      = (okDriver.program 2,
          { (CLManager.CreateProgram okDriver "TSPTraversal" "t.cl" freshManager).2 with
            log := (CLManager.CreateProgram okDriver "TSPTraversal" "t.cl" freshManager).2.log
              ++ [ClCall.program 0 ProgramCall.BuildProgram] }) :=
  (C14_build_delegates okDriver
    (CLManager.CreateProgram okDriver "TSPTraversal" "t.cl" freshManager).2
    "TSPTraversal" 0 (by decide)).1

theorem mem_mapErase (reg : List (String × Nat)) (name : String) (e : String × Nat)
    (h : e ∈ mapErase reg name) : e ∈ reg ∧ e.1 ≠ name := by
  induction reg with
  | nil => simp [mapErase] at h
  | cons x reg ih =>
    obtain ⟨k, v⟩ := x
    simp only [mapErase] at h
    by_cases hk : k = name
    · rw [if_pos hk] at h
      exact ⟨List.mem_cons_of_mem _ (ih h).1, (ih h).2⟩
    · rw [if_neg hk] at h
      rcases List.mem_cons.1 h with h | h
      · rw [h]; exact ⟨List.mem_cons_self _ _, hk⟩
      · exact ⟨List.mem_cons_of_mem _ (ih h).1, (ih h).2⟩

theorem mem_mapSet (reg : List (String × Nat)) (name : String) (v : Nat) (e : String × Nat)
    (h : e ∈ mapSet reg name v) : e = (name, v) ∨ e ∈ reg := by
  induction reg with
  | nil => simp [mapSet] at h; exact Or.inl h
  | cons x reg ih =>
    obtain ⟨k, y⟩ := x
    simp only [mapSet] at h
    by_cases hk : k = name
    · rw [if_pos hk] at h
      rcases List.mem_cons.1 h with h | h
      · left; rw [h, hk]
      · right; exact List.mem_cons_of_mem _ h
    · rw [if_neg hk] at h
      rcases List.mem_cons.1 h with h | h
      · right; rw [h]; exact List.mem_cons_self _ _
      · rcases ih h with h1 | h1
        · exact Or.inl h1
        · exact Or.inr (List.mem_cons_of_mem _ h1)

theorem mem_CreateProgram (d : Driver) (name file : String) (m : CLManager)
    (e : String × Nat) (h : e ∈ (m.CreateProgram d name file).2.clPrograms_) :
    e = (name, m.created) ∨ e ∈ m.clPrograms_ := by
  unfold CLManager.CreateProgram at h
  cases hf : mapFind m.clPrograms_ name with
  | none =>
    rw [hf] at h
    exact mem_mapSet _ _ _ _ h
  | some old =>
    rw [hf] at h
    rcases mem_mapSet _ _ _ _ h with h1 | h1
    · exact Or.inl h1
    · exact Or.inr (mem_mapErase _ _ _ h1).1

theorem CreateProgram_wellFormed (d : Driver) (name file : String) (m : CLManager)
    (hwf : m.WellFormed) : (m.CreateProgram d name file).2.WellFormed := by
  obtain ⟨hlt, hinj⟩ := hwf
  have hc := (CreateProgram_spec d name file m).1
  constructor
  · intro e he
    rw [hc]
    rcases mem_CreateProgram d name file m e he with h | h
    · rw [h]; exact Nat.lt_succ_self _
    · exact Nat.lt_succ_of_lt (hlt e h)
  · intro e1 h1 e2 h2 heq
    rcases mem_CreateProgram d name file m e1 h1 with a1 | a1 <;>
      rcases mem_CreateProgram d name file m e2 h2 with a2 | a2
    · rw [a1, a2]
    · have := hlt e2 a2
      rw [a1] at heq
      simp only at heq
      omega
    · have := hlt e1 a1
      rw [a2] at heq
      simp only at heq
      omega
    · exact hinj e1 a1 e2 a2 heq

theorem freshManager_wellFormed : freshManager.WellFormed := by
  constructor
  · intro e he; cases he
  · intro e1 h1; cases h1

/-! ## Buffers of a kernel argument slot -/

theorem released_of_added {c : Call} {s : String × Nat} (h : added c = some s) :
    released c = none := by
  cases c <;> first | rfl | simp [added] at h

theorem hold_of_added {c : Call} {s : String × Nat} (h : added c = some s)
    (held : List (String × Nat)) : hold held c = s :: held := by
  cases c <;> simp [added] at h
  subst h; rfl

theorem mem_hold {c : Call} {s : String × Nat} {held : List (String × Nat)}
    (hs : s ∈ held) (hr : released c ≠ some s) : s ∈ hold held c := by
  cases c <;> simp only [hold] <;> try exact hs
  · exact List.mem_cons_of_mem _ hs
  · rename_i p a
    simp only [released, ne_eq, Option.some.injEq] at hr
    simp only [List.mem_filter, decide_eq_true_eq]
    exact ⟨hs, fun h => hr h.symm⟩

theorem mem_of_mem_hold {c : Call} {s : String × Nat} {held : List (String × Nat)}
    (hs : s ∈ hold held c) : s ∈ held ∨ added c = some s := by
  cases c <;> simp only [hold] at hs <;> try exact Or.inl hs
  · rename_i p a _ _ _ _
    rcases List.mem_cons.1 hs with h | h
    · right; simp [added, h]
    · exact Or.inl h
  · exact Or.inl (List.mem_filter.1 hs).1

theorem not_released_of_mem_hold {c : Call} {s : String × Nat} {held : List (String × Nat)}
    (hs : s ∈ hold held c) : released c ≠ some s := by
  cases c <;> simp only [released, ne_eq, Option.some.injEq] <;>
    try exact fun h => Option.noConfusion h
  rename_i p a
  simp only [hold, List.mem_filter, decide_eq_true_eq] at hs
  exact fun h => hs.2 h.symm

/-- The monitor with the slots `held` in use accepts a run of calls exactly when
no call adds to a slot of `held` that was not released before and the run keeps
the discipline. -/
theorem noDoubleAdd_iff (cs : List Call) : ∀ held : List (String × Nat),
    noDoubleAdd held cs = true ↔
      (∀ (pre post : List Call) (c2 : Call) (s : String × Nat),
        cs = pre ++ c2 :: post → added c2 = some s → s ∈ held →
        ∃ c ∈ pre, released c = some s) ∧ AddDiscipline cs := by
  induction cs with
  | nil =>
    intro held
    simp only [noDoubleAdd, true_iff]
    refine ⟨?_, ?_⟩
    · intro pre post c2 s h; simp at h
    · intro pre mid post c1 c2 s h; simp at h
  | cons c cs ih =>
    intro held
    simp only [noDoubleAdd, Bool.and_eq_true, ih]
    constructor
    · rintro ⟨h0, hA, hD⟩
      refine ⟨?_, ?_⟩
      · intro pre post c2 s hsplit hadd hmem
        cases pre with
        | nil =>
          simp only [List.nil_append, List.cons.injEq] at hsplit
          obtain ⟨rfl, -⟩ := hsplit
          simp [hadd, hmem] at h0
        | cons p pre =>
          simp only [List.cons_append, List.cons.injEq] at hsplit
          obtain ⟨rfl, hsplit⟩ := hsplit
          by_cases hr : released c = some s
          · exact ⟨c, List.mem_cons_self _ _, hr⟩
          · obtain ⟨c3, hc3, hrel⟩ := hA pre post c2 s hsplit hadd (mem_hold hmem hr)
            exact ⟨c3, List.mem_cons_of_mem _ hc3, hrel⟩
      · intro pre mid post c1 c2 s hsplit h1 h2
        cases pre with
        | nil =>
          simp only [List.nil_append, List.cons.injEq] at hsplit
          obtain ⟨rfl, hsplit⟩ := hsplit
          refine hA mid post c2 s hsplit h2 ?_
          rw [hold_of_added h1]
          exact List.mem_cons_self _ _
        | cons p pre =>
          simp only [List.cons_append, List.cons.injEq] at hsplit
          obtain ⟨rfl, hsplit⟩ := hsplit
          exact hD pre mid post c1 c2 s hsplit h1 h2
    · rintro ⟨hA, hD⟩
      refine ⟨?_, ?_, ?_⟩
      · cases hadd : added c with
        | none => rfl
        | some s =>
          simp only [decide_eq_true_eq]
          intro hmem
          obtain ⟨c3, hc3, -⟩ := hA [] cs c s rfl hadd hmem
          simp at hc3
      · intro pre post c2 s hsplit hadd hmem
        rcases mem_of_mem_hold hmem with hheld | hc
        · obtain ⟨c3, hc3, hrel⟩ := hA (c :: pre) post c2 s (by simp [hsplit]) hadd hheld
          rcases List.mem_cons.1 hc3 with rfl | hc3
          · exact absurd hrel (not_released_of_mem_hold hmem)
          · exact ⟨c3, hc3, hrel⟩
        · exact hD [] pre post c c2 s (by simp [hsplit]) hc hadd
      · intro pre mid post c1 c2 s hsplit h1 h2
        exact hD (c :: pre) mid post c1 c2 s (by simp [hsplit]) h1 h2

theorem discipline_iff (cs : List Call) : AddDiscipline cs ↔ noDoubleAdd [] cs = true := by
  rw [noDoubleAdd_iff]
  constructor
  · intro h
    exact ⟨fun _ _ _ _ _ _ hm => absurd hm (List.not_mem_nil _), h⟩
  · exact fun h => h.2

theorem heldAfter_append (held : List (String × Nat)) (a b : List Call) :
    heldAfter held (a ++ b) = heldAfter (heldAfter held a) b := by
  simp [heldAfter, List.foldl_append]

theorem noDoubleAdd_append (a b : List Call) : ∀ held : List (String × Nat),
    noDoubleAdd held (a ++ b) = (noDoubleAdd held a && noDoubleAdd (heldAfter held a) b) := by
  induction a with
  | nil => intro held; simp [noDoubleAdd, heldAfter]
  | cons c a ih =>
    intro held
    show ((match added c with
      | some s => decide (s ∉ held)
      | none => true) && noDoubleAdd (hold held c) (a ++ b)) = _
    rw [ih]
    simp only [noDoubleAdd, heldAfter, List.foldl_cons, Bool.and_assoc]

theorem hold_of_not_buffer {c : Call} (h : isBufferCall c = false)
    (held : List (String × Nat)) : hold held c = held := by
  cases c <;> simp [isBufferCall] at h <;> rfl

theorem added_of_not_buffer {c : Call} (h : isBufferCall c = false) : added c = none := by
  cases c <;> simp [isBufferCall] at h <;> rfl

theorem heldAfter_filter (cs : List Call) : ∀ held : List (String × Nat),
    heldAfter held (cs.filter isBufferCall) = heldAfter held cs := by
  induction cs with
  | nil => intro held; rfl
  | cons c cs ih =>
    intro held
    cases hc : isBufferCall c
    · simp only [List.filter_cons, hc, Bool.false_eq_true, if_false, heldAfter, List.foldl_cons,
        hold_of_not_buffer hc]
      exact ih held
    · simp only [List.filter_cons, hc, if_true, heldAfter, List.foldl_cons]
      exact ih _

theorem noDoubleAdd_filter (cs : List Call) : ∀ held : List (String × Nat),
    noDoubleAdd held (cs.filter isBufferCall) = noDoubleAdd held cs := by
  induction cs with
  | nil => intro held; rfl
  | cons c cs ih =>
    intro held
    cases hc : isBufferCall c
    · simp only [List.filter_cons, hc, Bool.false_eq_true, if_false, noDoubleAdd,
        hold_of_not_buffer hc, added_of_not_buffer hc, Bool.true_and]
      exact ih held
    · simp only [List.filter_cons, hc, if_true, noDoubleAdd, ih]

/-! ## The calls of set-up and reload -/

theorem issues_pure {α : Type} (a : α) (calls : List Call) : Issues (pure a : Proc α) calls :=
  fun s => ⟨[], List.nil_prefix, by simp [pure]⟩

theorem issues_ite {c : Prop} [Decidable c] {k : Proc Bool} {body : List Call}
    (h : Issues k body) : Issues (if c then pure false else k) body := by
  split
  · exact issues_pure _ _
  · exact h

theorem issues_self {k : Raycaster → Proc Bool} {body : List Call}
    (h : ∀ r, Issues (k r) body) : Issues (self >>= k) body :=
  fun s => h s.rc s

theorem issues_step {α : Type} {p : Proc α} {k : α → Proc Bool} {c : Call} {body : List Call}
    (hp : ∀ s, ∃ ok, (p s).2.trace = s.trace ++ [⟨c, ok⟩])
    (h : ∀ a, Issues (k a) body) : Issues (p >>= k) (c :: body) := by
  intro s
  obtain ⟨ok, hok⟩ := hp s
  obtain ⟨l, hl, ht⟩ := h (p s).1 (p s).2
  refine ⟨c :: l, List.prefix_cons_inj c |>.2 hl, ?_⟩
  show ((k (p s).1) (p s).2).2.trace.map Event.call = _
  rw [ht, hok]
  simp

theorem issues_status {w : World} {c : Call} {k : Proc Bool} {body : List Call}
    (h : Issues k body) :
    Issues (status w c >>= fun b => if (!b) = true then pure false else k) (c :: body) :=
  issues_step (fun _ => ⟨_, rfl⟩) (fun _ => issues_ite h)

theorem issues_effect {c : Call} {k : Proc Bool} {body : List Call} (h : Issues k body) :
    Issues (effect c >>= fun _ => k) (c :: body) :=
  issues_step (fun _ => ⟨_, rfl⟩) (fun _ => h)

theorem issues_glError {w : World} {l : String} {k : Proc Bool} {body : List Call}
    (h : Issues k body) :
    Issues (CheckGLError w l >>= fun _ => k) (Call.CheckGLError l :: body) :=
  issues_step (fun _ => ⟨_, rfl⟩) (fun _ => h)

theorem issues_configRead {w : World} {fileConfig : Config} {k : Proc Bool} {body : List Call}
    (h : Issues k body) :
    Issues (ConfigRead w fileConfig >>= fun b => if (!b) = true then pure false else k)
      (Call.ConfigRead :: body) :=
  issues_step (fun _ => ⟨_, rfl⟩) (fun _ => issues_ite h)

theorem UpdateKernelConstants_issues (a : Setup) (k : Constants) (w : World) :
    Issues (UpdateKernelConstants a k w) (updateCalls a k) := by
  unfold UpdateKernelConstants
  simp only [proc_bind_assoc, proc_pure_bind, proc_ite_bind, Bool.not_true, Bool.not_false,
    Bool.false_eq_true, if_false, if_true, updateCalls]
  repeat (first
    | exact issues_pure _ _
    | refine issues_status ?_
    | refine issues_self (fun _ => ?_)
    | refine issues_ite ?_)

theorem InitCL_issues (a : Setup) (k : Constants) (w : World) :
    Issues (InitCL a k w) (initCLCalls a k) := by
  unfold InitCL
  simp only [UpdateKernelConstants, proc_bind_assoc, proc_pure_bind, proc_ite_bind,
    Bool.not_true, Bool.not_false, Bool.false_eq_true, if_false, if_true, initCLCalls,
    updateCalls, List.cons_append, List.nil_append]
  repeat (first
    | exact issues_pure _ _
    | refine issues_status ?_
    | refine issues_self (fun _ => ?_)
    | refine issues_ite ?_)

theorem Reload_issues (a : Setup) (k : Constants) (w : World) (fileConfig : Config) :
    Issues (Reload a k w fileConfig) (reloadCalls a k) := by
  unfold Reload
  simp only [UpdateKernelConstants, ReloadShaders, ReloadTransferFunctions, proc_bind_assoc,
    proc_pure_bind, proc_ite_bind, Bool.not_true, Bool.not_false, Bool.false_eq_true, if_false,
    if_true, reloadCalls, updateCalls, List.cons_append, List.nil_append]
  repeat (first
    | exact issues_pure _ _
    | refine issues_status ?_
    | refine issues_configRead ?_
    | refine issues_effect ?_
    | refine issues_glError ?_
    | refine issues_self (fun _ => ?_)
    | refine issues_ite ?_)

theorem issues_call {p : Proc Bool} {calls : List Call} (h : Issues p calls) (rc : Raycaster) :
    callsOf (call p rc) <+: calls := by
  obtain ⟨l, hl, ht⟩ := h ⟨rc, []⟩
  unfold callsOf call
  rw [ht]
  simpa using hl

theorem cut_initial (l : List Event) : cut l <+: l := by
  induction l with
  | nil => exact List.prefix_refl _
  | cons e es ih =>
    unfold cut
    split
    · exact (List.prefix_cons_inj e).2 ih
    · exact ⟨es, rfl⟩

theorem Render_initial (w : World) (rc : Raycaster) :
    callsOf (call (Render w) rc) <+: lead rc ++ frameCalls w rc (lead rc).length := by
  cases hr : ready rc
  · rw [Render_unready w rc hr]
    simp only [callsOf, map_call_stamp]
    exact List.prefix_append _ _
  · unfold callsOf
    rw [(Render_ready w rc hr).1]
    have h := (cut_initial (stamp w 0 (lead rc ++ frameCalls w rc (lead rc).length))).map
      Event.call
    rwa [map_call_stamp] at h

theorem InitPipeline_initial (w : World) (rc : Raycaster) :
    callsOf (call (InitPipeline w) rc) <+: initCalls w rc (rc.tsp_.getD ⟨0⟩) := by
  cases htsp : rc.tsp_ with
  | none => rw [InitPipeline_unset w rc (Or.inl htsp)]; exact List.nil_prefix
  | some tsp =>
    cases hbm : rc.brickManager_
    · rw [InitPipeline_unset w rc (Or.inr hbm)]; exact List.nil_prefix
    · unfold callsOf
      rw [(InitPipeline_set w rc tsp htsp hbm).1]
      have h := (cut_initial (stamp w 0 (initCalls w rc tsp))).map Event.call
      rwa [map_call_stamp] at h

/-! ## Members a call leaves alone -/

theorem maintains_pure {α β : Type} (f : Raycaster → β) (a : α) :
    Maintains f (pure a : Proc α) := fun _ => rfl

theorem maintains_bind {α β γ : Type} {f : Raycaster → γ} {p : Proc α} {k : α → Proc β}
    (hp : Maintains f p) (hk : ∀ a, Maintains f (k a)) : Maintains f (p >>= k) :=
  fun s => (hk (p s).1 (p s).2).trans (hp s)

theorem maintains_ite {α β : Type} {f : Raycaster → β} {c : Prop} [Decidable c] {p q : Proc α}
    (hp : Maintains f p) (hq : Maintains f q) : Maintains f (if c then p else q) := by
  split
  · exact hp
  · exact hq

theorem maintains_self {β : Type} (f : Raycaster → β) : Maintains f self := fun _ => rfl

theorem maintains_effect {β : Type} (f : Raycaster → β) (c : Call) : Maintains f (effect c) :=
  fun _ => rfl

theorem maintains_status {β : Type} (f : Raycaster → β) (w : World) (c : Call) :
    Maintains f (status w c) := fun _ => rfl

theorem maintains_attrib {β : Type} (f : Raycaster → β) (w : World) (a b : String) :
    Maintains f (GetAttribLocation w a b) := fun _ => rfl

theorem maintains_glError {β : Type} (f : Raycaster → β) (w : World) (l : String) :
    Maintains f (CheckGLError w l) := fun _ => rfl

theorem maintains_brickList {β : Type} (f : Raycaster → β) (w : World) (b : BUFFER_INDEX) :
    Maintains f (BrickList w b) := fun _ => rfl

theorem maintains_assign {β : Type} (f : Raycaster → β) (g : Raycaster → Raycaster)
    (hg : ∀ r, f (g r) = f r) : Maintains f (assign g) := fun s => hg s.rc

theorem maintains_read {β : Type} (f : Raycaster → β)
    (hf : ∀ r l, f { r with brickRequest_ := l } = f r)
    (w : World) (p : String) (a sz : Nat) (bl : Bool) :
    Maintains f (ReadBuffer w p a sz bl) := fun s => hf s.rc _

theorem maintains_build {β : Type} (f : Raycaster → β)
    (hf : ∀ r l, f { r with brickRequest_ := l } = f r)
    (w : World) (b : BUFFER_INDEX) : Maintains f (BuildBrickList w b) := fun s => hf s.rc _

theorem maintains_configRead {β : Type} (f : Raycaster → β)
    (hf : ∀ r c, f { r with config_ := c } = f r)
    (w : World) (fileConfig : Config) : Maintains f (ConfigRead w fileConfig) :=
  fun s => hf s.rc _

set_option maxRecDepth 100000 in
set_option maxHeartbeats 2000000 in
theorem Render_maintains (w : World) : Maintains frameArgs (Render w) := by
  unfold Render
  simp only [LaunchTSPTraversal, UpdateMatrices, BindTransformationMatrices, effects,
    proc_bind_assoc, proc_pure_bind, proc_ite_bind, Bool.not_true, Bool.not_false,
    Bool.false_eq_true, if_false, if_true]
  repeat (first
    | refine maintains_bind (maintains_effect _ _) (fun _ => ?_)
    | refine maintains_bind (maintains_status _ _ _) (fun _ => ?_)
    | refine maintains_ite (maintains_pure _ _) ?_
    | exact maintains_pure _ _
    | refine maintains_bind (maintains_self _) (fun _ => ?_)
    | refine maintains_bind (maintains_attrib _ _ _ _) (fun _ => ?_)
    | refine maintains_bind (maintains_glError _ _ _) (fun _ => ?_)
    | refine maintains_bind (maintains_brickList _ _ _) (fun _ => ?_)
    | refine maintains_bind (maintains_read frameArgs (fun _ _ => rfl) _ _ _ _ _) (fun _ => ?_)
    | refine maintains_bind (maintains_build frameArgs (fun _ _ => rfl) _ _) (fun _ => ?_)
    | refine maintains_bind (maintains_assign frameArgs _ (fun _ => rfl)) (fun _ => ?_)
    | refine maintains_ite ?_ ?_)

theorem InitPipeline_maintains (w : World) : Maintains frameArgs (InitPipeline w) := by
  unfold InitPipeline
  refine maintains_bind (maintains_self _) (fun rc => ?_)
  cases rc.tsp_ with
  | none => exact maintains_pure _ _
  | some tsp =>
    simp only [LaunchTSPTraversal, proc_bind_assoc, proc_pure_bind, proc_ite_bind,
      Bool.not_true, Bool.not_false, Bool.false_eq_true, if_false, if_true]
    repeat (first
      | refine maintains_bind (maintains_status _ _ _) (fun _ => ?_)
      | refine maintains_ite (maintains_pure _ _) ?_
      | exact maintains_pure _ _
      | refine maintains_bind (maintains_self _) (fun _ => ?_)
      | refine maintains_bind (maintains_read frameArgs (fun _ _ => rfl) _ _ _ _ _) (fun _ => ?_)
      | refine maintains_bind (maintains_build frameArgs (fun _ _ => rfl) _ _) (fun _ => ?_)
      | refine maintains_bind (maintains_assign frameArgs _ (fun _ => rfl)) (fun _ => ?_))

theorem UpdateKernelConstants_maintains (a : Setup) (k : Constants) (w : World) :
    Maintains frameArgs (UpdateKernelConstants a k w) := by
  unfold UpdateKernelConstants
  simp only [proc_bind_assoc, proc_pure_bind, proc_ite_bind, Bool.not_true, Bool.not_false,
    Bool.false_eq_true, if_false, if_true]
  repeat (first
    | refine maintains_bind (maintains_status _ _ _) (fun _ => ?_)
    | refine maintains_ite (maintains_pure _ _) ?_
    | exact maintains_pure _ _
    | refine maintains_bind (maintains_self _) (fun _ => ?_))

theorem InitCL_maintains (a : Setup) (k : Constants) (w : World) :
    Maintains frameArgs (InitCL a k w) := by
  unfold InitCL
  simp only [proc_bind_assoc, proc_pure_bind, proc_ite_bind, Bool.not_true, Bool.not_false,
    Bool.false_eq_true, if_false, if_true]
  repeat (first
    | refine maintains_bind (maintains_status _ _ _) (fun _ => ?_)
    | refine maintains_ite (maintains_pure _ _) ?_
    | exact maintains_pure _ _
    | refine maintains_bind (maintains_self _) (fun _ => ?_)
    | refine maintains_bind (UpdateKernelConstants_maintains _ _ _) (fun _ => ?_))

theorem Reload_maintains (a : Setup) (k : Constants) (w : World) (fileConfig : Config) :
    Maintains frameArgs (Reload a k w fileConfig) := by
  unfold Reload
  simp only [ReloadShaders, ReloadTransferFunctions, proc_bind_assoc, proc_pure_bind,
    proc_ite_bind, Bool.not_true, Bool.not_false, Bool.false_eq_true, if_false, if_true]
  repeat (first
    | refine maintains_bind (maintains_status _ _ _) (fun _ => ?_)
    | refine maintains_bind (maintains_effect _ _) (fun _ => ?_)
    | refine maintains_bind (maintains_glError _ _ _) (fun _ => ?_)
    | refine maintains_bind (maintains_configRead frameArgs (fun _ _ => rfl) _ _) (fun _ => ?_)
    | refine maintains_ite (maintains_pure _ _) ?_
    | exact maintains_pure _ _
    | refine maintains_bind (maintains_self _) (fun _ => ?_)
    | refine maintains_bind (UpdateKernelConstants_maintains _ _ _) (fun _ => ?_))

theorem Op_maintains (a : Setup) (w : World) (op : Op) : Maintains frameArgs (op.run a w) := by
  cases op
  · exact InitCL_maintains _ _ _
  · exact InitPipeline_maintains _
  · exact Render_maintains _
  · exact UpdateKernelConstants_maintains _ _ _
  · exact Reload_maintains _ _ _ _

/-! ## Sequences of calls -/

theorem initial_of_four {α : Type} {l : List α} {a b c d : α} (h : l <+: [a, b, c, d]) :
    l = [] ∨ l = [a] ∨ l = [a, b] ∨ l = [a, b, c] ∨ l = [a, b, c, d] := by
  rcases List.prefix_cons_iff.1 h with rfl | ⟨t1, rfl, h1⟩
  · exact Or.inl rfl
  rcases List.prefix_cons_iff.1 h1 with rfl | ⟨t2, rfl, h2⟩
  · exact Or.inr (Or.inl rfl)
  rcases List.prefix_cons_iff.1 h2 with rfl | ⟨t3, rfl, h3⟩
  · exact Or.inr (Or.inr (Or.inl rfl))
  rcases List.prefix_cons_iff.1 h3 with rfl | ⟨t4, rfl, h4⟩
  · exact Or.inr (Or.inr (Or.inr (Or.inl rfl)))
  · rw [List.prefix_nil.1 h4]
    exact Or.inr (Or.inr (Or.inr (Or.inr rfl)))

theorem noDoubleAdd_initial {l1 l2 : List Call} (h : l1 <+: l2) (held : List (String × Nat))
    (h2 : noDoubleAdd held l2 = true) : noDoubleAdd held l1 = true := by
  obtain ⟨t, rfl⟩ := h
  rw [noDoubleAdd_append, Bool.and_eq_true] at h2
  exact h2.1

theorem mem_heldAfter (cs : List Call) : ∀ (held : List (String × Nat)) (s : String × Nat),
    s ∈ heldAfter held cs → s ∈ held ∨ ∃ c ∈ cs, added c = some s := by
  induction cs with
  | nil => intro held s h; exact Or.inl h
  | cons c cs ih =>
    intro held s h
    rcases ih (hold held c) s h with h1 | ⟨c2, hc2, h2⟩
    · rcases mem_of_mem_hold h1 with h3 | h3
      · exact Or.inl h3
      · exact Or.inr ⟨c, List.mem_cons_self _ _, h3⟩
    · exact Or.inr ⟨c2, List.mem_cons_of_mem _ hc2, h2⟩

theorem hold_release {p : String} {a : Nat} {held : List (String × Nat)}
    (h : (p, a) ∉ held) : hold held (Call.ReleaseBuffer p a) = held := by
  simp only [hold, List.filter_eq_self, decide_eq_true_eq]
  intro s hs he
  exact h (he ▸ hs)

theorem hold_add_release {c : Call} {p : String} {a : Nat} {held : List (String × Nat)}
    (hc : added c = some (p, a)) (h : (p, a) ∉ held) :
    hold (hold held c) (Call.ReleaseBuffer p a) = held := by
  rw [hold_of_added hc]
  have : hold ((p, a) :: held) (Call.ReleaseBuffer p a) = hold held (Call.ReleaseBuffer p a) := by
    simp [hold, List.filter_cons]
  rw [this, hold_release h]

/-- The buffer calls of a frame, cut anywhere, pass the monitor when the two
slots of the frame hold nothing, and leave the held slots as they were when
every buffer added was released. -/
theorem frame_buffers_ok {B : List Call} {c1 c3 : Call} {x y : Nat} (held : List (String × Nat))
    (hB : B <+: [c1, Call.ReleaseBuffer "TSPTraversal" x, c3,
      Call.ReleaseBuffer "RaycasterTSP" y])
    (h1 : added c1 = some ("TSPTraversal", x)) (h3 : added c3 = some ("RaycasterTSP", y))
    (hT : ("TSPTraversal", x) ∉ held) (hR : ("RaycasterTSP", y) ∉ held) :
    noDoubleAdd held B = true ∧ (unreleased B = [] → heldAfter held B = held) := by
  have hfull : noDoubleAdd held [c1, Call.ReleaseBuffer "TSPTraversal" x, c3,
      Call.ReleaseBuffer "RaycasterTSP" y] = true := by
    have hr : ∀ (p : String) (a : Nat), added (Call.ReleaseBuffer p a) = none := fun _ _ => rfl
    simp only [noDoubleAdd, h1, h3, hr, hold_add_release h1 hT, Bool.and_true,
      Bool.and_eq_true, decide_eq_true_eq, Bool.true_and]
    exact ⟨hT, hR⟩
  refine ⟨noDoubleAdd_initial hB _ hfull, ?_⟩
  have e1 : ∀ h : List (String × Nat), ("TSPTraversal", x) ∉ h →
      hold (hold h c1) (Call.ReleaseBuffer "TSPTraversal" x) = h :=
    fun h hh => hold_add_release h1 hh
  have e3 : ∀ h : List (String × Nat), ("RaycasterTSP", y) ∉ h →
      hold (hold h c3) (Call.ReleaseBuffer "RaycasterTSP" y) = h :=
    fun h hh => hold_add_release h3 hh
  rcases initial_of_four hB with rfl | rfl | rfl | rfl | rfl
  · intro _; rfl
  · intro h
    simp [unreleased, heldAfter, hold_of_added h1] at h
  · intro _
    simp only [heldAfter, List.foldl_cons, List.foldl_nil, e1 held hT]
  · intro h
    simp [unreleased, heldAfter, e1 [] (List.not_mem_nil _), hold_of_added h3] at h
  · intro _
    simp only [heldAfter, List.foldl_cons, List.foldl_nil, e1 held hT, e3 held hR]

theorem lead_filter (rc : Raycaster) : (lead rc).filter isBufferCall = [] := by
  unfold lead
  cases rc.config_.ClearCache <;> rfl

theorem frameCalls_filter (w : World) (rc : Raycaster) (o : Nat) :
    (frameCalls w rc o).filter isBufferCall =
      [Call.AddBuffer "TSPTraversal" rc.tspBrickListArg_ rc.brickRequest_
          (rc.brickRequest_.length * sizeofInt) AllocMode.COPY_HOST_PTR Permissions.READ_WRITE,
        Call.ReleaseBuffer "TSPTraversal" rc.tspBrickListArg_,
        Call.AddBuffer "RaycasterTSP" rc.brickListArg_
          (brickListArgs w (w.brickList (o + 36 + 9)) (w.brickList (o + 36 + 10))).1
          (brickListArgs w (w.brickList (o + 36 + 9)) (w.brickList (o + 36 + 10))).2
          AllocMode.COPY_HOST_PTR Permissions.READ_ONLY,
        Call.ReleaseBuffer "RaycasterTSP" rc.brickListArg_] := rfl

theorem initCalls_filter (w : World) (rc : Raycaster) (tsp : TSP) :
    (initCalls w rc tsp).filter isBufferCall =
      [Call.AddBuffer "TSPTraversal" rc.tspBrickListArg_
          (resize rc.brickRequest_ tsp.NumTotalNodes 0)
          ((resize rc.brickRequest_ tsp.NumTotalNodes 0).length * sizeofInt)
          AllocMode.COPY_HOST_PTR Permissions.READ_WRITE,
        Call.ReleaseBuffer "TSPTraversal" rc.tspBrickListArg_] := rfl

theorem heldAfter_unfiltered {cs : List Call} {held : List (String × Nat)}
    (h : unreleased (cs.filter isBufferCall) = [] →
      heldAfter held (cs.filter isBufferCall) = held) :
    unreleased cs = [] → heldAfter held cs = held := by
  simpa only [unreleased, heldAfter_filter] using h

/-- A `Render` call, whatever it returns, passes the monitor when the two slots
of the frame hold nothing. -/
theorem Render_buffers (w : World) (rc : Raycaster) (held : List (String × Nat))
    (hT : ("TSPTraversal", rc.tspBrickListArg_) ∉ held)
    (hR : ("RaycasterTSP", rc.brickListArg_) ∉ held) :
    noDoubleAdd held (callsOf (call (Render w) rc)) = true ∧
    (unreleased (callsOf (call (Render w) rc)) = [] →
      heldAfter held (callsOf (call (Render w) rc)) = held) := by
  have hp := (Render_initial w rc).filter isBufferCall
  rw [List.filter_append, lead_filter, List.nil_append, frameCalls_filter] at hp
  have h := frame_buffers_ok held hp rfl rfl hT hR
  rw [noDoubleAdd_filter] at h
  exact ⟨h.1, heldAfter_unfiltered h.2⟩

/-- An `InitPipeline` call, whatever it returns, passes the monitor when the
slot of the request list holds nothing. -/
theorem InitPipeline_buffers (w : World) (rc : Raycaster) (held : List (String × Nat))
    (hT : ("TSPTraversal", rc.tspBrickListArg_) ∉ held)
    (hR : ("RaycasterTSP", rc.brickListArg_) ∉ held) :
    noDoubleAdd held (callsOf (call (InitPipeline w) rc)) = true ∧
    (unreleased (callsOf (call (InitPipeline w) rc)) = [] →
      heldAfter held (callsOf (call (InitPipeline w) rc)) = held) := by
  have hp := (InitPipeline_initial w rc).filter isBufferCall
  rw [initCalls_filter] at hp
  have hp4 := hp.trans ⟨[Call.AddBuffer "RaycasterTSP" rc.brickListArg_ [] 0
      AllocMode.COPY_HOST_PTR Permissions.READ_ONLY,
    Call.ReleaseBuffer "RaycasterTSP" rc.brickListArg_], rfl⟩
  have h := frame_buffers_ok held hp4 rfl rfl hT hR
  rw [noDoubleAdd_filter] at h
  exact ⟨h.1, heldAfter_unfiltered h.2⟩

theorem Render_true (w : World) (rc : Raycaster) (h : (call (Render w) rc).1 = true) :
    callsOf (call (Render w) rc) = lead rc ++ frameCalls w rc (lead rc).length := by
  cases hr : ready rc
  · rw [Render_unready w rc hr] at h
    cases h
  · obtain ⟨ht, hret⟩ := Render_ready w rc hr
    rw [hret] at h
    unfold callsOf
    rw [ht, cut_eq_self _ h, map_call_stamp]

theorem InitPipeline_true (w : World) (rc : Raycaster) (h : (call (InitPipeline w) rc).1 = true) :
    ∃ tsp, rc.tsp_ = some tsp ∧ callsOf (call (InitPipeline w) rc) = initCalls w rc tsp := by
  cases htsp : rc.tsp_ with
  | none => rw [InitPipeline_unset w rc (Or.inl htsp)] at h; cases h
  | some tsp =>
    cases hbm : rc.brickManager_
    · rw [InitPipeline_unset w rc (Or.inr hbm)] at h; cases h
    · obtain ⟨ht, hret⟩ := InitPipeline_set w rc tsp htsp hbm
      rw [hret] at h
      refine ⟨tsp, rfl, ?_⟩
      unfold callsOf
      rw [ht, cut_eq_self _ h, map_call_stamp]

theorem unreleased_filter (cs : List Call) :
    unreleased (cs.filter isBufferCall) = unreleased cs := heldAfter_filter cs []

theorem Render_released (w : World) (rc : Raycaster) (h : (call (Render w) rc).1 = true) :
    unreleased (callsOf (call (Render w) rc)) = [] := by
  rw [Render_true w rc h, ← unreleased_filter, List.filter_append, lead_filter,
    List.nil_append, frameCalls_filter]
  simp [unreleased, heldAfter, hold]

theorem InitPipeline_released (w : World) (rc : Raycaster)
    (h : (call (InitPipeline w) rc).1 = true) :
    unreleased (callsOf (call (InitPipeline w) rc)) = [] := by
  obtain ⟨tsp, -, hc⟩ := InitPipeline_true w rc h
  rw [hc, ← unreleased_filter, initCalls_filter]
  simp [unreleased, heldAfter, hold]

/-- A call that runs `UpdateKernelConstants`, whatever it returns, passes the
monitor when no slot holds a buffer, and the slots it fills are those of
`updateSlots`. -/
theorem update_buffers {cs full : List Call} {a : Setup}
    (hp : cs <+: full)
    (hfull : noDoubleAdd [] (full.filter isBufferCall) = true)
    (hslots : ∀ s ∈ full.filterMap added, s ∈ updateSlots a) :
    noDoubleAdd [] cs = true ∧ ∀ s ∈ heldAfter [] cs, s ∈ updateSlots a := by
  refine ⟨?_, ?_⟩
  · rw [noDoubleAdd_filter] at hfull
    exact noDoubleAdd_initial hp _ hfull
  · intro s hs
    rcases mem_heldAfter cs [] s hs with h | ⟨c, hc, hadd⟩
    · cases h
    · exact hslots s (List.mem_filterMap.2 ⟨c, hp.mem hc, hadd⟩)

theorem updateCalls_monitor (a : Setup) (k : Constants) :
    noDoubleAdd [] ((updateCalls a k).filter isBufferCall) = true := by
  simp [updateCalls, isBufferCall, noDoubleAdd, added, hold]

theorem initCLCalls_monitor (a : Setup) (k : Constants)
    (h1 : a.tspTSPArg_ ≠ a.tspConstantsArg_) (h2 : a.tspArg_ ≠ a.constantsArg_) :
    noDoubleAdd [] ((initCLCalls a k).filter isBufferCall) = true := by
  have e : (initCLCalls a k).filter isBufferCall = [
      Call.AddBuffer "TSPTraversal" a.tspTSPArg_ a.tspData
        (a.tspData.length * sizeofInt) AllocMode.COPY_HOST_PTR Permissions.READ_ONLY,
      Call.AddBuffer "RaycasterTSP" a.tspArg_ a.tspData
        (a.tspData.length * sizeofInt) AllocMode.COPY_HOST_PTR Permissions.READ_ONLY,
      Call.AddBuffer "RaycasterTSP" a.constantsArg_ k.kernelConstants_
        a.sizeofKernelConstants AllocMode.COPY_HOST_PTR Permissions.READ_ONLY,
      Call.AddBuffer "TSPTraversal" a.tspConstantsArg_ k.traversalConstants_
        a.sizeofTraversalConstants AllocMode.COPY_HOST_PTR Permissions.READ_ONLY] := rfl
  rw [e]
  simp [noDoubleAdd, added, hold, h1, h2, Ne.symm h1, Ne.symm h2]

theorem reloadCalls_monitor (a : Setup) (k : Constants) :
    noDoubleAdd [] ((reloadCalls a k).filter isBufferCall) = true := by
  have e : (reloadCalls a k).filter isBufferCall = (updateCalls a k).filter isBufferCall := rfl
  rw [e]
  exact updateCalls_monitor a k

theorem updateCalls_slots (a : Setup) (k : Constants) :
    ∀ s ∈ (updateCalls a k).filterMap added, s ∈ updateSlots a := by
  have e : (updateCalls a k).filterMap added =
      [("RaycasterTSP", a.constantsArg_), ("TSPTraversal", a.tspConstantsArg_)] := rfl
  rw [e]
  simp [updateSlots]

theorem initCLCalls_slots (a : Setup) (k : Constants) :
    ∀ s ∈ (initCLCalls a k).filterMap added, s ∈ updateSlots a := by
  have e : (initCLCalls a k).filterMap added = updateSlots a := rfl
  rw [e]
  exact fun _ h => h

theorem reloadCalls_slots (a : Setup) (k : Constants) :
    ∀ s ∈ (reloadCalls a k).filterMap added, s ∈ updateSlots a := by
  have e : (reloadCalls a k).filterMap added = (updateCalls a k).filterMap added := rfl
  rw [e]
  exact updateCalls_slots a k

/-- Every member function of a sequence is a frame op or one that runs
`UpdateKernelConstants`. -/
theorem Op_buffers (a : Setup) (w : World) (rc : Raycaster) (op : Op)
    (h1 : a.tspTSPArg_ ≠ a.tspConstantsArg_) (h2 : a.tspArg_ ≠ a.constantsArg_) :
    (op.isFrame = true ∧ op.isUpdate = false ∧
      ((call (op.run a w) rc).1 = true → unreleased (callsOf (call (op.run a w) rc)) = []) ∧
      ∀ held : List (String × Nat),
        ("TSPTraversal", rc.tspBrickListArg_) ∉ held →
        ("RaycasterTSP", rc.brickListArg_) ∉ held →
        noDoubleAdd held (callsOf (call (op.run a w) rc)) = true ∧
        (unreleased (callsOf (call (op.run a w) rc)) = [] →
          heldAfter held (callsOf (call (op.run a w) rc)) = held)) ∨
    (op.isFrame = false ∧ op.isUpdate = true ∧
      noDoubleAdd [] (callsOf (call (op.run a w) rc)) = true ∧
      ∀ s ∈ heldAfter [] (callsOf (call (op.run a w) rc)), s ∈ updateSlots a) := by
  cases op with
  | InitCL k =>
    exact Or.inr ⟨rfl, rfl, update_buffers (issues_call (InitCL_issues a k w) rc)
      (initCLCalls_monitor a k h1 h2) (initCLCalls_slots a k)⟩
  | InitPipeline =>
    exact Or.inl ⟨rfl, rfl, InitPipeline_released w rc, InitPipeline_buffers w rc⟩
  | Render =>
    exact Or.inl ⟨rfl, rfl, Render_released w rc, Render_buffers w rc⟩
  | UpdateKernelConstants k =>
    exact Or.inr ⟨rfl, rfl, update_buffers (issues_call (UpdateKernelConstants_issues a k w) rc)
      (updateCalls_monitor a k) (updateCalls_slots a k)⟩
  | Reload k fileConfig =>
    exact Or.inr ⟨rfl, rfl, update_buffers (issues_call (Reload_issues a k w fileConfig) rc)
      (reloadCalls_monitor a k) (reloadCalls_slots a k)⟩

theorem sessionCalls_cons (a : Setup) (s : Step) (rest : List Step) (rc : Raycaster) :
    sessionCalls a (s :: rest) rc =
      callsOf (call (s.op.run a s.world) (s.before rc)) ++
        sessionCalls a rest (call (s.op.run a s.world) (s.before rc)).2.rc := by
  simp [sessionCalls, session]

theorem frameArgs_step (a : Setup) (s : Step) (rc : Raycaster) (hs : KeepsArgs s.before) :
    frameArgs (call (s.op.run a s.world) (s.before rc)).2.rc = frameArgs rc := by
  have h := Op_maintains a s.world s.op ⟨s.before rc, []⟩
  exact h.trans (hs rc)

theorem updates_cons (s : Step) (rest : List Step) :
    updates (s :: rest) = (if s.op.isUpdate then 1 else 0) + updates rest := by
  unfold updates
  rw [List.filter_cons]
  split <;> simp [Nat.add_comm]

/-- The monitor accepts the calls of a sequence that runs
`UpdateKernelConstants` at most once and in which a failed frame call has
released what it added. -/
theorem session_monitor (a : Setup) (x y : Nat)
    (h1 : a.tspTSPArg_ ≠ a.tspConstantsArg_) (h2 : a.tspArg_ ≠ a.constantsArg_)
    (hT : ("TSPTraversal", x) ∉ updateSlots a) (hR : ("RaycasterTSP", y) ∉ updateSlots a) :
    ∀ (steps : List Step) (rc : Raycaster) (held : List (String × Nat)),
      frameArgs rc = (x, y) →
      (∀ s ∈ steps, KeepsArgs s.before) →
      (∀ o ∈ session a steps rc, o.op.isFrame = true → o.result = false →
        unreleased o.calls = []) →
      (∀ s ∈ held, s ∈ updateSlots a) →
      (updates steps = 0 ∨ (updates steps ≤ 1 ∧ held = [])) →
      noDoubleAdd held (sessionCalls a steps rc) = true := by
  intro steps
  induction steps with
  | nil => intro rc held _ _ _ _ _; rfl
  | cons s rest ih =>
    intro rc held hargs hconst hbal hheld hupd
    have hargs1 : frameArgs (s.before rc) = (x, y) := (hconst s (List.mem_cons_self _ _) rc).trans hargs
    have hx : (s.before rc).tspBrickListArg_ = x := congrArg Prod.fst hargs1
    have hy : (s.before rc).brickListArg_ = y := congrArg Prod.snd hargs1
    have hnext := (frameArgs_step a s rc (hconst s (List.mem_cons_self _ _))).trans hargs
    have hconst1 : ∀ t ∈ rest, KeepsArgs t.before :=
      fun t ht => hconst t (List.mem_cons_of_mem _ ht)
    have hbal1 : ∀ o ∈ session a rest (call (s.op.run a s.world) (s.before rc)).2.rc,
        o.op.isFrame = true → o.result = false → unreleased o.calls = [] :=
      fun o ho => hbal o (List.mem_cons_of_mem _ ho)
    rw [sessionCalls_cons, noDoubleAdd_append, Bool.and_eq_true]
    rw [updates_cons] at hupd
    rcases Op_buffers a s.world (s.before rc) s.op h1 h2 with
      ⟨hf, hu, hrel, hmon⟩ | ⟨hf, hu, hmon, hslots⟩
    · rw [hx, hy] at hmon
      have hTh : ("TSPTraversal", x) ∉ held := fun h => hT (hheld _ h)
      have hRh : ("RaycasterTSP", y) ∉ held := fun h => hR (hheld _ h)
      obtain ⟨hm, hkeep⟩ := hmon held hTh hRh
      have hun : unreleased (callsOf (call (s.op.run a s.world) (s.before rc))) = [] := by
        cases hres : (call (s.op.run a s.world) (s.before rc)).1
        · exact hbal ⟨s.op, _, _⟩ (List.mem_cons_self _ _) hf hres
        · exact hrel hres
      refine ⟨hm, ?_⟩
      rw [hkeep hun]
      refine ih _ held hnext hconst1 hbal1 hheld ?_
      simpa [hu] using hupd
    · have hz : updates rest = 0 ∧ held = [] := by
        simp only [hu, if_true] at hupd
        rcases hupd with h | ⟨h, hh⟩
        · omega
        · exact ⟨by omega, hh⟩
      obtain ⟨hz, rfl⟩ := hz
      refine ⟨hmon, ?_⟩
      exact ih _ _ hnext hconst1 hbal1 hslots (Or.inl hz)

/-! ## Buffers over a sequence of calls -/

theorem not_mem_updateSlots (a : Setup) (rc : Raycaster) (h : DistinctArgs a rc) :
    ("TSPTraversal", rc.tspBrickListArg_) ∉ updateSlots a ∧
    ("RaycasterTSP", rc.brickListArg_) ∉ updateSlots a := by
  obtain ⟨-, -, h3, h4, h5, h6⟩ := h
  simp [updateSlots, h3, h4, h5, h6]

/-- C11 (counterexample): with distinct argument numbers, `InitCL` followed by
`Reload`, every call of both returning `true`, issues `AddBuffer` twice for the
constants slots with no `ReleaseBuffer` in between; and a `Render` call that
fails at `PrepareProgram`, after its `AddBuffer` for the request list, followed
by a `Render` call that succeeds, issues `AddBuffer` twice for the request-list
slot with no `ReleaseBuffer` in between. -/
theorem C11_counterexample :
    DistinctArgs okSetup (rcAnimated 0 1) ∧
    (session okSetup [okStep (Op.InitCL okConstants),
      okStep (Op.Reload okConstants ⟨false, 16, 16⟩)] (rcAnimated 0 1)).map Outcome.result
        = [true, true] ∧
    ¬ AddDiscipline (sessionCalls okSetup [okStep (Op.InitCL okConstants),
      okStep (Op.Reload okConstants ⟨false, 16, 16⟩)] (rcAnimated 0 1)) ∧
    (session okSetup [⟨id, Op.Render, stageFailWorld 39⟩, okStep Op.Render]
      (rcAnimated 0 1)).map Outcome.result = [false, true] ∧
    ¬ AddDiscipline (sessionCalls okSetup [⟨id, Op.Render, stageFailWorld 39⟩,
      okStep Op.Render] (rcAnimated 0 1)) := by
  refine ⟨by unfold DistinctArgs; decide, by decide, ?_, by decide, ?_⟩
  · rw [discipline_iff]; decide
  · rw [discipline_iff]; decide

/-- C11 (amended): over every sequence of `InitCL`, `InitPipeline`, `Render`,
`UpdateKernelConstants` and `Reload` calls in which at most one call runs
`UpdateKernelConstants` (directly, through `InitCL` or through `Reload`) and
every `InitPipeline` or `Render` call that returns `false` has released the
buffers it added, with the argument numbers of the buffers of a program
distinct, no `AddBuffer` is issued for a slot that already received a buffer
unless `ReleaseBuffer` was issued for that slot in between. -/
theorem C11_add_discipline (a : Setup) (steps : List Step) (rc : Raycaster)
    (hargs : DistinctArgs a rc)
    (hconst : ∀ s ∈ steps, KeepsArgs s.before)
    (honce : updates steps ≤ 1)
    (hbal : ∀ o ∈ session a steps rc, o.op.isFrame = true → o.result = false →
      unreleased o.calls = []) :
    AddDiscipline (sessionCalls a steps rc) := by
  rw [discipline_iff]
  obtain ⟨hT, hR⟩ := not_mem_updateSlots a rc hargs
  exact session_monitor a rc.tspBrickListArg_ rc.brickListArg_ hargs.1 hargs.2.1 hT hR steps rc []
    rfl hconst hbal (fun _ h => absurd h (List.not_mem_nil _)) (Or.inr ⟨honce, rfl⟩)

theorem C11_add_discipline_witness :
    (session okSetup [okStep (Op.InitCL okConstants), okStep Op.InitPipeline, okStep Op.Render,
      ⟨id, Op.Render, stageFailWorld 37⟩, okStep Op.Render] (rcAnimated 0 1)).map Outcome.result
        = [true, true, true, false, true] ∧
    AddDiscipline (sessionCalls okSetup [okStep (Op.InitCL okConstants), okStep Op.InitPipeline,
      okStep Op.Render, ⟨id, Op.Render, stageFailWorld 37⟩, okStep Op.Render] (rcAnimated 0 1)) :=
  ⟨by decide, C11_add_discipline okSetup [okStep (Op.InitCL okConstants), okStep Op.InitPipeline,
      okStep Op.Render, ⟨id, Op.Render, stageFailWorld 37⟩, okStep Op.Render] (rcAnimated 0 1)
    (by unfold DistinctArgs; decide)
    (by
      intro s hs
      simp only [List.mem_cons, List.mem_singleton, List.not_mem_nil, or_false] at hs
      rcases hs with rfl | rfl | rfl | rfl | rfl <;> exact fun _ => rfl)
    (by decide) (by decide)⟩

theorem coinciding_args_readd :
    (session { okSetup with tspConstantsArg_ := 4 }
      [okStep (Op.UpdateKernelConstants okConstants), okStep Op.Render]
      (rcAnimated 0 1)).map Outcome.result = [true, true] ∧
    ¬ AddDiscipline (sessionCalls { okSetup with tspConstantsArg_ := 4 }
      [okStep (Op.UpdateKernelConstants okConstants), okStep Op.Render] (rcAnimated 0 1)) := by
  refine ⟨by decide, ?_⟩
  rw [discipline_iff]; decide

/-! ## Release within the call -/

theorem slotOps_filter (program : String) (argNr : Nat) (cs : List Call) :
    slotOps program argNr (cs.filter isBufferCall) = slotOps program argNr cs := by
  induction cs with
  | nil => rfl
  | cons c cs ih =>
    cases c <;> simp only [List.filter_cons, isBufferCall, if_true, Bool.false_eq_true, if_false,
      slotOps, ih]

theorem Render_slotOps (w : World) (rc : Raycaster) (h : (call (Render w) rc).1 = true) :
    slotOps "TSPTraversal" rc.tspBrickListArg_ (callsOf (call (Render w) rc))
      = [BufferOp.add, BufferOp.release] ∧
    slotOps "RaycasterTSP" rc.brickListArg_ (callsOf (call (Render w) rc))
      = [BufferOp.add, BufferOp.release] := by
  rw [Render_true w rc h, ← slotOps_filter, ← slotOps_filter "RaycasterTSP", List.filter_append,
    lead_filter, List.nil_append, frameCalls_filter]
  constructor <;> simp [slotOps]

theorem InitPipeline_slotOps (w : World) (rc : Raycaster)
    (h : (call (InitPipeline w) rc).1 = true) :
    slotOps "TSPTraversal" rc.tspBrickListArg_ (callsOf (call (InitPipeline w) rc))
      = [BufferOp.add, BufferOp.release] ∧
    slotOps "RaycasterTSP" rc.brickListArg_ (callsOf (call (InitPipeline w) rc)) = [] := by
  obtain ⟨tsp, -, hc⟩ := InitPipeline_true w rc h
  rw [hc, ← slotOps_filter, ← slotOps_filter "RaycasterTSP", initCalls_filter]
  constructor <;> simp [slotOps]

theorem unreleased_append (a b : List Call) (h : unreleased a = []) :
    unreleased (a ++ b) = unreleased b := by
  unfold unreleased at *
  rw [heldAfter_append, h]

theorem session_append (a : Setup) (pre post : List Step) : ∀ rc : Raycaster,
    ∃ rc1, session a (pre ++ post) rc = session a pre rc ++ session a post rc1 := by
  induction pre with
  | nil => intro rc; exact ⟨rc, rfl⟩
  | cons s pre ih =>
    intro rc
    obtain ⟨rc1, h⟩ := ih (call (s.op.run a s.world) (s.before rc)).2.rc
    refine ⟨rc1, ?_⟩
    show _ :: session a (pre ++ post) _ = _
    rw [h]
    rfl

/-- In a sequence of successful `InitPipeline` and `Render` calls every call
adds and releases once on the request-list slot, `Render` does the same on the
brick-list slot and `InitPipeline` leaves that slot alone, and the sequence
leaves no buffer unreleased. -/
theorem frames_release (a : Setup) (x y : Nat) : ∀ (steps : List Step) (rc : Raycaster),
    frameArgs rc = (x, y) →
    (∀ s ∈ steps, s.op.isFrame = true) →
    (∀ s ∈ steps, KeepsArgs s.before) →
    (∀ o ∈ session a steps rc, o.result = true) →
    (∀ o ∈ session a steps rc,
      slotOps "TSPTraversal" x o.calls = [BufferOp.add, BufferOp.release] ∧
      (o.op = Op.Render →
        slotOps "RaycasterTSP" y o.calls = [BufferOp.add, BufferOp.release]) ∧
      (o.op = Op.InitPipeline → slotOps "RaycasterTSP" y o.calls = [])) ∧
    unreleased (sessionCalls a steps rc) = [] := by
  intro steps
  induction steps with
  | nil =>
    intro rc _ _ _ _
    exact ⟨fun o ho => absurd ho (List.not_mem_nil _), rfl⟩
  | cons s rest ih =>
    intro rc hargs hframes hconst hok
    have hargs1 : frameArgs (s.before rc) = (x, y) :=
      (hconst s (List.mem_cons_self _ _) rc).trans hargs
    have hx : (s.before rc).tspBrickListArg_ = x := congrArg Prod.fst hargs1
    have hy : (s.before rc).brickListArg_ = y := congrArg Prod.snd hargs1
    have hnext := (frameArgs_step a s rc (hconst s (List.mem_cons_self _ _))).trans hargs
    have hres : (call (s.op.run a s.world) (s.before rc)).1 = true :=
      hok ⟨s.op, _, _⟩ (List.mem_cons_self _ _)
    obtain ⟨hrest, hun⟩ := ih _ hnext (fun t ht => hframes t (List.mem_cons_of_mem _ ht))
      (fun t ht => hconst t (List.mem_cons_of_mem _ ht))
      (fun o ho => hok o (List.mem_cons_of_mem _ ho))
    have hf := hframes s (List.mem_cons_self _ _)
    have hhead :
        slotOps "TSPTraversal" x (callsOf (call (s.op.run a s.world) (s.before rc)))
          = [BufferOp.add, BufferOp.release] ∧
        (s.op = Op.Render →
          slotOps "RaycasterTSP" y (callsOf (call (s.op.run a s.world) (s.before rc)))
            = [BufferOp.add, BufferOp.release]) ∧
        (s.op = Op.InitPipeline →
          slotOps "RaycasterTSP" y (callsOf (call (s.op.run a s.world) (s.before rc))) = []) ∧
        unreleased (callsOf (call (s.op.run a s.world) (s.before rc))) = [] := by
      cases hop : s.op with
      | InitCL k => rw [hop] at hf; cases hf
      | UpdateKernelConstants k => rw [hop] at hf; cases hf
      | Reload k fileConfig => rw [hop] at hf; cases hf
      | InitPipeline =>
        rw [hop] at hres
        have h := InitPipeline_slotOps s.world (s.before rc) hres
        rw [hx, hy] at h
        exact ⟨h.1, fun e => Op.noConfusion e, fun _ => h.2,
          InitPipeline_released s.world (s.before rc) hres⟩
      | Render =>
        rw [hop] at hres
        have h := Render_slotOps s.world (s.before rc) hres
        rw [hx, hy] at h
        exact ⟨h.1, fun _ => h.2, fun e => Op.noConfusion e,
          Render_released s.world (s.before rc) hres⟩
    refine ⟨?_, ?_⟩
    · intro o ho
      rcases List.mem_cons.1 ho with rfl | ho
      · exact ⟨hhead.1, hhead.2.1, hhead.2.2.1⟩
      · exact hrest o ho
    · rw [sessionCalls_cons, unreleased_append _ _ hhead.2.2.2]
      exact hun

/-- C12: in every sequence of `InitPipeline` and `Render` calls that all return
`true`, each call issues on the request-list slot of `TSPTraversal` exactly one
`AddBuffer` followed by exactly one `ReleaseBuffer`, each `Render` call does the
same on the brick-list slot of `RaycasterTSP` and `InitPipeline` issues neither
there; so whenever a call of the sequence starts, the calls before it have
released every buffer they added. -/
theorem C12_release_in_call (a : Setup) (steps : List Step) (rc : Raycaster)
    (hframes : ∀ s ∈ steps, s.op.isFrame = true)
    (hconst : ∀ s ∈ steps, KeepsArgs s.before)
    (hok : ∀ o ∈ session a steps rc, o.result = true) :
    (∀ o ∈ session a steps rc,
      slotOps "TSPTraversal" rc.tspBrickListArg_ o.calls = [BufferOp.add, BufferOp.release] ∧
      (o.op = Op.Render →
        slotOps "RaycasterTSP" rc.brickListArg_ o.calls = [BufferOp.add, BufferOp.release]) ∧
      (o.op = Op.InitPipeline → slotOps "RaycasterTSP" rc.brickListArg_ o.calls = [])) ∧
    (∀ pre post : List Step, steps = pre ++ post →
      unreleased (sessionCalls a pre rc) = []) := by
  refine ⟨(frames_release a _ _ steps rc rfl hframes hconst hok).1, ?_⟩
  intro pre post hsplit
  subst hsplit
  obtain ⟨rc1, hs⟩ := session_append a pre post rc
  refine (frames_release a _ _ pre rc rfl (fun s hs => hframes s (List.mem_append_left _ hs))
    (fun s hs => hconst s (List.mem_append_left _ hs)) ?_).2
  intro o ho
  exact hok o (by rw [hs]; exact List.mem_append_left _ ho)

theorem C12_release_in_call_witness :
    (session okSetup [okStep Op.InitPipeline, okStep Op.Render, okStep Op.Render]
      (rcAnimated 0 1)).map
        (fun o => (o.result, slotOps "TSPTraversal" 4 o.calls, slotOps "RaycasterTSP" 6 o.calls))
      = [(true, [BufferOp.add, BufferOp.release], []),
        (true, [BufferOp.add, BufferOp.release], [BufferOp.add, BufferOp.release]),
        (true, [BufferOp.add, BufferOp.release], [BufferOp.add, BufferOp.release])] ∧
    unreleased (sessionCalls okSetup [okStep Op.InitPipeline, okStep Op.Render]
      (rcAnimated 0 1)) = [] :=
  ⟨by decide,
    (C12_release_in_call okSetup [okStep Op.InitPipeline, okStep Op.Render, okStep Op.Render]
      (rcAnimated 0 1) (by decide)
      (by
        intro s hs
        simp only [List.mem_cons, List.mem_singleton, List.not_mem_nil, or_false] at hs
        rcases hs with rfl | rfl | rfl <;> exact fun _ => rfl)
      (by decide)).2 [okStep Op.InitPipeline, okStep Op.Render] [okStep Op.Render] rfl⟩

/-! ## The Morton code -/

theorem testBit_shl32 (v k j : Nat) :
    (shl32 v k).testBit j = (decide (j < 32) && (decide (k ≤ j) && v.testBit (j - k))) := by
  unfold shl32 UINT32_RANGE
  rw [show (4294967296 : Nat) = 2 ^ 32 by norm_num, Nat.testBit_mod_two_pow, Nat.testBit_shiftLeft]

theorem testBit_step (a k m j : Nat) :
    ((a ||| shl32 a k) &&& m).testBit j =
      ((a.testBit j || (decide (j < 32) && (decide (k ≤ j) && a.testBit (j - k)))) &&
        m.testBit j) := by
  rw [Nat.testBit_and, Nat.testBit_or, testBit_shl32]

theorem mask1_testBit (j : Nat) (hj : j < 32) :
    Nat.testBit 0x030000FF j = decide (j < 8 ∨ j = 24 ∨ j = 25) := by
  interval_cases j <;> rfl

theorem mask2_testBit (j : Nat) (hj : j < 32) :
    Nat.testBit 0x0300F00F j = decide (j < 4 ∨ (12 ≤ j ∧ j < 16) ∨ j = 24 ∨ j = 25) := by
  interval_cases j <;> rfl

theorem mask3_testBit (j : Nat) (hj : j < 32) :
    Nat.testBit 0x030C30C3 j = decide (j % 6 < 2 ∧ j < 26) := by
  interval_cases j <;> rfl

theorem mask4_testBit (j : Nat) (hj : j < 32) :
    Nat.testBit 0x09249249 j = decide (j % 3 = 0 ∧ j < 28) := by
  interval_cases j <;> rfl

theorem testBit_high (x j : Nat) (hx : x < 65536) (hj : 16 ≤ j) : x.testBit j = false :=
  Nat.testBit_lt_two_pow (lt_of_lt_of_le hx (by
    calc 65536 = 2 ^ 16 := by norm_num
      _ ≤ 2 ^ j := Nat.pow_le_pow_right (by norm_num) hj))

set_option maxHeartbeats 1000000 in
theorem spread_testBit (x : Nat) (hx : x < 65536) (j : Nat) (hj : j < 32) :
    (spread x).testBit j = (decide (j < 30 ∧ j % 3 = 0) && x.testBit (j / 3)) := by
  have h24 := testBit_high x 24 hx (by norm_num)
  have h25 := testBit_high x 25 hx (by norm_num)
  unfold spread
  simp only [testBit_step]
  interval_cases j <;>
    simp [-Nat.testBit_zero, mask1_testBit, mask2_testBit, mask3_testBit, mask4_testBit,
      h24, h25]

theorem spread_testBit_high (x j : Nat) (hj : 32 ≤ j) : (spread x).testBit j = false := by
  unfold spread
  simp only [Nat.testBit_and]
  have : Nat.testBit 0x09249249 j = false :=
    Nat.testBit_lt_two_pow (lt_of_lt_of_le (by norm_num : 0x09249249 < 2 ^ 32)
      (Nat.pow_le_pow_right (by norm_num) hj))
  rw [this, Bool.and_false]

theorem ZOrder_spread (x y z : Nat) :
    ZOrder x y z = spread x ||| shl32 (spread y) 1 ||| shl32 (spread z) 2 := rfl

/-- Every bit of the code: bit `j` below 30 is bit `j / 3` of the coordinate
number `j % 3`, the other bits are zero. -/
theorem ZOrder_testBit (x y z : Nat) (hx : x < 65536) (hy : y < 65536) (hz : z < 65536)
    (j : Nat) :
    (ZOrder x y z).testBit j =
      (decide (j < 30) &&
        (if j % 3 = 0 then x.testBit (j / 3)
          else if j % 3 = 1 then y.testBit (j / 3) else z.testBit (j / 3))) := by
  rw [ZOrder_spread, Nat.testBit_or, Nat.testBit_or, testBit_shl32, testBit_shl32]
  by_cases hj : j < 32
  · have h1 : j - 1 < 32 := by omega
    have h2 : j - 2 < 32 := by omega
    rw [spread_testBit x hx j hj, spread_testBit y hy _ h1, spread_testBit z hz _ h2]
    interval_cases j <;> simp
  · have hj1 : 32 ≤ j := by omega
    rw [spread_testBit_high x j hj1]
    simp [hj]
    omega

theorem ZOrder_lt (x y z : Nat) (hx : x < 65536) (hy : y < 65536) (hz : z < 65536) :
    ZOrder x y z < 2 ^ 30 := by
  apply Nat.lt_pow_two_of_testBit
  intro j hj
  rw [ZOrder_testBit x y z hx hy hz]
  simp
  omega

theorem eq_of_low_bits (a b : Nat) (ha : a < 1024) (hb : b < 1024)
    (h : ∀ i < 10, a.testBit i = b.testBit i) : a = b := by
  apply Nat.eq_of_testBit_eq
  intro i
  by_cases hi : i < 10
  · exact h i hi
  · have hp : 1024 ≤ 2 ^ i := by
      calc 1024 = 2 ^ 10 := by norm_num
        _ ≤ 2 ^ i := Nat.pow_le_pow_right (by norm_num) (by omega)
    rw [Nat.testBit_lt_two_pow (lt_of_lt_of_le ha hp),
      Nat.testBit_lt_two_pow (lt_of_lt_of_le hb hp)]

theorem testBit_mod_1024 (a i : Nat) (hi : i < 10) : (a % 1024).testBit i = a.testBit i := by
  rw [show (1024 : Nat) = 2 ^ 10 by norm_num, Nat.testBit_mod_two_pow]
  simp [hi]

/-- C22: for 16-bit inputs, `ZOrder x y z` interleaves the low ten bits of the
coordinates: for `i < 10`, bit `3 i` is bit `i` of `x`, bit `3 i + 1` is bit `i`
of `y` and bit `3 i + 2` is bit `i` of `z`; bits 30 and 31 are zero and the
value fits 32 bits.  Hence `ZOrder` is injective on coordinates below 1024 and
depends on the coordinates modulo 1024 only. -/
theorem C22_morton (x y z : Nat) (hx : x < UINT16_RANGE) (hy : y < UINT16_RANGE)
    (hz : z < UINT16_RANGE) :
    (∀ i < 10, (ZOrder x y z).testBit (3 * i) = x.testBit i ∧
      (ZOrder x y z).testBit (3 * i + 1) = y.testBit i ∧
      (ZOrder x y z).testBit (3 * i + 2) = z.testBit i) ∧
    (ZOrder x y z).testBit 30 = false ∧ (ZOrder x y z).testBit 31 = false ∧
    ZOrder x y z < UINT32_RANGE ∧
    (∀ x1 y1 z1 : Nat, x < 1024 → y < 1024 → z < 1024 → x1 < 1024 → y1 < 1024 → z1 < 1024 →
      ZOrder x y z = ZOrder x1 y1 z1 → x = x1 ∧ y = y1 ∧ z = z1) ∧
    ZOrder x y z = ZOrder (x % 1024) (y % 1024) (z % 1024) := by
  have hb := ZOrder_testBit x y z hx hy hz
  have bits : ∀ (a b c : Nat), a < 65536 → b < 65536 → c < 65536 → ∀ i < 10,
      (ZOrder a b c).testBit (3 * i) = a.testBit i ∧
      (ZOrder a b c).testBit (3 * i + 1) = b.testBit i ∧
      (ZOrder a b c).testBit (3 * i + 2) = c.testBit i := by
    intro a b c ha hb hc i hi
    have h0 : 3 * i % 3 = 0 := by omega
    have h1 : (3 * i + 1) % 3 = 1 := by omega
    have h2 : (3 * i + 2) % 3 = 2 := by omega
    have d0 : 3 * i / 3 = i := by omega
    have d1 : (3 * i + 1) / 3 = i := by omega
    have d2 : (3 * i + 2) / 3 = i := by omega
    have l0 : 3 * i < 30 := by omega
    have l1 : 3 * i + 1 < 30 := by omega
    have l2 : 3 * i + 2 < 30 := by omega
    refine ⟨?_, ?_, ?_⟩
    · rw [ZOrder_testBit a b c ha hb hc, h0, d0]; simp [l0]
    · rw [ZOrder_testBit a b c ha hb hc, h1, d1]; simp [l1]
    · rw [ZOrder_testBit a b c ha hb hc, h2, d2]; simp [l2]
  refine ⟨bits x y z hx hy hz, ?_, ?_, ?_, ?_, ?_⟩
  · rw [hb]; rfl
  · rw [hb]; rfl
  · exact lt_trans (ZOrder_lt x y z hx hy hz) (by unfold UINT32_RANGE; norm_num)
  · intro x1 y1 z1 lx ly lz lx1 ly1 lz1 he
    have b1 := bits x y z hx hy hz
    have b2 := bits x1 y1 z1 (by omega) (by omega) (by omega)
    rw [he] at b1
    refine ⟨eq_of_low_bits x x1 lx lx1 ?_, eq_of_low_bits y y1 ly ly1 ?_,
      eq_of_low_bits z z1 lz lz1 ?_⟩
    · intro i hi; rw [← (b1 i hi).1, (b2 i hi).1]
    · intro i hi; rw [← (b1 i hi).2.1, (b2 i hi).2.1]
    · intro i hi; rw [← (b1 i hi).2.2, (b2 i hi).2.2]
  · apply Nat.eq_of_testBit_eq
    intro j
    have hmx : x % 1024 < 65536 := lt_of_lt_of_le (Nat.mod_lt _ (by norm_num)) (by norm_num)
    have hmy : y % 1024 < 65536 := lt_of_lt_of_le (Nat.mod_lt _ (by norm_num)) (by norm_num)
    have hmz : z % 1024 < 65536 := lt_of_lt_of_le (Nat.mod_lt _ (by norm_num)) (by norm_num)
    rw [hb, ZOrder_testBit _ _ _ hmx hmy hmz]
    by_cases hj : j < 30
    · have hi : j / 3 < 10 := by omega
      rw [testBit_mod_1024 x _ hi, testBit_mod_1024 y _ hi, testBit_mod_1024 z _ hi]
    · simp [hj]

theorem C22_morton_witness :
    ZOrder 1029 2 1023 = 613566837 ∧ ZOrder 1029 2 1023 = ZOrder 5 2 1023 ∧
    (ZOrder 1029 2 1023).testBit 30 = false :=
  have h := C22_morton 1029 2 1023 (by decide) (by decide) (by decide)
  ⟨by decide, h.2.2.2.2.2, h.2.1⟩

/-! ## Key presses -/

theorem keyFind_append (keys : List (Int × Bool)) (key other : Int) (v : Bool) :
    keyFind (keys ++ [(key, v)]) other =
      match keyFind keys other with
      | some b => some b
      | none => if key = other then some v else none := by
  induction keys with
  | nil => simp [keyFind]
  | cons e rest ih =>
    obtain ⟨k, b⟩ := e
    by_cases hk : k = other
    · simp [keyFind, hk]
    · simp [keyFind, hk, ih]

theorem keyFind_assign (keys : List (Int × Bool)) (key other : Int) (v : Bool) :
    keyFind (keyAssign keys key v) other =
      if other = key then (keyFind keys key).map (fun _ => v) else keyFind keys other := by
  induction keys with
  | nil => simp [keyFind, keyAssign]
  | cons e rest ih =>
    obtain ⟨k, b⟩ := e
    by_cases hk : k = key
    · subst hk
      by_cases ho : other = k
      · simp [keyFind, keyAssign, ho]
      · have ho2 : ¬ k = other := fun h => ho h.symm
        simp [keyFind, keyAssign, ho, ho2]
    · by_cases ho : other = key
      · subst ho
        simp [keyFind, keyAssign, hk, ih]
      · by_cases hko : k = other
        · simp [keyFind, keyAssign, hk, ho, hko]
        · simp [keyFind, keyAssign, hk, ho, hko, ih]

theorem keyFind_set (keys : List (Int × Bool)) (key other : Int) (v : Bool) :
    keyFind (SetKeyLastState keys key v) other =
      if other = key then some v else keyFind keys other := by
  unfold SetKeyLastState
  cases h : keyFind keys key with
  | none =>
    simp only [keyFind_append]
    by_cases ho : other = key
    · subst ho; simp [h]
    · have ho2 : ¬ key = other := fun e => ho e.symm
      simp only [ho, ho2, if_false]
      cases keyFind keys other <;> rfl
  | some b =>
    simp only [keyFind_assign, h]
    rfl

theorem KeyLastState_set (keys : List (Int × Bool)) (key : Int) (v : Bool) :
    KeyLastState (SetKeyLastState keys key v) key = v := by
  simp [KeyLastState, keyFind_set]

/-- One call: the return value, the recorded state of the key afterwards and
the entries of the other keys. -/
theorem KeyPressedNoRepeat_spec (keyPressed : Bool) (keys : List (Int × Bool)) (key : Int) :
    (KeyPressedNoRepeat keyPressed keys key).1 = (keyPressed && !KeyLastState keys key) ∧
    KeyLastState (KeyPressedNoRepeat keyPressed keys key).2 key = keyPressed ∧
    ∀ other : Int, other ≠ key →
      keyFind (KeyPressedNoRepeat keyPressed keys key).2 other = keyFind keys other := by
  unfold KeyPressedNoRepeat
  cases keyPressed
  · refine ⟨by simp, by simpa using KeyLastState_set keys key false, ?_⟩
    intro other ho
    simp [keyFind_set, ho]
  · cases hl : KeyLastState keys key
    · refine ⟨by simp, by simpa using KeyLastState_set keys key true, ?_⟩
      intro other ho
      simp [keyFind_set, ho]
    · exact ⟨by simp, by simpa using hl, fun _ _ => by simp⟩

theorem KeyLastState_other (keyPressed : Bool) (keys : List (Int × Bool)) (key other : Int)
    (h : other ≠ key) :
    KeyLastState (KeyPressedNoRepeat keyPressed keys key).2 other = KeyLastState keys other := by
  unfold KeyLastState
  rw [(KeyPressedNoRepeat_spec keyPressed keys key).2.2 other h]

theorem take_falses (c n : Nat) (a : Bool) (h : c ≤ n) :
    (a :: List.replicate n false).take c = (a :: List.replicate (n + 1) false).take c := by
  cases c with
  | zero => rfl
  | succ c =>
    simp only [List.take_succ_cons, List.take_replicate]
    congr 2
    omega

/-- While every call for `key` finds the key pressed, the calls for it return
`true` at most once: the first does when the recorded state was `false`. -/
theorem keyResults_held (key : Int) (calls : List (Int × Bool)) :
    ∀ keys : List (Int × Bool), (∀ c ∈ calls, c.1 = key → c.2 = true) →
    keyResults key keys calls =
      ((!KeyLastState keys key) :: List.replicate calls.length false).take
        (calls.countP (fun c => decide (c.1 = key))) := by
  induction calls with
  | nil => intro keys _; rfl
  | cons c rest ih =>
    intro keys hheld
    obtain ⟨k, p⟩ := c
    have hrest : ∀ c ∈ rest, c.1 = key → c.2 = true :=
      fun c hc => hheld c (List.mem_cons_of_mem _ hc)
    by_cases hk : k = key
    · subst hk
      have hp : p = true := hheld (k, p) (List.mem_cons_self _ _) rfl
      subst hp
      obtain ⟨h1, h2, -⟩ := KeyPressedNoRepeat_spec true keys k
      rw [List.countP_cons_of_pos _ _ (by simp)]
      simp only [keyResults, if_true, ih _ hrest, h1, h2, Bool.true_and, Bool.not_true]
      rfl
    · simp only [keyResults, hk, if_false, ih _ hrest, KeyLastState_other p keys k key
        (fun h => hk h.symm), List.length_cons]
      rw [List.countP_cons_of_neg _ _ (by simpa using hk)]
      exact take_falses _ _ _ (List.countP_le_length _)

/-- C23: `KeyPressedNoRepeat` returns `true` exactly when the key is pressed
and its recorded last state is `false`, a key never recorded counting as
`false`; after the call the recorded state of the key is whether it is pressed,
and the entry of every other key, recorded or not, is as before.  So in a run
of calls, for this and for other keys, in which every call for the key finds it
pressed and its state was `false` at the start, the first call for the key
returns `true` and every later one `false`. -/
theorem C23_rising_edge (keyPressed : Bool) (keys : List (Int × Bool)) (key : Int) :
    ((KeyPressedNoRepeat keyPressed keys key).1 = true ↔
      keyPressed = true ∧ KeyLastState keys key = false) ∧
    (keyFind keys key = none → KeyLastState keys key = false) ∧
    KeyLastState (KeyPressedNoRepeat keyPressed keys key).2 key = keyPressed ∧
    (∀ other : Int, other ≠ key →
      keyFind (KeyPressedNoRepeat keyPressed keys key).2 other = keyFind keys other) ∧
    (∀ calls : List (Int × Bool), KeyLastState keys key = false →
      (∀ c ∈ calls, c.1 = key → c.2 = true) →
      keyResults key keys calls =
        (true :: List.replicate calls.length false).take
          (calls.countP (fun c => decide (c.1 = key)))) := by
  obtain ⟨h1, h2, h3⟩ := KeyPressedNoRepeat_spec keyPressed keys key
  refine ⟨?_, ?_, h2, h3, ?_⟩
  · rw [h1]
    cases keyPressed <;> cases KeyLastState keys key <;> simp
  · intro h
    simp [KeyLastState, h]
  · intro calls hl hheld
    rw [keyResults_held key calls keys hheld, hl]
    rfl

theorem C23_rising_edge_witness :
    (KeyPressedNoRepeat true [(32, true)] 82).1 = true ∧
    keyFind (KeyPressedNoRepeat true [(32, true)] 82).2 32 = some true ∧
    keyResults 82 [(32, true)] [(82, true), (32, true), (82, true), (32, false), (82, true)]
      = [true, false, false] :=
  have h := C23_rising_edge true [(32, true)] 82
  ⟨h.1.2 ⟨rfl, by decide⟩, (h.2.2.2.1 32 (by decide)).trans (by decide),
    (h.2.2.2.2 [(82, true), (32, true), (82, true), (32, false), (82, true)] (by decide)
      (by decide)).trans (by decide)⟩

/-! ## The command queues -/

theorem queueAt_store_self (queues : List (Option Nat)) (i v : Nat) :
    queueAt (queueStore queues i v) i = some v := by
  induction i generalizing queues with
  | zero => cases queues <;> rfl
  | succ i ih =>
    cases queues with
    | nil => exact ih []
    | cons q rest => exact ih rest

theorem queueAt_store_other (queues : List (Option Nat)) (i t v : Nat) (h : t ≠ i) :
    queueAt (queueStore queues i v) t = queueAt queues t := by
  induction i generalizing queues t with
  | zero =>
    cases t with
    | zero => exact absurd rfl h
    | succ t => cases queues <;> rfl
  | succ i ih =>
    cases t with
    | zero => cases queues <;> rfl
    | succ t =>
      have ht : t ≠ i := fun e => h (by rw [e])
      cases queues with
      | nil =>
        have := ih [] t ht
        simpa [queueAt, queueStore] using this
      | cons q rest =>
        have := ih rest t ht
        simpa [queueAt, queueStore] using this

theorem createQueues_step (d : Driver) (remaining i : Nat) (m : CLManager) :
    CLManager.createQueues d (remaining + 1) i m =
      if d.code m.log.length = CL_SUCCESS then
        CLManager.createQueues d remaining (i + 1)
          { m with
            commandQueues_ := queueStore m.commandQueues_ i m.log.length
            error_ := d.code m.log.length
            log := m.log ++ [ClCall.clCreateCommandQueue i] }
      else
        (false, { m with
            commandQueues_ := queueStore m.commandQueues_ i m.log.length
            error_ := d.code m.log.length
            log := m.log ++ [ClCall.clCreateCommandQueue i] }) := by
  by_cases h : d.code m.log.length = CL_SUCCESS
  · simp [CLManager.createQueues, CheckSuccess, h]
  · simp [CLManager.createQueues, CheckSuccess, h]

/-- The loop when all its rounds succeed. -/
theorem createQueues_ok (d : Driver) (remaining : Nat) : ∀ (i : Nat) (m : CLManager),
    (∀ j < remaining, d.code (m.log.length + j) = CL_SUCCESS) →
    (CLManager.createQueues d remaining i m).1 = true ∧
    (CLManager.createQueues d remaining i m).2.log =
      m.log ++ (List.range remaining).map (fun j => ClCall.clCreateCommandQueue (i + j)) ∧
    (∀ j < remaining, queueAt (CLManager.createQueues d remaining i m).2.commandQueues_ (i + j)
      = some (m.log.length + j)) ∧
    (∀ t, t < i ∨ i + remaining ≤ t →
      queueAt (CLManager.createQueues d remaining i m).2.commandQueues_ t
        = queueAt m.commandQueues_ t) ∧
    (CLManager.createQueues d remaining i m).2.clPrograms_ = m.clPrograms_ := by
  induction remaining with
  | zero =>
    intro i m _
    exact ⟨rfl, by simp [CLManager.createQueues], fun j hj => absurd hj (Nat.not_lt_zero _),
      fun _ _ => rfl, rfl⟩
  | succ k ih =>
    intro i m hall
    have h0 : d.code m.log.length = CL_SUCCESS := by simpa using hall 0 (Nat.succ_pos _)
    rw [createQueues_step, if_pos h0]
    obtain ⟨r1, r2, r3, r4, r5⟩ := ih (i + 1)
      { m with
        commandQueues_ := queueStore m.commandQueues_ i m.log.length
        error_ := d.code m.log.length
        log := m.log ++ [ClCall.clCreateCommandQueue i] }
      (by
        intro j hj
        have := hall (j + 1) (by omega)
        simpa [Nat.add_assoc, Nat.add_comm 1 j] using this)
    refine ⟨r1, ?_, ?_, ?_, r5⟩
    · rw [r2, List.range_succ_eq_map]
      simp [List.map_map, Function.comp, Nat.add_assoc, Nat.add_comm 1]
    · intro j hj
      cases j with
      | zero =>
        rw [r4 (i + 0) (Or.inl (by omega))]
        exact queueAt_store_self _ _ _
      | succ j =>
        have := r3 j (by omega)
        simpa [Nat.add_assoc, Nat.add_comm 1 j] using this
    · intro t ht
      rw [r4 t (by omega)]
      exact queueAt_store_other _ _ _ _ (by omega)

/-- The loop when round `f` is the first that fails. -/
theorem createQueues_fail (d : Driver) (remaining : Nat) : ∀ (i f : Nat) (m : CLManager),
    f < remaining →
    (∀ j < f, d.code (m.log.length + j) = CL_SUCCESS) →
    d.code (m.log.length + f) ≠ CL_SUCCESS →
    (CLManager.createQueues d remaining i m).1 = false ∧
    (CLManager.createQueues d remaining i m).2.log =
      m.log ++ (List.range (f + 1)).map (fun j => ClCall.clCreateCommandQueue (i + j)) ∧
    (∀ j ≤ f, queueAt (CLManager.createQueues d remaining i m).2.commandQueues_ (i + j)
      = some (m.log.length + j)) ∧
    (∀ t, t < i ∨ i + f < t →
      queueAt (CLManager.createQueues d remaining i m).2.commandQueues_ t
        = queueAt m.commandQueues_ t) ∧
    (CLManager.createQueues d remaining i m).2.error_ = d.code (m.log.length + f) := by
  induction remaining with
  | zero => intro i f m hf; exact absurd hf (Nat.not_lt_zero _)
  | succ k ih =>
    intro i f m hf hall hfail
    cases f with
    | zero =>
      have h0 : ¬ d.code m.log.length = CL_SUCCESS := by simpa using hfail
      rw [createQueues_step, if_neg h0]
      refine ⟨rfl, rfl, ?_, ?_, rfl⟩
      · intro j hj
        have : j = 0 := by omega
        subst this
        exact queueAt_store_self _ _ _
      · intro t ht
        exact queueAt_store_other _ _ _ _ (by omega)
    | succ f =>
      have h0 : d.code m.log.length = CL_SUCCESS := by simpa using hall 0 (Nat.succ_pos _)
      rw [createQueues_step, if_pos h0]
      obtain ⟨r1, r2, r3, r4, r5⟩ := ih (i + 1) f
        { m with
          commandQueues_ := queueStore m.commandQueues_ i m.log.length
          error_ := d.code m.log.length
          log := m.log ++ [ClCall.clCreateCommandQueue i] }
        (by omega)
        (by
          intro j hj
          have := hall (j + 1) (by omega)
          simpa [Nat.add_assoc, Nat.add_comm 1 j] using this)
        (by simpa [Nat.add_assoc, Nat.add_comm 1 f] using hfail)
      refine ⟨r1, ?_, ?_, ?_, ?_⟩
      · rw [r2, List.range_succ_eq_map (f + 1)]
        simp [List.map_map, Function.comp, Nat.add_assoc, Nat.add_comm 1]
      · intro j hj
        cases j with
        | zero =>
          rw [r4 (i + 0) (Or.inl (by omega))]
          exact queueAt_store_self _ _ _
        | succ j =>
          have := r3 j (by omega)
          simpa [Nat.add_assoc, Nat.add_comm 1 j] using this
      · intro t ht
        rw [r4 t (by omega)]
        exact queueAt_store_other _ _ _ _ (by omega)
      · rw [r5]
        simp [Nat.add_assoc, Nat.add_comm 1 f]

/-- C21 (counterexample): with two queues, when the first creation succeeds
and the second fails, `CreateCommandQueue` returns `false` and the queue
created by the first call stays stored in slot 0 of a manager that held no
queue before; and with one queue, a failing call on a manager that holds a queue
in slot 0 overwrites that slot. -/
theorem C21_counterexample :
    (CLManager.CreateCommandQueue (failingDriver 1) 2 freshManager).1 = false ∧
    createdQueue (failingDriver 1) freshManager.log.length 0 ∧
    queueAt (CLManager.CreateCommandQueue (failingDriver 1) 2 freshManager).2.commandQueues_ 0
      = some 0 ∧
    queueAt freshManager.commandQueues_ 0 = none ∧
    (CLManager.CreateCommandQueue okDriver 1 freshManager).1 = true ∧
    (CLManager.CreateCommandQueue (failingDriver 1) 1
      (CLManager.CreateCommandQueue okDriver 1 freshManager).2).1 = false ∧
    queueAt (CLManager.CreateCommandQueue okDriver 1 freshManager).2.commandQueues_ 0
      = some 0 ∧
    queueAt (CLManager.CreateCommandQueue (failingDriver 1) 1
      (CLManager.CreateCommandQueue okDriver 1 freshManager).2).2.commandQueues_ 0 = some 1 := by
  refine ⟨by decide, ⟨Nat.le_refl _, by decide⟩, by decide, by decide, by decide, by decide,
    by decide, by decide⟩

/-- C21 (amended): `CreateCommandQueue` returns `true` exactly when every one of
the `NUM_QUEUE_INDICES` creations reports success, and then slot `j` holds the
queue of the `j`-th creation.  When creation `f` is the first to fail, it
returns `false` at once: no later creation is attempted, nothing is rolled
back, the slots up to `f` hold what the creations of this call returned and the
slots after `f` are as they were before the call. -/
theorem C21_create_queues (d : Driver) (NUM_QUEUE_INDICES : Nat) (m : CLManager) :
    ((CLManager.CreateCommandQueue d NUM_QUEUE_INDICES m).1 = true ↔
      ∀ j < NUM_QUEUE_INDICES, d.code (m.log.length + j) = CL_SUCCESS) ∧
    ((CLManager.CreateCommandQueue d NUM_QUEUE_INDICES m).1 = true →
      (CLManager.CreateCommandQueue d NUM_QUEUE_INDICES m).2.log =
        m.log ++ (List.range NUM_QUEUE_INDICES).map ClCall.clCreateCommandQueue ∧
      ∀ j < NUM_QUEUE_INDICES,
        queueAt (CLManager.CreateCommandQueue d NUM_QUEUE_INDICES m).2.commandQueues_ j
          = some (m.log.length + j)) ∧
    (∀ f < NUM_QUEUE_INDICES, (∀ j < f, d.code (m.log.length + j) = CL_SUCCESS) →
      d.code (m.log.length + f) ≠ CL_SUCCESS →
      (CLManager.CreateCommandQueue d NUM_QUEUE_INDICES m).1 = false ∧
      (CLManager.CreateCommandQueue d NUM_QUEUE_INDICES m).2.log =
        m.log ++ (List.range (f + 1)).map ClCall.clCreateCommandQueue ∧
      (∀ j ≤ f,
        queueAt (CLManager.CreateCommandQueue d NUM_QUEUE_INDICES m).2.commandQueues_ j
          = some (m.log.length + j)) ∧
      (∀ j < f, createdQueue d m.log.length (m.log.length + j)) ∧
      ∀ t, f < t →
        queueAt (CLManager.CreateCommandQueue d NUM_QUEUE_INDICES m).2.commandQueues_ t
          = queueAt m.commandQueues_ t) := by
  have hok : (∀ j < NUM_QUEUE_INDICES, d.code (m.log.length + j) = CL_SUCCESS) →
      (CLManager.CreateCommandQueue d NUM_QUEUE_INDICES m).1 = true ∧
      (CLManager.CreateCommandQueue d NUM_QUEUE_INDICES m).2.log =
        m.log ++ (List.range NUM_QUEUE_INDICES).map ClCall.clCreateCommandQueue ∧
      ∀ j < NUM_QUEUE_INDICES,
        queueAt (CLManager.CreateCommandQueue d NUM_QUEUE_INDICES m).2.commandQueues_ j
          = some (m.log.length + j) := by
    intro hall
    obtain ⟨r1, r2, r3, -, -⟩ := createQueues_ok d NUM_QUEUE_INDICES 0 m hall
    refine ⟨r1, ?_, ?_⟩
    · simpa using r2
    · intro j hj
      simpa using r3 j hj
  have hfail : ∀ f < NUM_QUEUE_INDICES, (∀ j < f, d.code (m.log.length + j) = CL_SUCCESS) →
      d.code (m.log.length + f) ≠ CL_SUCCESS →
      (CLManager.CreateCommandQueue d NUM_QUEUE_INDICES m).1 = false ∧
      (CLManager.CreateCommandQueue d NUM_QUEUE_INDICES m).2.log =
        m.log ++ (List.range (f + 1)).map ClCall.clCreateCommandQueue ∧
      (∀ j ≤ f,
        queueAt (CLManager.CreateCommandQueue d NUM_QUEUE_INDICES m).2.commandQueues_ j
          = some (m.log.length + j)) ∧
      (∀ j < f, createdQueue d m.log.length (m.log.length + j)) ∧
      ∀ t, f < t →
        queueAt (CLManager.CreateCommandQueue d NUM_QUEUE_INDICES m).2.commandQueues_ t
          = queueAt m.commandQueues_ t := by
    intro f hf hall hbad
    obtain ⟨r1, r2, r3, r4, -⟩ := createQueues_fail d NUM_QUEUE_INDICES 0 f m hf hall hbad
    refine ⟨r1, ?_, ?_, ?_, ?_⟩
    · simpa using r2
    · intro j hj
      simpa using r3 j hj
    · intro j hj
      exact ⟨Nat.le_add_right _ _, hall j hj⟩
    · intro t ht
      exact r4 t (Or.inr (by omega))
  refine ⟨⟨?_, fun h => (hok h).1⟩, ?_, hfail⟩
  · intro htrue
    by_contra hne
    have hex : ∃ f, f < NUM_QUEUE_INDICES ∧ d.code (m.log.length + f) ≠ CL_SUCCESS := by
      by_contra hnone
      apply hne
      intro j hj
      by_contra hj2
      exact hnone ⟨j, hj, hj2⟩
    have hmin := Nat.find_spec hex
    have hlt : ∀ j < Nat.find hex, d.code (m.log.length + j) = CL_SUCCESS := by
      intro j hj
      by_contra hj2
      exact Nat.find_min hex hj ⟨lt_trans hj hmin.1, hj2⟩
    have := (hfail (Nat.find hex) hmin.1 hlt hmin.2).1
    rw [htrue] at this
    cases this
  · intro htrue
    by_cases hall : ∀ j < NUM_QUEUE_INDICES, d.code (m.log.length + j) = CL_SUCCESS
    · exact (hok hall).2
    · exfalso
      have hex : ∃ f, f < NUM_QUEUE_INDICES ∧ d.code (m.log.length + f) ≠ CL_SUCCESS := by
        by_contra hnone
        apply hall
        intro j hj
        by_contra hj2
        exact hnone ⟨j, hj, hj2⟩
      have hmin := Nat.find_spec hex
      have hlt : ∀ j < Nat.find hex, d.code (m.log.length + j) = CL_SUCCESS := by
        intro j hj
        by_contra hj2
        exact Nat.find_min hex hj ⟨lt_trans hj hmin.1, hj2⟩
      have := (hfail (Nat.find hex) hmin.1 hlt hmin.2).1
      rw [htrue] at this
      cases this

theorem C21_create_queues_witness :
    (CLManager.CreateCommandQueue (failingDriver 1) 3 freshManager).1 = false ∧
    (CLManager.CreateCommandQueue (failingDriver 1) 3 freshManager).2.log =
      [ClCall.clCreateCommandQueue 0, ClCall.clCreateCommandQueue 1] ∧
    queueAt (CLManager.CreateCommandQueue (failingDriver 1) 3 freshManager).2.commandQueues_ 0
      = some 0 ∧
    queueAt (CLManager.CreateCommandQueue (failingDriver 1) 3 freshManager).2.commandQueues_ 2
      = none :=
  have h := (C21_create_queues (failingDriver 1) 3 freshManager).2.2 1 (by decide)
    (by decide) (by decide)
  ⟨h.1, h.2.1, h.2.2.1 0 (by decide), h.2.2.2.2 2 (by decide)⟩

/-! ## Frames in which the checks of a pass fail -/

theorem mem_stamp {w : World} {cs : List Call} : ∀ {k : Nat} {e : Event},
    e ∈ stamp w k cs → e.call ∈ cs ∧ ∃ j, e.ok = answer w j e.call := by
  induction cs with
  | nil => intro k e h; cases h
  | cons c cs ih =>
    intro k e h
    simp only [stamp, List.mem_cons] at h
    rcases h with rfl | h
    · exact ⟨List.mem_cons_self _ _, k, rfl⟩
    · obtain ⟨h1, h2⟩ := ih h
      exact ⟨List.mem_cons_of_mem _ h1, h2⟩

theorem answer_lead (w : World) (rc : Raycaster) (j : Nat) (c : Call) (h : c ∈ lead rc) :
    answer w j c = true := by
  unfold lead at h
  cases hcc : rc.config_.ClearCache <;> rw [hcc] at h <;>
    simp only [List.mem_cons, List.mem_singleton, List.not_mem_nil, or_false, List.nil_append,
      List.cons_append, if_true, if_false, Bool.false_eq_true] at h
  · subst h; rfl
  · rcases h with rfl | rfl | rfl <;> rfl

/-- When the events of `A` that need not succeed are outside `R` and every
event of the trace in `R` succeeded, all of `A` succeeded. -/
theorem all_ok_of_cut_append (R : Event → Prop) (B : List Event) : ∀ A : List Event,
    (∀ e ∈ A, R e ∨ e.ok = true) → (∀ e ∈ cut (A ++ B), R e → e.ok = true) →
    A.all Event.ok = true := by
  intro A
  induction A with
  | nil => intro _ _; rfl
  | cons a A ih =>
    intro hA h
    have ha : a.ok = true := by
      rcases hA a (List.mem_cons_self _ _) with hR | hok
      · apply h a _ hR
        simp only [List.cons_append, cut]
        split <;> exact List.mem_cons_self _ _
      · exact hok
    simp only [List.all_cons, ha, Bool.true_and]
    apply ih (fun e he => hA e (List.mem_cons_of_mem _ he))
    intro e he hR
    apply h e _ hR
    simp only [List.cons_append, cut, ha, if_true]
    exact List.mem_cons_of_mem _ he

theorem pipelineCalls_stage (w : World) (rc : Raycaster) (cur next p : Nat) :
    (pipelineCalls w rc cur next p).all isStage = true := rfl

/-- The compute and streaming calls of a frame, written out: the slot of the
current timestep is `EVEN` when the timestep is even, the data and the size of
the brick list come from the two `BrickList` calls in the order the compiler
chose. -/
theorem pipelineCalls_explicit (w : World) (rc : Raycaster) (cur next p : Nat) :
    pipelineCalls w rc cur next p = [
      Call.SetInt "TSPTraversal" rc.tspTimestepArg_ next,
      Call.AddBuffer "TSPTraversal" rc.tspBrickListArg_ rc.brickRequest_
        (rc.brickRequest_.length * 4) AllocMode.COPY_HOST_PTR Permissions.READ_WRITE,
      Call.PrepareProgram "TSPTraversal",
      Call.LaunchProgram "TSPTraversal" rc.winWidth_ rc.winHeight_
        rc.config_.LocalWorkSizeX rc.config_.LocalWorkSizeY,
      Call.PBOToAtlas (if cur % 2 = 0 then BUFFER_INDEX.EVEN else BUFFER_INDEX.ODD),
      Call.FinishProgram "TSPTraversal",
      Call.ReadBuffer "TSPTraversal" rc.tspBrickListArg_ (rc.brickRequest_.length * 4) true,
      Call.ReleaseBuffer "TSPTraversal" rc.tspBrickListArg_,
      Call.SetInt "RaycasterTSP" rc.timestepArg_ cur,
      Call.BrickList (if cur % 2 = 0 then BUFFER_INDEX.EVEN else BUFFER_INDEX.ODD),
      Call.BrickList (if cur % 2 = 0 then BUFFER_INDEX.EVEN else BUFFER_INDEX.ODD),
      Call.AddBuffer "RaycasterTSP" rc.brickListArg_
        (if w.sizeArgFirst = true then w.brickList (p + 10) else w.brickList (p + 9))
        ((if w.sizeArgFirst = true then w.brickList (p + 9) else w.brickList (p + 10)).length * 4)
        AllocMode.COPY_HOST_PTR Permissions.READ_ONLY,
      Call.PrepareProgram "RaycasterTSP",
      Call.LaunchProgram "RaycasterTSP" rc.winWidth_ rc.winHeight_
        rc.config_.LocalWorkSizeX rc.config_.LocalWorkSizeY,
      Call.BuildBrickList (if cur % 2 = 0 then BUFFER_INDEX.ODD else BUFFER_INDEX.EVEN)
        (copyInto (w.deviceData (p + 6)) rc.brickRequest_),
      Call.DiskToPBO (if cur % 2 = 0 then BUFFER_INDEX.ODD else BUFFER_INDEX.EVEN),
      Call.ReleaseBuffer "RaycasterTSP" rc.brickListArg_,
      Call.FinishProgram "RaycasterTSP"] := by
  have h1 : (chooseBuffers cur).1 = if cur % 2 = 0 then BUFFER_INDEX.EVEN else BUFFER_INDEX.ODD := by
    unfold chooseBuffers; split <;> rfl
  have h2 : (chooseBuffers cur).2 = if cur % 2 = 0 then BUFFER_INDEX.ODD else BUFFER_INDEX.EVEN := by
    unfold chooseBuffers; split <;> rfl
  have h3 : (brickListArgs w (w.brickList (p + 9)) (w.brickList (p + 10))).1 =
      if w.sizeArgFirst = true then w.brickList (p + 10) else w.brickList (p + 9) := by
    unfold brickListArgs; split <;> rfl
  have h4 : (brickListArgs w (w.brickList (p + 9)) (w.brickList (p + 10))).2 =
      (if w.sizeArgFirst = true then w.brickList (p + 9) else w.brickList (p + 10)).length * 4 := by
    unfold brickListArgs; split <;> rfl
  unfold pipelineCalls
  rw [h1, h2, h3, h4]
  rfl

/-- The timesteps of a frame from what the animator answers. -/
theorem timesteps_explicit (rc : Raycaster) (cur next : Nat)
    (hts : (rc.animator_ = none ∧ cur = 0 ∧ next = 1) ∨
      ∃ a : Animator, rc.animator_ = some a ∧ cur = a.CurrentTimestep % 4294967296 ∧
        next = a.NextTimestep % 4294967296) :
    timesteps rc.animator_ = (cur, next) := by
  rcases hts with ⟨h, rfl, rfl⟩ | ⟨a, h, rfl, rfl⟩ <;> rw [h] <;> rfl

/-- A frame whose preconditions hold and in which the checks of the cube pass
and the stages succeed runs through the cube pass and the stages; the quad pass
decides what it returns. -/
theorem Render_staged (w : World) (rc : Raycaster) (hr : ready rc = true)
    (hok : ∀ e ∈ (call (Render w) rc).2.trace,
      e.call ∈ cubePass ∨ isStage e.call = true → e.ok = true) :
    (call (Render w) rc).2.trace =
      stamp w 0 (lead rc ++ cubePass ++
        pipelineCalls w rc (timesteps rc.animator_).1 (timesteps rc.animator_).2
          ((lead rc).length + 36)) ++
      cut (stamp w ((lead rc).length + 36 + 18) quadPass) ∧
    (call (Render w) rc).1 = (stamp w ((lead rc).length + 36 + 18) quadPass).all Event.ok := by
  obtain ⟨ht, hret⟩ := Render_ready w rc hr
  have hsplit : stamp w 0 (lead rc ++ frameCalls w rc (lead rc).length) =
      stamp w 0 (lead rc ++ cubePass ++
        pipelineCalls w rc (timesteps rc.animator_).1 (timesteps rc.animator_).2
          ((lead rc).length + 36)) ++
      stamp w ((lead rc).length + 36 + 18) quadPass := by
    have e : lead rc ++ frameCalls w rc (lead rc).length =
        (lead rc ++ cubePass ++
          pipelineCalls w rc (timesteps rc.animator_).1 (timesteps rc.animator_).2
            ((lead rc).length + 36)) ++ quadPass := by
      simp only [frameCalls, List.append_assoc]
    rw [e, stamp_append]
    congr 2
    simp only [List.length_append, Nat.zero_add]
    rfl
  rw [hsplit] at ht hret
  rw [ht] at hok
  have hA := all_ok_of_cut_append
    (fun e => e.call ∈ cubePass ∨ isStage e.call = true) _ _ (by
      intro e he
      obtain ⟨hc, j, hj⟩ := mem_stamp he
      rcases List.mem_append.1 hc with hc | hc
      · rcases List.mem_append.1 hc with hc | hc
        · exact Or.inr (by rw [hj]; exact answer_lead w rc j _ hc)
        · exact Or.inl (Or.inl hc)
      · exact Or.inl (Or.inr (List.all_eq_true.1 (pipelineCalls_stage w rc _ _ _) _ hc))) hok
  rw [cut_append_ok _ _ hA] at ht
  refine ⟨ht, ?_⟩
  rw [hret, List.all_append, hA, Bool.true_and]

/-- C4 (counterexample): in a frame whose preconditions hold and in which all
eighteen compute and streaming calls are issued and return `true`, `Render`
returns `false` when the `CheckGLError` of the quad pass reports an error; and
when the `CheckGLError` after the front faces of the cube reports an error, no
stage returns `false` and yet `Render` issues no compute or streaming call. -/
theorem C4_counterexample :
    ready (rcAnimated 5 6) = true ∧
    (∀ e ∈ (call (Render (glErrorWorld 71)) (rcAnimated 5 6)).2.trace,
      isStage e.call = true → e.ok = true) ∧
    ((callsOf (call (Render (glErrorWorld 71)) (rcAnimated 5 6))).filter isStage).length = 18 ∧
    (call (Render (glErrorWorld 71)) (rcAnimated 5 6)).1 = false ∧
    (∀ e ∈ (call (Render (glErrorWorld 22)) (rcAnimated 5 6)).2.trace,
      isStage e.call = true → e.ok = true) ∧
    (callsOf (call (Render (glErrorWorld 22)) (rcAnimated 5 6))).filter isStage = [] ∧
    (call (Render (glErrorWorld 22)) (rcAnimated 5 6)).1 = false := by
  refine ⟨by decide, by decide, by decide, by decide, by decide, by decide, by decide⟩

/-- C4 (amended): in a frame in which the preconditions hold, the shader and GL
checks of the cube pass succeed and every stage returns `true`, `Render`
issues, after the cube pass, exactly the compute and streaming calls below in
this order, for the timesteps `cur` and `next` the animator answers (`0` and `1`
without animator) and the slot of the parity of `cur`, and only after them the
calls of the quad pass, which holds the draw of the output texture; it returns
`true` exactly when every call of the frame, those of the quad pass included,
reports success, and then the quad pass is complete. -/
theorem C4_frame_order (w : World) (rc : Raycaster) (cur next : Nat)
    (hr : ready rc = true)
    (hts : (rc.animator_ = none ∧ cur = 0 ∧ next = 1) ∨
      ∃ a : Animator, rc.animator_ = some a ∧ cur = a.CurrentTimestep % 4294967296 ∧
        next = a.NextTimestep % 4294967296)
    (hok : ∀ e ∈ (call (Render w) rc).2.trace,
      e.call ∈ cubePass ∨ isStage e.call = true → e.ok = true) :
    ∃ q : List Call, q <+: quadPass ∧
      callsOf (call (Render w) rc) = lead rc ++ cubePass ++ [
        Call.SetInt "TSPTraversal" rc.tspTimestepArg_ next,
        Call.AddBuffer "TSPTraversal" rc.tspBrickListArg_ rc.brickRequest_
          (rc.brickRequest_.length * 4) AllocMode.COPY_HOST_PTR Permissions.READ_WRITE,
        Call.PrepareProgram "TSPTraversal",
        Call.LaunchProgram "TSPTraversal" rc.winWidth_ rc.winHeight_
          rc.config_.LocalWorkSizeX rc.config_.LocalWorkSizeY,
        Call.PBOToAtlas (if cur % 2 = 0 then BUFFER_INDEX.EVEN else BUFFER_INDEX.ODD),
        Call.FinishProgram "TSPTraversal",
        Call.ReadBuffer "TSPTraversal" rc.tspBrickListArg_ (rc.brickRequest_.length * 4) true,
        Call.ReleaseBuffer "TSPTraversal" rc.tspBrickListArg_,
        Call.SetInt "RaycasterTSP" rc.timestepArg_ cur,
        Call.BrickList (if cur % 2 = 0 then BUFFER_INDEX.EVEN else BUFFER_INDEX.ODD),
        Call.BrickList (if cur % 2 = 0 then BUFFER_INDEX.EVEN else BUFFER_INDEX.ODD),
        Call.AddBuffer "RaycasterTSP" rc.brickListArg_
          (if w.sizeArgFirst = true then w.brickList ((lead rc).length + 36 + 10)
            else w.brickList ((lead rc).length + 36 + 9))
          ((if w.sizeArgFirst = true then w.brickList ((lead rc).length + 36 + 9)
            else w.brickList ((lead rc).length + 36 + 10)).length * 4)
          AllocMode.COPY_HOST_PTR Permissions.READ_ONLY,
        Call.PrepareProgram "RaycasterTSP",
        Call.LaunchProgram "RaycasterTSP" rc.winWidth_ rc.winHeight_
          rc.config_.LocalWorkSizeX rc.config_.LocalWorkSizeY,
        Call.BuildBrickList (if cur % 2 = 0 then BUFFER_INDEX.ODD else BUFFER_INDEX.EVEN)
          (copyInto (w.deviceData ((lead rc).length + 36 + 6)) rc.brickRequest_),
        Call.DiskToPBO (if cur % 2 = 0 then BUFFER_INDEX.ODD else BUFFER_INDEX.EVEN),
        Call.ReleaseBuffer "RaycasterTSP" rc.brickListArg_,
        Call.FinishProgram "RaycasterTSP"] ++ q ∧
      ((call (Render w) rc).1 = true ↔
        ∀ e ∈ (call (Render w) rc).2.trace, e.ok = true) ∧
      ((call (Render w) rc).1 = true → q = quadPass) ∧
      quadDraw ∈ quadPass ∧ quadDraw ∉ lead rc ++ cubePass := by
  obtain ⟨ht, hret⟩ := Render_staged w rc hr hok
  rw [timesteps_explicit rc cur next hts] at ht
  refine ⟨(cut (stamp w ((lead rc).length + 36 + 18) quadPass)).map Event.call, ?_, ?_, ?_, ?_,
    by decide, ?_⟩
  · have h := (cut_initial (stamp w ((lead rc).length + 36 + 18) quadPass)).map Event.call
    rwa [map_call_stamp] at h
  · unfold callsOf
    rw [ht, List.map_append, map_call_stamp, pipelineCalls_explicit]
  · rw [hret]
    constructor
    · intro hall e he
      rw [ht, cut_eq_self _ hall] at he
      rcases List.mem_append.1 he with h1 | h1
      · by_contra hne
        have hfalse : e.ok = false := by simpa using hne
        obtain ⟨hc, j, hj⟩ := mem_stamp h1
        rcases List.mem_append.1 hc with hc | hc
        · rcases List.mem_append.1 hc with hc | hc
          · rw [hj, answer_lead w rc j _ hc] at hfalse; cases hfalse
          · have := hok e (by rw [ht]; exact List.mem_append_left _ h1) (Or.inl hc)
            rw [this] at hfalse; cases hfalse
        · have := hok e (by rw [ht]; exact List.mem_append_left _ h1)
            (Or.inr (List.all_eq_true.1 (pipelineCalls_stage w rc _ _ _) _ hc))
          rw [this] at hfalse; cases hfalse
      · exact List.all_eq_true.1 hall e h1
    · intro hall
      apply all_ok_of_cut
      intro e he
      exact hall e (by rw [ht]; exact List.mem_append_right _ he)
  · intro htrue
    rw [hret] at htrue
    rw [cut_eq_self _ htrue, map_call_stamp]
  · unfold lead
    cases rc.config_.ClearCache <;> decide

theorem C4_frame_order_witness :
    (call (Render sizeFirstWorld) (rcAnimated 5 6)).1 = true ∧
    (callsOf (call (Render sizeFirstWorld) (rcAnimated 5 6))).drop 37 =
      [Call.SetInt "TSPTraversal" 3 6,
        Call.AddBuffer "TSPTraversal" 4 [] 0 AllocMode.COPY_HOST_PTR Permissions.READ_WRITE,
        Call.PrepareProgram "TSPTraversal",
        Call.LaunchProgram "TSPTraversal" 512 512 16 16,
        Call.PBOToAtlas BUFFER_INDEX.ODD,
        Call.FinishProgram "TSPTraversal",
        Call.ReadBuffer "TSPTraversal" 4 0 true,
        Call.ReleaseBuffer "TSPTraversal" 4,
        Call.SetInt "RaycasterTSP" 9 5,
        Call.BrickList BUFFER_INDEX.ODD,
        Call.BrickList BUFFER_INDEX.ODD,
        Call.AddBuffer "RaycasterTSP" 6 (List.replicate 47 7) (46 * 4)
          AllocMode.COPY_HOST_PTR Permissions.READ_ONLY,
        Call.PrepareProgram "RaycasterTSP",
        Call.LaunchProgram "RaycasterTSP" 512 512 16 16,
        Call.BuildBrickList BUFFER_INDEX.EVEN [],
        Call.DiskToPBO BUFFER_INDEX.EVEN,
        Call.ReleaseBuffer "RaycasterTSP" 6,
        Call.FinishProgram "RaycasterTSP"] ++ quadPass := by
  obtain ⟨q, -, hcalls, hiff, hq, -, -⟩ :=
    C4_frame_order sizeFirstWorld (rcAnimated 5 6) 5 6 (by decide)
      (Or.inr ⟨⟨5, 6⟩, rfl, by decide, by decide⟩) (by decide)
  have htrue : (call (Render sizeFirstWorld) (rcAnimated 5 6)).1 = true := hiff.2 (by decide)
  refine ⟨htrue, ?_⟩
  rw [hcalls, hq htrue]
  rfl

/-! ## Frames without animator -/

theorem Render_true_iff (w : World) (rc : Raycaster) :
    (call (Render w) rc).1 = true ↔
      ready rc = true ∧ ∀ e ∈ (call (Render w) rc).2.trace, e.ok = true := by
  cases hr : ready rc
  · rw [Render_unready w rc hr]
    simp
  · obtain ⟨ht, hret⟩ := Render_ready w rc hr
    rw [hret, ht]
    constructor
    · intro hall
      rw [cut_eq_self _ hall]
      exact ⟨rfl, fun e he => List.all_eq_true.1 hall e he⟩
    · intro h
      exact all_ok_of_cut _ h.2

/-- What `Render` returns and the calls it issues do not depend on the
animator beyond the two timesteps it answers. -/
theorem Render_same_timesteps (w : World) (rc : Raycaster) (a : Option Animator)
    (h : timesteps a = timesteps rc.animator_) :
    (call (Render w) { rc with animator_ := a }).1 = (call (Render w) rc).1 ∧
    (call (Render w) { rc with animator_ := a }).2.trace = (call (Render w) rc).2.trace := by
  have hl : lead { rc with animator_ := a } = lead rc := rfl
  have hf : ∀ o, frameCalls w { rc with animator_ := a } o = frameCalls w rc o := by
    intro o
    simp only [frameCalls, h]
    rfl
  cases hr : ready rc
  · have hr2 : ready { rc with animator_ := a } = false := hr
    rw [Render_unready w rc hr, Render_unready w _ hr2, hl]
    exact ⟨rfl, rfl⟩
  · have hr2 : ready { rc with animator_ := a } = true := hr
    obtain ⟨ht, hret⟩ := Render_ready w rc hr
    obtain ⟨ht2, hret2⟩ := Render_ready w _ hr2
    rw [ht, hret, ht2, hret2, hl, hf]
    exact ⟨rfl, rfl⟩

/-- C8 (counterexample): without animator, in a frame whose preconditions hold
and in which all eighteen compute and streaming calls are issued and return
`true`, `Render` returns `false` when the bind of the output texture in the
quad pass fails. -/
theorem C8_counterexample :
    rcReady.animator_ = none ∧ ready rcReady = true ∧
    (∀ e ∈ (call (Render (stageFailWorld 57)) rcReady).2.trace,
      isStage e.call = true → e.ok = true) ∧
    ((callsOf (call (Render (stageFailWorld 57)) rcReady)).filter isStage).length = 18 ∧
    (call (Render (stageFailWorld 57)) rcReady).2.trace.getLast? =
      some ⟨Call.TextureBind "quadTex_" "quadShaderProgram_" "quadTex" 0, false⟩ ∧
    (call (Render (stageFailWorld 57)) rcReady).1 = false := by
  refine ⟨rfl, by decide, by decide, by decide, by decide, by decide⟩

/-- C8 (amended): without an animator `Render` does not abort for that reason:
what it returns and the calls it issues are those of a frame whose animator
answers `0` and `1`.  In every frame, aborted or not, the calls are an initial
part of the list below: the traversal is launched for timestep `1`, the raycast
program receives timestep `0`, the slot `EVEN` is read and the slot `ODD` is
written.  `Render` returns `true` exactly when the preconditions hold and every
call of the frame, the shader and GL checks of the cube and quad pass included,
reports success, and then it has issued the whole list. -/
theorem C8_no_animator (w : World) (rc : Raycaster) (ha : rc.animator_ = none) :
    ∃ calls : List Call,
      calls = lead rc ++ cubePass ++ [
        Call.SetInt "TSPTraversal" rc.tspTimestepArg_ 1,
        Call.AddBuffer "TSPTraversal" rc.tspBrickListArg_ rc.brickRequest_
          (rc.brickRequest_.length * 4) AllocMode.COPY_HOST_PTR Permissions.READ_WRITE,
        Call.PrepareProgram "TSPTraversal",
        Call.LaunchProgram "TSPTraversal" rc.winWidth_ rc.winHeight_
          rc.config_.LocalWorkSizeX rc.config_.LocalWorkSizeY,
        Call.PBOToAtlas BUFFER_INDEX.EVEN,
        Call.FinishProgram "TSPTraversal",
        Call.ReadBuffer "TSPTraversal" rc.tspBrickListArg_ (rc.brickRequest_.length * 4) true,
        Call.ReleaseBuffer "TSPTraversal" rc.tspBrickListArg_,
        Call.SetInt "RaycasterTSP" rc.timestepArg_ 0,
        Call.BrickList BUFFER_INDEX.EVEN,
        Call.BrickList BUFFER_INDEX.EVEN,
        Call.AddBuffer "RaycasterTSP" rc.brickListArg_
          (if w.sizeArgFirst = true then w.brickList ((lead rc).length + 36 + 10)
            else w.brickList ((lead rc).length + 36 + 9))
          ((if w.sizeArgFirst = true then w.brickList ((lead rc).length + 36 + 9)
            else w.brickList ((lead rc).length + 36 + 10)).length * 4)
          AllocMode.COPY_HOST_PTR Permissions.READ_ONLY,
        Call.PrepareProgram "RaycasterTSP",
        Call.LaunchProgram "RaycasterTSP" rc.winWidth_ rc.winHeight_
          rc.config_.LocalWorkSizeX rc.config_.LocalWorkSizeY,
        Call.BuildBrickList BUFFER_INDEX.ODD
          (copyInto (w.deviceData ((lead rc).length + 36 + 6)) rc.brickRequest_),
        Call.DiskToPBO BUFFER_INDEX.ODD,
        Call.ReleaseBuffer "RaycasterTSP" rc.brickListArg_,
        Call.FinishProgram "RaycasterTSP"] ++ quadPass ∧
      callsOf (call (Render w) rc) <+: calls ∧
      ((call (Render w) rc).1 = true ↔
        ready rc = true ∧ ∀ e ∈ (call (Render w) rc).2.trace, e.ok = true) ∧
      ((call (Render w) rc).1 = true → callsOf (call (Render w) rc) = calls) ∧
      (call (Render w) { rc with animator_ := some ⟨0, 1⟩ }).1 = (call (Render w) rc).1 ∧
      callsOf (call (Render w) { rc with animator_ := some ⟨0, 1⟩ })
        = callsOf (call (Render w) rc) := by
  have hfull : lead rc ++ frameCalls w rc (lead rc).length = lead rc ++ cubePass ++ [
        Call.SetInt "TSPTraversal" rc.tspTimestepArg_ 1,
        Call.AddBuffer "TSPTraversal" rc.tspBrickListArg_ rc.brickRequest_
          (rc.brickRequest_.length * 4) AllocMode.COPY_HOST_PTR Permissions.READ_WRITE,
        Call.PrepareProgram "TSPTraversal",
        Call.LaunchProgram "TSPTraversal" rc.winWidth_ rc.winHeight_
          rc.config_.LocalWorkSizeX rc.config_.LocalWorkSizeY,
        Call.PBOToAtlas BUFFER_INDEX.EVEN,
        Call.FinishProgram "TSPTraversal",
        Call.ReadBuffer "TSPTraversal" rc.tspBrickListArg_ (rc.brickRequest_.length * 4) true,
        Call.ReleaseBuffer "TSPTraversal" rc.tspBrickListArg_,
        Call.SetInt "RaycasterTSP" rc.timestepArg_ 0,
        Call.BrickList BUFFER_INDEX.EVEN,
        Call.BrickList BUFFER_INDEX.EVEN,
        Call.AddBuffer "RaycasterTSP" rc.brickListArg_
          (if w.sizeArgFirst = true then w.brickList ((lead rc).length + 36 + 10)
            else w.brickList ((lead rc).length + 36 + 9))
          ((if w.sizeArgFirst = true then w.brickList ((lead rc).length + 36 + 9)
            else w.brickList ((lead rc).length + 36 + 10)).length * 4)
          AllocMode.COPY_HOST_PTR Permissions.READ_ONLY,
        Call.PrepareProgram "RaycasterTSP",
        Call.LaunchProgram "RaycasterTSP" rc.winWidth_ rc.winHeight_
          rc.config_.LocalWorkSizeX rc.config_.LocalWorkSizeY,
        Call.BuildBrickList BUFFER_INDEX.ODD
          (copyInto (w.deviceData ((lead rc).length + 36 + 6)) rc.brickRequest_),
        Call.DiskToPBO BUFFER_INDEX.ODD,
        Call.ReleaseBuffer "RaycasterTSP" rc.brickListArg_,
        Call.FinishProgram "RaycasterTSP"] ++ quadPass := by
    have hts := timesteps_explicit rc 0 1 (Or.inl ⟨ha, rfl, rfl⟩)
    simp only [frameCalls, hts, pipelineCalls_explicit, List.append_assoc]
    rfl
  refine ⟨_, rfl, ?_, Render_true_iff w rc, ?_, ?_⟩
  · rw [← hfull]
    exact Render_initial w rc
  · intro htrue
    rw [← hfull]
    exact Render_true w rc htrue
  · have hsame := Render_same_timesteps w rc (some ⟨0, 1⟩) (by rw [ha]; rfl)
    refine ⟨hsame.1, ?_⟩
    unfold callsOf
    rw [hsame.2]

theorem C8_no_animator_witness :
    (call (Render okWorld) rcReady).1 = true ∧
    (callsOf (call (Render okWorld) rcReady)).filter isStage = [
      Call.SetInt "TSPTraversal" 3 1,
      Call.AddBuffer "TSPTraversal" 4 [] 0 AllocMode.COPY_HOST_PTR Permissions.READ_WRITE,
      Call.PrepareProgram "TSPTraversal",
      Call.LaunchProgram "TSPTraversal" 512 512 16 16,
      Call.PBOToAtlas BUFFER_INDEX.EVEN,
      Call.FinishProgram "TSPTraversal",
      Call.ReadBuffer "TSPTraversal" 4 0 true,
      Call.ReleaseBuffer "TSPTraversal" 4,
      Call.SetInt "RaycasterTSP" 9 0,
      Call.BrickList BUFFER_INDEX.EVEN,
      Call.BrickList BUFFER_INDEX.EVEN,
      Call.AddBuffer "RaycasterTSP" 6 [7, 8] 8 AllocMode.COPY_HOST_PTR Permissions.READ_ONLY,
      Call.PrepareProgram "RaycasterTSP",
      Call.LaunchProgram "RaycasterTSP" 512 512 16 16,
      Call.BuildBrickList BUFFER_INDEX.ODD [],
      Call.DiskToPBO BUFFER_INDEX.ODD,
      Call.ReleaseBuffer "RaycasterTSP" 6,
      Call.FinishProgram "RaycasterTSP"] := by
  obtain ⟨calls, hcalls, -, hiff, hfull, -, -⟩ := C8_no_animator okWorld rcReady rfl
  have htrue : (call (Render okWorld) rcReady).1 = true := hiff.2 ⟨by decide, by decide⟩
  refine ⟨htrue, ?_⟩
  rw [hfull htrue, hcalls]
  rfl

/-! ## `InitPipeline` on a raycaster whose TSP was never set -/

/-- With at least one platform recorded, `InitDevices` returns `true` when the
device query reports success with a count of zero: the loops over the devices
run no round. -/
theorem InitDevices_zero_devices (d : Driver) (m : CLManager) (hp : 1 ≤ m.numPlatforms_)
    (hcode : d.code m.log.length = CL_SUCCESS) (hcount : d.count m.log.length = 0) :
    (CLManager.InitDevices d m).1 = true := by
  have hp2 : ¬ m.numPlatforms_ < 1 := by omega
  simp [CLManager.InitDevices, hp2, hcode, hcount, CheckSuccess, CLManager.deviceInfo]

end Flare
